import Mathlib

/-!
# hdf5r: channel registry, record store and time index

A shallow embedding of `src/src/hdf5r.cpp` (class `HDF5R`) together with the
part of the HDF5 container the class drives.

* C++ member functions become functions from the session state (`HDF5R`) to an
  `Outcome` paired with the state the call leaves behind.  A thrown
  `std::runtime_error` is `Outcome.error what`; the state component is what a
  caller catching the exception would observe.
* `uint64_t`, `size_t` and `hsize_t` are natural numbers reduced modulo `2 ^ 64`
  where the program does arithmetic on them; `unsigned int` is reduced modulo
  `2 ^ 32`.
* `std::map` is a key-ordered association list.
* The HDF5 library is not part of the repository.  Its calls are modelled by the
  `H5*` functions below: groups are lists of named members, the two per-channel
  datasets are growable one-dimensional arrays, and a call fails when it is
  handed a negative identifier, when it has to modify a file opened read-only,
  when it addresses an element outside the array, or when the environment makes
  it fail.  Environment failures (the storage errors of the container) are
  supplied to every operation as a record of flags, one per library call whose
  failure the program can observe, by a status it inspects or by an identifier
  it keeps.
* A `Channel` keeps the dataspace identifiers it obtained when the channel was
  created or opened and never renews them after `H5Dset_extent`.  The model
  validates a selection against the current length of the dataset; a library
  that rejects a selection because of the extent remembered by such an
  identifier is an environment failure of the call.
* A `std::string` is a `String`; what the container and `std::string(char
  const*)` see of it are the characters before its first NUL (`c_str`).
* Names of groups and datasets are link names of direct members of a group.
  The container resolves a name as a path (components separated by a slash,
  `.` for the group itself, a leading slash for the root), so the model
  follows it for plain names only (`plain_name`); the round trip of a text
  tag, which says that a call succeeds for every key of a kind, is stated for
  plain names.
* A sample is the natural number its bytes encode, and a datatype is known by
  its size in bytes: it stands for the unsigned integer type of that size.  A
  dataset keeps the datatype it was created with, the file type of the channel
  for the record dataset and `H5T_STD_U64LE` for the time stamp dataset.
  `H5Dwrite` and `H5Dread` convert an element between the memory type they are
  handed and the datatype of the dataset (`H5Tconvert`): a value the
  destination cannot hold becomes the largest value of the destination.
-/

namespace hdf5r

/-! ## Results and containers -/

/-- Result of a call: a returned value, or the message of the
`std::runtime_error` it threw. -/
inductive Outcome (α : Type) where
  | ok (a : α)
  | error (what : String)
  deriving DecidableEq, Repr

/-- True when the call returned normally. -/
def Outcome.isOk {α : Type} : Outcome α → Bool
  | .ok _ => true
  | .error _ => false

/-- Lookup in an association list (`std::map::find`, or a member of a group by
name). -/
def find {κ β : Type} [DecidableEq κ] (k : κ) : List (κ × β) → Option β
  | [] => none
  | (k', v) :: rest => if k' = k then some v else find k rest

/-- Assignment `m[k] = v` on a `std::map` with integer keys: the entry is
replaced when the key is present and inserted in key order otherwise. -/
def put {β : Type} (k : Nat) (v : β) : List (Nat × β) → List (Nat × β)
  | [] => [(k, v)]
  | (k', v') :: rest =>
    if k < k' then (k, v) :: (k', v') :: rest
    else if k = k' then (k, v) :: rest
    else (k', v') :: put k v rest

/-- Members of a container group: replace the member called `k`, or add it
after the existing ones. -/
def assign {β : Type} (k : String) (v : β) : List (String × β) → List (String × β)
  | [] => [(k, v)]
  | (k', v') :: rest => if k' = k then (k, v) :: rest else (k', v') :: assign k v rest

/-- What `std::string::c_str` shows to a C interface, and what
`std::string(char const*)` builds from a buffer: the characters before the
first NUL. -/
def c_str (s : String) : String :=
  String.mk (s.toList.takeWhile (fun c => decide (c ≠ Char.ofNat 0)))

/-! ## The container (HDF5) -/

/-- Identifiers handed out by the container (`hid_t`).  `neg` stands for every
negative value, the others name the object the identifier is open on.  A
datatype is known by its size in bytes: `dtype size` stands for the unsigned
integer type of that size. -/
inductive hid_t where
  | neg
  | channels_grp
  | tags_grp
  | group (link : String)
  | rec_set (link : String)
  | rec_space (link : String)
  | ts_set (link : String)
  | ts_space (link : String)
  | dtype (size : Nat)
  deriving DecidableEq, Repr

/-- The test `id >= 0`. -/
def hid_t.valid : hid_t → Bool
  | .neg => false
  | _ => true

/-- Whether the identifier is open on a datatype. -/
def hid_t.is_type : hid_t → Bool
  | .dtype _ => true
  | _ => false

/-- An index pointer `std::pair<ChannelID, uint64_t>`: channel and record
number. -/
abbrev IndexPointer := Nat × Nat

/-- The type `std::vector<IndexPointer>`. -/
abbrev IndexPointerList := List IndexPointer

/-- The type `std::map<uint64_t, IndexPointerList>`, ordered by time stamp. -/
abbrev Index := List (Nat × IndexPointerList)

/-- Objects stored in a group of the file. -/
inductive Obj where
  /-- scalar dataset of type `H5T_STD_U64LE` -/
  | uint (v : Nat)
  /-- scalar dataset of a fixed-length string type holding the bytes of `s`
  and a terminating NUL -/
  | str (s : String)
  /-- committed datatype -/
  | dtype (size : Nat)
  /-- chunked one-dimensional dataset with unlimited maximum size, of elements
  of a datatype of `width` bytes -/
  | array (width : Nat) (xs : List Nat)
  /-- scalar dataset of a byte-string type (binary tag) -/
  | blob (bytes : List Nat)
  deriving DecidableEq, Repr

/-- A group: its members by link name, in creation order. -/
abbrev Group := List (String × Obj)

/-- Contents of the file: the `/channels` group with one group per channel,
the `/tags` group and the `/index` dataset, each of which may be absent. -/
structure File where
  channels : Option (List (String × Group)) := none
  tags : Option Group := none
  index : Option (List (Nat × IndexPointerList)) := none
  deriving DecidableEq, Repr

/-- Link name of the record dataset of a channel. -/
def RECORDS_SET : String := "records"

/-- Link name of the time stamp dataset of a channel. -/
def TIMESTAMPS_SET : String := "timestamps"

/-- Members of the group an identifier is open on. -/
def File.members (f : File) : hid_t → Option Group
  | .tags_grp => f.tags
  | .group link => f.channels.bind (find link)
  | _ => none

/-- Replace the members of the group an identifier is open on. -/
def File.setMembers (f : File) (h : hid_t) (g : Group) : File :=
  match h with
  | .tags_grp => { f with tags := some g }
  | .group link => { f with channels := f.channels.map (assign link g) }
  | _ => f

/-- Elements of the dataset a dataset identifier is open on. -/
def File.array (f : File) : hid_t → Option (List Nat)
  | .rec_set link =>
    match (f.members (.group link)).bind (find RECORDS_SET) with
    | some (.array _ xs) => some xs
    | _ => none
  | .ts_set link =>
    match (f.members (.group link)).bind (find TIMESTAMPS_SET) with
    | some (.array _ xs) => some xs
    | _ => none
  | _ => none

/-- Size in bytes of the datatype the dataset a dataset identifier is open on
was created with; zero when the identifier is not open on a dataset. -/
def File.width (f : File) : hid_t → Nat
  | .rec_set link =>
    match (f.members (.group link)).bind (find RECORDS_SET) with
    | some (.array w _) => w
    | _ => 0
  | .ts_set link =>
    match (f.members (.group link)).bind (find TIMESTAMPS_SET) with
    | some (.array w _) => w
    | _ => 0
  | _ => 0

/-- Replace the elements of the dataset a dataset identifier is open on; the
datatype of the dataset stays what it is. -/
def File.setArray (f : File) (h : hid_t) (xs : List Nat) : File :=
  match h with
  | .rec_set link =>
    match f.members (.group link) with
    | some g => f.setMembers (.group link) (assign RECORDS_SET (.array (f.width h) xs) g)
    | none => f
  | .ts_set link =>
    match f.members (.group link) with
    | some g => f.setMembers (.group link) (assign TIMESTAMPS_SET (.array (f.width h) xs) g)
    | none => f
  | _ => f

/-- The call `H5Gcreate(loc, name, ...)` on the `/channels` group: the new
identifier and the file.  It fails (negative identifier, file untouched) when
`loc` is negative, the file is read-only, the name is empty or already linked,
or the environment fails it.  Link names are taken as they are: path syntax
(a slash inside the name) is not interpreted. -/
def H5Gcreate (fault writable : Bool) (f : File) (loc : hid_t) (name : String) :
    hid_t × File :=
  match loc, f.channels with
  | .channels_grp, some cs =>
    if fault || !writable || name = "" || (find name cs).isSome then (.neg, f)
    else (.group name, { f with channels := some (cs ++ [(name, [])]) })
  | _, _ => (.neg, f)

/-- The call `H5Dcreate(group, name, ...)` for a dataset whose initial content
is `init` (also `H5Tcommit` for a datatype): whether it succeeded, and the
file.  It fails when the group identifier is not open on a group, the file is
read-only, the name is empty or already linked in the group, or the
environment fails it.  The name is taken as the link name of a direct member
of the group; the container resolves names as paths, so this is what it does
for a plain name (`plain_name`) only. -/
def H5Dcreate (fault writable : Bool) (f : File) (group : hid_t) (name : String)
    (init : Obj) : Bool × File :=
  match f.members group with
  | none => (false, f)
  | some g =>
    if fault || !writable || name = "" || (find name g).isSome then (false, f)
    else (true, f.setMembers group (g ++ [(name, init)]))

/-- The call `H5Dwrite` of the whole content `v` of the scalar dataset `name`
of a group; `none` is a negative status, which leaves the file as it was. -/
def H5Dwrite_scalar (fault : Bool) (f : File) (group : hid_t) (name : String) (v : Obj) :
    Option File :=
  if fault then none
  else match f.members group with
    | none => none
    | some g =>
      if (find name g).isSome then some (f.setMembers group (assign name v g)) else none

/-- Length change of `H5Dset_extent`: elements beyond the new length are
dropped, new elements hold the fill value zero. -/
def resize (xs : List Nat) (n : Nat) : List Nat :=
  xs.take n ++ List.replicate (n - xs.length) 0

/-- The call `H5Dset_extent(dset, {n})`; `none` is a negative status, which
leaves the file as it was. -/
def H5Dset_extent (fault writable : Bool) (f : File) (dset : hid_t) (n : Nat) :
    Option File :=
  if fault || !writable then none
  else match f.array dset with
    | none => none
    | some xs => some (f.setArray dset (resize xs n))

/-- The call `H5Sselect_elements(space, H5S_SELECT_SET, ...)`: true when the
status is non-negative.  The selection itself is passed directly to the read
or write that follows it in the program. -/
def H5Sselect_elements (fault : Bool) (space : hid_t) : Bool :=
  !fault && match space with
    | .rec_space _ => true
    | .ts_space _ => true
    | _ => false

/-- The constant `H5T_NATIVE_ULLONG` (also `H5T_NATIVE_UINT64`), the memory
type of a time stamp. -/
def H5T_NATIVE_ULLONG : hid_t := .dtype 8

/-- The call `H5Tget_size`: the size of a datatype in bytes, zero on failure. -/
def H5Tget_size : hid_t → Nat
  | .dtype n => n
  | _ => 0

/-- The conversion the container applies to an element on its way between a
buffer and a dataset whose datatypes differ: `v` is a value of an unsigned
integer type of `src` bytes, the result is a value of the unsigned integer
type of `dst` bytes.  A destination at least as wide holds every value of the
source; a value a narrower destination cannot hold becomes the largest value
of the destination. -/
def H5Tconvert (src dst v : Nat) : Nat :=
  if src ≤ dst then v else if v < 256 ^ dst then v else 256 ^ dst - 1

/-- The call `H5Dwrite` of one element `v` at position `coord` of a
one-dimensional dataset; `none` is a negative status, which leaves the file as
it was.  The memory type must be a datatype and the position must lie inside
the dataset.  The element is converted from the memory type to the datatype
of the dataset. -/
def H5Dwrite (fault writable : Bool) (f : File) (dset mem_type : hid_t) (coord v : Nat) :
    Option File :=
  if fault || !writable then none
  else match mem_type, f.array dset with
    | .dtype _, some xs =>
      if coord < xs.length then
        some (f.setArray dset
          (xs.set coord (H5Tconvert (H5Tget_size mem_type) (f.width dset) v)))
      else none
    | _, _ => none

/-- The call `H5Dread` of the element at position `coord` of a one-dimensional
dataset; `none` is a negative status.  The element is converted from the
datatype of the dataset to the memory type. -/
def H5Dread (fault : Bool) (f : File) (dset mem_type : hid_t) (coord : Nat) : Option Nat :=
  if fault then none
  else match mem_type, f.array dset with
    | .dtype _, some xs =>
      (xs.get? coord).map (H5Tconvert (f.width dset) (H5Tget_size mem_type))
    | _, _ => none

/-! ## Channel and ChannelInfo -/

/-- The class `ChannelInfo`. -/
structure ChannelInfo where
  name_ : String
  type_name_ : String
  source_name_ : String
  mem_type_ : hid_t
  size_ : Nat
  start_time_ : Nat
  end_time_ : Nat
  deriving DecidableEq, Repr

/-- The class `Channel`; the defaults are those of its constructor. -/
structure Channel where
  name_ : String := ""
  group_ : hid_t := .neg
  rec_space_ : hid_t := .neg
  rec_set_ : hid_t := .neg
  ts_space_ : hid_t := .neg
  ts_set_ : hid_t := .neg
  mem_type_ : hid_t := .neg
  size_ : Nat := 0
  deriving DecidableEq, Repr

/-- The type `ChannelID`, a `uint64_t`. -/
abbrev ChannelID := Nat

/-- The open modes. -/
inductive Mode where
  | RDONLY
  | RDWR
  | NEW
  | TRUNCATE
  deriving DecidableEq, Repr

/-- The class `HDF5R`.  `store` is the content of the file behind the `file_`
identifier, which is non-negative in every constructed object. -/
structure HDF5R where
  mode_ : Mode
  store : File
  channels_grp_ : hid_t
  tags_grp_ : hid_t
  channels_ : List (ChannelID × Channel)
  next_id_ : ChannelID
  index_ : Index
  deriving DecidableEq, Repr

/-- Whether the file was opened with write access. -/
def HDF5R.writable (s : HDF5R) : Bool :=
  decide (s.mode_ ≠ .RDONLY)

/-- Access `channels_[chan_id]`: the element found, or a default-constructed
`Channel` that the map now contains. -/
def subscript (m : List (ChannelID × Channel)) (chan_id : ChannelID) :
    Channel × List (ChannelID × Channel) :=
  match find chan_id m with
  | some c => (c, m)
  | none => ({}, put chan_id {} m)

/-! ## Environment failures -/

/-- Failures of the checked calls of `write_string`. -/
structure WriteStringFaults where
  set_size : Bool := false
  write : Bool := false
  deriving DecidableEq, Repr

/-- Failures of the library calls of `add_channel`, in program order. -/
structure AddChannelFaults where
  gcreate : Bool := false
  uid : Bool := false
  name : WriteStringFaults := {}
  type_name : WriteStringFaults := {}
  source_name : WriteStringFaults := {}
  mem_type : Bool := false
  rec_create : Bool := false
  ts_create : Bool := false
  deriving DecidableEq, Repr

/-- Failures of the checked calls of `read_string`. -/
structure ReadStringFaults where
  open_ : Bool := false
  get_type : Bool := false
  read : Bool := false
  deriving DecidableEq, Repr

/-- Failures of the checked calls of `read_channel_info`, in program order. -/
structure ReadChannelInfoFaults where
  name : ReadStringFaults := {}
  type_name : ReadStringFaults := {}
  source_name : ReadStringFaults := {}
  mem_type : Bool := false
  select : Bool := false
  read : Bool := false
  deriving DecidableEq, Repr

/-- Failures of the six checked calls of `add_entry`, in program order. -/
structure AddEntryFaults where
  rec_extent : Bool := false
  rec_select : Bool := false
  rec_write : Bool := false
  ts_extent : Bool := false
  ts_select : Bool := false
  ts_write : Bool := false
  deriving DecidableEq, Repr

/-- Failures of the four checked calls of `get_entry`, in program order. -/
structure GetEntryFaults where
  ts_select : Bool := false
  ts_read : Bool := false
  rec_select : Bool := false
  rec_read : Bool := false
  deriving DecidableEq, Repr

/-! ## Private helpers of HDF5R -/

/-- The function `HDF5R::write_uint`.  The parameter is an `unsigned int`, so
the value is reduced modulo `2 ^ 32`; the dataset that `H5Dcreate` made stays in
the file when the write fails. -/
def write_uint (fault writable : Bool) (f : File) (group : hid_t) (set : String)
    (value : Nat) : Outcome Unit × File :=
  match H5Dcreate false writable f group (c_str set) (.uint 0) with
  | (false, f1) => (.error ("Error writing uint " ++ set), f1)
  | (true, f1) =>
    match H5Dwrite_scalar fault f1 group (c_str set) (.uint (value % 2 ^ 32)) with
    | none => (.error ("Error writing uint " ++ set), f1)
    | some f2 => (.ok (), f2)

/-- The function `HDF5R::write_string`. -/
def write_string (flt : WriteStringFaults) (writable : Bool) (f : File) (group : hid_t)
    (set str : String) : Outcome Unit × File :=
  if flt.set_size then (.error ("Error setting string size for string " ++ set), f)
  else
    match H5Dcreate false writable f group (c_str set) (.str "") with
    | (false, f1) => (.error ("Error writing string " ++ set), f1)
    | (true, f1) =>
      match H5Dwrite_scalar flt.write f1 group (c_str set) (.str str) with
      | none => (.error ("Error writing string " ++ set), f1)
      | some f2 => (.ok (), f2)

/-- The function `HDF5R::write_type`: `H5Tcopy` fails on an identifier that is
not a datatype, `H5Tcommit` links the copy into the group. -/
def write_type (fault writable : Bool) (f : File) (group : hid_t) (set : String)
    (type : hid_t) : Outcome Unit × File :=
  match type with
  | .dtype n =>
    match H5Dcreate fault writable f group (c_str set) (.dtype n) with
    | (false, f1) => (.error ("Error writing data type " ++ set), f1)
    | (true, f1) => (.ok (), f1)
  | _ => (.error "Error copying data type", f)

/-- The bytes `H5Dread` delivers when a scalar dataset is read with its own
type; a `std::string` is a `String` whose characters are its bytes. -/
def Obj.bytes : Obj → Option String
  | .str s => some (s.push (Char.ofNat 0))
  | .blob b => some (String.mk (b.map Char.ofNat))
  | .uint v => some (String.mk ((List.range 8).map (fun i => Char.ofNat (v / 256 ^ i % 256))))
  | .array _ _ => none
  | .dtype _ => none

/-- The function `HDF5R::read_string`. -/
def read_string (flt : ReadStringFaults) (f : File) (group : hid_t) (set : String) :
    Outcome String :=
  match (f.members group).bind (find (c_str set)) with
  | none => .error ("Failed to open string " ++ set)
  | some (.dtype _) => .error ("Failed to open string " ++ set)
  | some o =>
    if flt.open_ then .error ("Failed to open string " ++ set)
    else if flt.get_type then .error ("Failed to get string data type for" ++ set)
    else match o.bytes with
      | some b => if flt.read then .error ("Error reading string " ++ set) else .ok (c_str b)
      | none => .error ("Error reading string " ++ set)

/-- The function `HDF5R::read_type`. -/
def read_type (fault : Bool) (f : File) (group : hid_t) (set : String) : Outcome hid_t :=
  match (f.members group).bind (find (c_str set)) with
  | some (.dtype n) =>
    if fault then .error ("Error reading data type " ++ set) else .ok (.dtype n)
  | _ => .error ("Error reading data type " ++ set)

/-- Failures of the checked calls of `read_uint`. -/
structure ReadUintFaults where
  open_ : Bool := false
  read : Bool := false
  deriving DecidableEq, Repr

/-- The function `HDF5R::read_uint`.  The result is an `unsigned int`: the low
32 bits of the stored value. -/
def read_uint (flt : ReadUintFaults) (f : File) (group : hid_t) (set : String) :
    Outcome Nat :=
  match (f.members group).bind (find (c_str set)) with
  | some (.uint v) =>
    if flt.open_ then .error ("Failed to open uint " ++ set)
    else if flt.read then .error ("Failed to read uint " ++ set)
    else .ok (v % 2 ^ 32)
  | some (.dtype _) => .error ("Failed to open uint " ++ set)
  | some _ =>
    if flt.open_ then .error ("Failed to open uint " ++ set)
    else .error ("Failed to read uint " ++ set)
  | none => .error ("Failed to open uint " ++ set)

/-- The function `HDF5R::read_channel_info`.  The two selected time stamps
are read by one `H5Dread` call, so both element reads share its failure
flag. -/
def read_channel_info (flt : ReadChannelInfoFaults) (f : File) (chan : Channel) :
    Outcome ChannelInfo :=
  match read_string flt.name f chan.group_ "name" with
  | .error e => .error e
  | .ok name =>
  match read_string flt.type_name f chan.group_ "type_name" with
  | .error e => .error e
  | .ok type_name =>
  match read_string flt.source_name f chan.group_ "source_name" with
  | .error e => .error e
  | .ok source_name =>
  match read_type flt.mem_type f chan.group_ "mem_type" with
  | .error e => .error e
  | .ok mem_type =>
    if 0 < chan.size_ then
      if !H5Sselect_elements flt.select chan.ts_space_ then
        .error "Failed to select start and end time stamps"
      else
        match H5Dread flt.read f chan.ts_set_ H5T_NATIVE_ULLONG 0,
              H5Dread flt.read f chan.ts_set_ H5T_NATIVE_ULLONG (chan.size_ - 1) with
        | some t0, some t1 =>
          .ok ⟨name, type_name, source_name, mem_type, chan.size_, t0, t1⟩
        | _, _ => .error "Failed to read start and end time stamps"
    else .ok ⟨name, type_name, source_name, mem_type, chan.size_, 0, 0⟩

/-! ## Public operations of HDF5R -/

/-- The function `HDF5R::have_channel`. -/
def have_channel (s : HDF5R) (name : String) : Bool :=
  s.channels_.any (fun p => decide (p.2.name_ = name))

/-- The function `HDF5R::channels`. -/
def channels (s : HDF5R) : List ChannelID :=
  s.channels_.map Prod.fst

/-- The function `HDF5R::add_channel`.  Both datasets are created with ten
elements (`dims[1] = {10}`), the record dataset with the file type and the
time stamp dataset with `H5T_STD_U64LE`; the registered `Channel` has size
zero. -/
def add_channel (flt : AddChannelFaults) (s : HDF5R) (name type_name source_name : String)
    (mem_type file_type : hid_t) : Outcome ChannelID × HDF5R :=
  if have_channel s name then (.error "Channel already exists", s)
  else
    let id := s.next_id_
    let s := { s with next_id_ := (s.next_id_ + 1) % 2 ^ 64 }
    let w := s.writable
    let (group, f) := H5Gcreate flt.gcreate w s.store s.channels_grp_ (c_str name)
    match write_uint flt.uid w f group "uid" id with
    | (.error e, f) => (.error e, { s with store := f })
    | (.ok _, f) =>
    match write_string flt.name w f group "name" name with
    | (.error e, f) => (.error e, { s with store := f })
    | (.ok _, f) =>
    match write_string flt.type_name w f group "type_name" type_name with
    | (.error e, f) => (.error e, { s with store := f })
    | (.ok _, f) =>
    match write_string flt.source_name w f group "source_name" source_name with
    | (.error e, f) => (.error e, { s with store := f })
    | (.ok _, f) =>
    match write_type flt.mem_type w f group "mem_type" mem_type with
    | (.error e, f) => (.error e, { s with store := f })
    | (.ok _, f) =>
      let rec_space := hid_t.rec_space (c_str name)
      let (rec_ok, f) :=
        H5Dcreate (flt.rec_create || !file_type.is_type) w f group RECORDS_SET
          (.array (H5Tget_size file_type) (List.replicate 10 0))
      let rec_set := if rec_ok then hid_t.rec_set (c_str name) else hid_t.neg
      let ts_space := hid_t.ts_space (c_str name)
      let (ts_ok, f) :=
        H5Dcreate flt.ts_create w f group TIMESTAMPS_SET (.array 8 (List.replicate 10 0))
      let ts_set := if ts_ok then hid_t.ts_set (c_str name) else hid_t.neg
      (.ok id,
        { s with
          store := f
          channels_ :=
            put id ⟨name, group, rec_space, rec_set, ts_space, ts_set, mem_type, 0⟩
              s.channels_ })

/-- The function `HDF5R::get_channel_info`. -/
def get_channel_info (flt : ReadChannelInfoFaults) (s : HDF5R) (chan_id : ChannelID) :
    Outcome ChannelInfo × HDF5R :=
  match find chan_id s.channels_ with
  | none => (.error "Bad channel ID", s)
  | some chan => (read_channel_info flt s.store chan, s)

/-- The function `HDF5R::add_entry`; `buf` is the sample the buffer holds, a
value of the memory type of the channel. -/
def add_entry (flt : AddEntryFaults) (s : HDF5R) (chan_id : ChannelID) (timestamp buf : Nat) :
    Outcome Unit × HDF5R :=
  let (chan, m) := subscript s.channels_ chan_id
  let s := { s with channels_ := m }
  let w := s.writable
  let extent := (chan.size_ + 1) % 2 ^ 64
  let coords := chan.size_
  match H5Dset_extent flt.rec_extent w s.store chan.rec_set_ extent with
  | none => (.error "Failed to extend dataset for new record", s)
  | some f =>
  if !H5Sselect_elements flt.rec_select chan.rec_space_ then
    (.error "Failed to select element to write record", { s with store := f })
  else
  match H5Dwrite flt.rec_write w f chan.rec_set_ chan.mem_type_ coords buf with
  | none => (.error "Failed to write record", { s with store := f })
  | some f =>
  match H5Dset_extent flt.ts_extent w f chan.ts_set_ extent with
  | none => (.error "Failed to extend dataset for new timestamp", { s with store := f })
  | some f =>
  if !H5Sselect_elements flt.ts_select chan.ts_space_ then
    (.error "Failed to select element to write timestamp", { s with store := f })
  else
  match H5Dwrite flt.ts_write w f chan.ts_set_ H5T_NATIVE_ULLONG coords timestamp with
  | none => (.error "Failed to write timestamp", { s with store := f })
  | some f =>
    (.ok (),
      { s with
        store := f
        channels_ := put chan_id { chan with size_ := (chan.size_ + 1) % 2 ^ 64 } m
        index_ := put timestamp [(chan_id, coords)] s.index_ })

/-- The function `HDF5R::get_entry_size`. -/
def get_entry_size (s : HDF5R) (chan_id : ChannelID) (_index : Nat) : Nat × HDF5R :=
  let (chan, m) := subscript s.channels_ chan_id
  (H5Tget_size chan.mem_type_, { s with channels_ := m })

/-- The function `HDF5R::get_entry`: the time stamp it returns and the sample
it stores into `buf`. -/
def get_entry (flt : GetEntryFaults) (s : HDF5R) (chan_id : ChannelID) (index : Nat) :
    Outcome (Nat × Nat) × HDF5R :=
  let (chan, m) := subscript s.channels_ chan_id
  let s := { s with channels_ := m }
  if !H5Sselect_elements flt.ts_select chan.ts_space_ then
    (.error "Failed to select time stamp", s)
  else
  match H5Dread flt.ts_read s.store chan.ts_set_ H5T_NATIVE_ULLONG index with
  | none => (.error "Failed to read time stamp", s)
  | some timestamp =>
  if !H5Sselect_elements flt.rec_select chan.rec_space_ then
    (.error "Failed to select record", s)
  else
  match H5Dread flt.rec_read s.store chan.rec_set_ chan.mem_type_ index with
  | none => (.error "Failed to read record", s)
  | some buf => (.ok (timestamp, buf), s)

/-! ## Tags -/

/-- The function `HDF5R::prepare_tags_group`: open `/tags`, creating it when it
is missing and the file can be written. -/
def prepare_tags_group (s : HDF5R) : HDF5R :=
  if s.tags_grp_.valid then s
  else match s.store.tags with
    | some _ => { s with tags_grp_ := .tags_grp }
    | none =>
      if s.writable then
        { s with tags_grp_ := .tags_grp, store := { s.store with tags := some [] } }
      else { s with tags_grp_ := .neg }

/-- The function `HDF5R::set_text_tag`. -/
def set_text_tag (flt : WriteStringFaults) (s : HDF5R) (tag value : String) :
    Outcome Unit × HDF5R :=
  let s := prepare_tags_group s
  match write_string flt s.writable s.store s.tags_grp_ tag value with
  | (r, f) => (r, { s with store := f })

/-- The function `HDF5R::get_text_tag`. -/
def get_text_tag (flt : ReadStringFaults) (s : HDF5R) (tag : String) : Outcome String :=
  if !s.tags_grp_.valid then .error ("No such tag: " ++ tag)
  else read_string flt s.store s.tags_grp_ tag

/-- The function `HDF5R::set_binary_tag`; `bytes` is the content of the
buffer, whose length is the `size` argument.  A type of size zero cannot be
created, and then no dataset either. -/
def set_binary_tag (fault : Bool) (s : HDF5R) (tag : String) (bytes : List Nat) :
    Outcome Unit × HDF5R :=
  let s := prepare_tags_group s
  match H5Dcreate (decide (bytes.length = 0)) s.writable s.store s.tags_grp_ (c_str tag)
      (.blob (List.replicate bytes.length 0)) with
  | (false, f) => (.error ("Error writing binary tag " ++ tag), { s with store := f })
  | (true, f) =>
    match H5Dwrite_scalar fault f s.tags_grp_ (c_str tag) (.blob bytes) with
    | none => (.error ("Error writing binary tag " ++ tag), { s with store := f })
    | some f => (.ok (), { s with store := f })

/-- The type `TagType`. -/
inductive TagType where
  | STRING_TAG
  | BINARY_TAG
  deriving DecidableEq, Repr

/-- Assignment `m[k] = v` on a `std::map` with string keys, which keeps the
entries in the order of the keys. -/
def put_name {β : Type} (k : String) (v : β) : List (String × β) → List (String × β)
  | [] => [(k, v)]
  | (k', v') :: rest =>
    if k < k' then (k, v) :: (k', v') :: rest
    else if k = k' then (k, v) :: rest
    else (k', v') :: put_name k v rest

/-- The function `HDF5R::get_tags`, without environment failures: the kind of
every member of the tags group, keyed by name. -/
def get_tags (s : HDF5R) : List (String × TagType) :=
  if !s.tags_grp_.valid then []
  else match s.store.tags with
    | none => []
    | some g =>
      g.foldl
        (fun acc p =>
          put_name p.1
            (match p.2 with
              | .str _ => TagType.STRING_TAG
              | _ => TagType.BINARY_TAG)
            acc)
        []

/-! ## The persisted index -/

/-- Failures of the checked calls inside the loops of `read_index` and
`write_index`, by iteration. -/
structure IndexFaults where
  select : Nat → Bool := fun _ => false
  transfer : Nat → Bool := fun _ => false

/-- The loop of `HDF5R::read_index` from entry number `i` on. -/
def read_index_loop (flt : IndexFaults) :
    Nat → List (Nat × IndexPointerList) → Index → Outcome Unit × Index
  | _, [], index => (.ok (), index)
  | i, (timestamp, records) :: rest, index =>
    if flt.select i then (.error "Failed to select index entry for reading", index)
    else if flt.transfer i then (.error "Failed to read index entry", index)
    else read_index_loop flt (i + 1) rest (put timestamp records index)

/-- The function `HDF5R::read_index`. -/
def read_index (flt : IndexFaults) (s : HDF5R) : Outcome Unit × HDF5R :=
  match s.store.index with
  | none => (.ok (), s)
  | some entries =>
    match read_index_loop flt 0 entries s.index_ with
    | (r, index) => (r, { s with index_ := index })

/-- The loop of `HDF5R::write_index` from the entry that is written at
position `offset`, an `unsigned int`, of the new dataset `dset`. -/
def write_index_loop (flt : IndexFaults) :
    Nat → Nat → Index → List (Nat × IndexPointerList) →
      Outcome Unit × List (Nat × IndexPointerList)
  | _, _, [], dset => (.ok (), dset)
  | i, offset, entry :: rest, dset =>
    if flt.select i then (.error "Failed to select element in index for writing.", dset)
    else if flt.transfer i || decide (dset.length ≤ offset) then
      (.error "Failed to write index element.", dset)
    else write_index_loop flt (i + 1) ((offset + 1) % 2 ^ 32) rest (dset.set offset entry)

/-- The function `HDF5R::write_index`, returning the file it leaves.  A new
dataset holds an entry with time stamp zero and no pointers at every
position that has not been written. -/
def write_index (flt : IndexFaults) (s : HDF5R) : Outcome Unit × File :=
  if s.mode_ = .RDONLY then (.ok (), s.store)
  else
    let f := { s.store with index := none }
    if s.index_.length = 0 then (.ok (), f)
    else
      match write_index_loop flt 0 0 s.index_ (List.replicate s.index_.length (0, [])) with
      | (r, dset) => (r, { f with index := some dset })

/-! ## Opening and closing -/

/-- Environment of `prepare`: failures of `read_type` and `read_uint` by
channel, of `read_index`, and the indeterminate value `num_recs` keeps when the
time stamp dataset cannot be opened. -/
structure PrepareFaults where
  mem_type : Nat → Bool := fun _ => false
  uid : Nat → ReadUintFaults := fun _ => {}
  num_recs : Nat := 0
  index : IndexFaults := {}

/-- The loop of `HDF5R::prepare` over the names of the channel groups, from
group number `i` on; the state is `channels_` and `next_id_`. -/
def prepare_loop (flt : PrepareFaults) (f : File) :
    Nat → List String → List (ChannelID × Channel) × ChannelID →
      Outcome (List (ChannelID × Channel) × ChannelID)
  | _, [], st => .ok st
  | i, ii :: rest, (chans, next_id) =>
    let group := hid_t.group ii
    let rec_set := if (f.array (.rec_set ii)).isSome then hid_t.rec_set ii else hid_t.neg
    let rec_space := if rec_set.valid then hid_t.rec_space ii else hid_t.neg
    let ts_set := if (f.array (.ts_set ii)).isSome then hid_t.ts_set ii else hid_t.neg
    let ts_space := if ts_set.valid then hid_t.ts_space ii else hid_t.neg
    match read_type (flt.mem_type i) f group "mem_type" with
    | .error e => .error e
    | .ok mem_type =>
      let num_recs :=
        match f.array ts_set with
        | some xs => xs.length
        | none => flt.num_recs
      match read_uint (flt.uid i) f group "uid" with
      | .error e => .error e
      | .ok uid =>
        let chans := put uid ⟨ii, group, rec_space, rec_set, ts_space, ts_set, mem_type, num_recs⟩ chans
        let next_id := if (uid + 1) % 2 ^ 32 > next_id then (uid + 1) % 2 ^ 32 else next_id
        prepare_loop flt f (i + 1) rest (chans, next_id)

/-- The function `HDF5R::prepare`.  The names of the channel groups are
visited in the order the file lists them. -/
def prepare (flt : PrepareFaults) (s : HDF5R) : Outcome HDF5R :=
  let r : Outcome HDF5R :=
    match s.store.channels with
    | none =>
      if s.writable then
        .ok { s with channels_grp_ := .channels_grp, store := { s.store with channels := some [] } }
      else .ok { s with channels_grp_ := .neg }
    | some cs =>
      match prepare_loop flt s.store 0 (cs.map Prod.fst) (s.channels_, s.next_id_) with
      | .error e => .error e
      | .ok (chans, next_id) =>
        .ok { s with channels_grp_ := .channels_grp, channels_ := chans, next_id_ := next_id }
  match r with
  | .error e => .error e
  | .ok s =>
    match read_index flt.index (prepare_tags_group s) with
    | (.error e, _) => .error e
    | (.ok _, s) => .ok s

/-- The constructor `HDF5R::HDF5R(filename, mode)`; `disk` is the file found
under the name, if any. -/
def HDF5R.open_ (flt : PrepareFaults) (disk : Option File) (mode : Mode) : Outcome HDF5R :=
  let fresh (f : File) : HDF5R := ⟨mode, f, .neg, .neg, [], 0, []⟩
  match mode, disk with
  | .RDONLY, none => .error "File not found"
  | .RDONLY, some f => prepare flt (fresh f)
  | .RDWR, none => .error "File not found"
  | .RDWR, some f => prepare flt (fresh f)
  | .NEW, some _ => .error "Could not create new file"
  | .NEW, none => prepare flt (fresh {})
  | .TRUNCATE, _ => prepare flt (fresh {})

/-- The destructor `HDF5R::~HDF5R`: the index is written and every
identifier is released; what remains is the file. -/
def HDF5R.close (flt : IndexFaults) (s : HDF5R) : Outcome Unit × File :=
  write_index flt s

/-! ## Vocabulary of the properties -/

/-- The member called `k` of the channel group `link`. -/
def File.member (f : File) (link k : String) : Option Obj :=
  (f.members (.group link)).bind (find k)

/-- Consecutive calls of `add_entry` on one channel, each with its own
environment, time stamp and sample: the state after the last call when every
call returned normally. -/
def add_entries (s : HDF5R) (chan_id : ChannelID) :
    List (AddEntryFaults × Nat × Nat) → Option HDF5R
  | [] => some s
  | (flt, timestamp, buf) :: rest =>
    match add_entry flt s chan_id timestamp buf with
    | (.ok _, s') => add_entries s' chan_id rest
    | (.error _, _) => none

/-- Lengths of the persisted record array and time stamp array of a channel. -/
def persisted_lengths (s : HDF5R) (chan : Channel) : Option Nat × Option Nat :=
  ((s.store.array chan.rec_set_).map List.length, (s.store.array chan.ts_set_).map List.length)

/-- What is known about a channel that `add_channel` registered as `c0` with
group `link`, after the pairs `L` have been appended to it.  The record
dataset holds the samples as `H5Dwrite` converted them from the memory type of
the channel to the datatype of the dataset; the time stamp dataset has a
datatype of eight bytes and holds the time stamps. -/
structure Recorded (id : ChannelID) (c0 : Channel) (link : String) (s : HDF5R)
    (L : List (Nat × Nat)) : Prop where
  chan : find id s.channels_ = some { c0 with size_ := L.length }
  group : c0.group_ = .group link
  rec_space : c0.rec_space_ = .rec_space link
  ts_space : c0.ts_space_ = .ts_space link
  mem_type : ∃ n, c0.mem_type_ = .dtype n
  rec_set : c0.rec_set_ = .neg ∨ c0.rec_set_ = .rec_set link
  ts_set : c0.ts_set_ = .neg ∨ c0.ts_set_ = .ts_set link
  live : L ≠ [] → c0.rec_set_ = .rec_set link ∧ c0.ts_set_ = .ts_set link
  name : ∃ a, s.store.member link "name" = some (.str a)
  type_name : ∃ a, s.store.member link "type_name" = some (.str a)
  source_name : ∃ a, s.store.member link "source_name" = some (.str a)
  type : ∃ n, s.store.member link "mem_type" = some (.dtype n)
  recs : c0.rec_set_ = .rec_set link → ∃ xs, s.store.array (.rec_set link) = some xs ∧
    xs.take L.length =
      L.map (fun p =>
        H5Tconvert (H5Tget_size c0.mem_type_) (s.store.width (.rec_set link)) p.2) ∧
    L.length ≤ xs.length
  tss : c0.ts_set_ = .ts_set link → ∃ xs, s.store.array (.ts_set link) = some xs ∧
    xs.take L.length = L.map Prod.fst ∧ L.length ≤ xs.length
  ts_width : c0.ts_set_ = .ts_set link → s.store.width (.ts_set link) = 8

/-- A log as the constructor leaves it for a file created with mode
`TRUNCATE`: no channel, no index, empty `/channels` and `/tags` groups. -/
def new_log : HDF5R :=
  ⟨.TRUNCATE, ⟨some [], some [], none⟩, .channels_grp, .tags_grp, [], 0, []⟩

/-- The log `new_log` after `add_channel("ints", "int", "thin_air", ...)` with
a four-byte memory type and an eight-byte file type. -/
def ints_log : HDF5R :=
  (add_channel {} new_log "ints" "int" "thin_air" (.dtype 4) (.dtype 8)).2

/-- The log `new_log` after `add_channel("bytes", "int", "thin_air", ...)` with
a four-byte memory type and a one-byte file type. -/
def narrow_log : HDF5R :=
  (add_channel {} new_log "bytes" "int" "thin_air" (.dtype 4) (.dtype 1)).2

/-- The `Channel` that `ints_log` holds under the identifier 0. -/
def ints_channel : Channel :=
  ⟨"ints", .group "ints", .rec_space "ints", .rec_set "ints", .ts_space "ints",
    .ts_set "ints", .dtype 4, 0⟩

/-- The log `ints_log` after the appends `(100, 7)` and `(200, 9)`. -/
def two_log : HDF5R :=
  (add_entry {} (add_entry {} ints_log 0 100 7).2 0 200 9).2

/-- The log `ints_log` after two appends with the same time stamp 100. -/
def collision_log : HDF5R :=
  (add_entry {} (add_entry {} ints_log 0 100 7).2 0 100 9).2

/-- The log `ints_log` after `add_channel("floats", "float", "thinner_air", ...)`,
which returns the identifier 1. -/
def two_channels_log : HDF5R :=
  (add_channel {} ints_log "floats" "float" "thinner_air" (.dtype 4) (.dtype 4)).2

/-- An environment in which extending the time stamp dataset fails. -/
def ts_extent_fails : AddEntryFaults :=
  ⟨false, false, false, true, false, false⟩

/-- The log `ints_log` after an `add_entry` whose time stamp extension failed. -/
def torn_log : HDF5R :=
  (add_entry ts_extent_fails ints_log 0 100 7).2

/-- Closing a log and opening the file again with the given mode, without
environment failures. -/
def reopen (s : HDF5R) (mode : Mode) : Outcome HDF5R :=
  HDF5R.open_ {} (some (HDF5R.close {} s).2) mode

/-- The identifiers `channels()` lists after closing a log and opening the
file again. -/
def reopen_channels (s : HDF5R) (mode : Mode) : Outcome (List ChannelID) :=
  match reopen s mode with
  | .ok s' => .ok (channels s')
  | .error e => .error e

/-- What `get_channel_info` returns for a channel after closing a log and
opening the file again. -/
def reopen_info (s : HDF5R) (mode : Mode) (chan_id : ChannelID) : Outcome ChannelInfo :=
  match reopen s mode with
  | .ok s' => (get_channel_info {} s' chan_id).1
  | .error e => .error e

/-- A dataset identifier is negative or open on a dataset of the file. -/
def dataset_open (f : File) (h : hid_t) : Bool :=
  decide (h = .neg) || (f.array h).isSome

/-- Every dataset identifier held by a registered channel is negative or open
on a dataset of the file. -/
def datasets_open (s : HDF5R) : Bool :=
  s.channels_.all (fun p => dataset_open s.store p.2.rec_set_ && dataset_open s.store p.2.ts_set_)

/-- No channel other than `id` holds an identifier of the two datasets of the
group `link`. -/
def Apart (id : ChannelID) (link : String) (s : HDF5R) : Prop :=
  ∀ id' c', id' ≠ id → find id' s.channels_ = some c' →
    (c'.rec_set_ ≠ .rec_set link ∧ c'.rec_set_ ≠ .ts_set link) ∧
    (c'.ts_set_ ≠ .rec_set link ∧ c'.ts_set_ ≠ .ts_set link)

/-- The file `f'` differs from `f` at most in the elements of the datasets
`d1` and `d2`. -/
def Frame (d1 d2 : hid_t) (f f' : File) : Prop :=
  (∀ d, d ≠ d1 → d ≠ d2 → f'.array d = f.array d) ∧
  (∀ l k, k ≠ RECORDS_SET → k ≠ TIMESTAMPS_SET → f'.member l k = f.member l k) ∧
  f'.tags = f.tags ∧ f'.index = f.index

/-- A call of a public operation that can modify the session, with its
arguments and its environment. -/
inductive Call where
  | add_channel (flt : AddChannelFaults) (name type_name source_name : String)
      (mem_type file_type : hid_t)
  | add_entry (flt : AddEntryFaults) (chan_id timestamp buf : Nat)
  | get_entry (flt : GetEntryFaults) (chan_id index : Nat)
  | get_entry_size (chan_id index : Nat)
  | get_channel_info (flt : ReadChannelInfoFaults) (chan_id : Nat)
  | set_text_tag (flt : WriteStringFaults) (tag value : String)
  | set_binary_tag (fault : Bool) (tag : String) (bytes : List Nat)

/-- The state a call leaves, whether it returns or throws. -/
def Call.state (s : HDF5R) : Call → HDF5R
  | .add_channel flt name type_name source_name mem_type file_type =>
    (hdf5r.add_channel flt s name type_name source_name mem_type file_type).2
  | .add_entry flt chan_id timestamp buf => (hdf5r.add_entry flt s chan_id timestamp buf).2
  | .get_entry flt chan_id index => (hdf5r.get_entry flt s chan_id index).2
  | .get_entry_size chan_id index => (hdf5r.get_entry_size s chan_id index).2
  | .get_channel_info flt chan_id => (hdf5r.get_channel_info flt s chan_id).2
  | .set_text_tag flt tag value => (hdf5r.set_text_tag flt s tag value).2
  | .set_binary_tag fault tag bytes => (hdf5r.set_binary_tag fault s tag bytes).2

/-- The state after a sequence of calls. -/
def session (s : HDF5R) (calls : List Call) : HDF5R :=
  calls.foldl Call.state s

/-- The pair a call appends to the channel `chan_id`: the time stamp and
sample of an `add_entry` on that channel that returns normally. -/
def Call.appends (s : HDF5R) (chan_id : ChannelID) : Call → List (Nat × Nat)
  | .add_entry flt c timestamp buf =>
    if c = chan_id ∧ (hdf5r.add_entry flt s c timestamp buf).1.isOk = true then
      [(timestamp, buf)]
    else []
  | _ => []

/-- The pairs appended to the channel `chan_id` in the course of a sequence
of calls, in call order. -/
def appended (s : HDF5R) (chan_id : ChannelID) : List Call → List (Nat × Nat)
  | [] => []
  | call :: rest => call.appends s chan_id ++ appended (call.state s) chan_id rest

/-- Every dataset of `f` with at least `n` elements is a dataset of `f'` with
at least `n` elements and the same first `n` elements. -/
def KeepsPrefix (n : Nat) (f f' : File) : Prop :=
  ∀ d xs, f.array d = some xs → n ≤ xs.length →
    ∃ xs', f'.array d = some xs' ∧ xs'.take n = xs.take n ∧ n ≤ xs'.length

/-- The identifiers a session holds are negative or open on what their field
names: the tags identifier on the tags group, the dataset identifiers of the
registered channels on datasets of the file. -/
def handles_sound (s : HDF5R) : Bool :=
  decide (s.tags_grp_ = .neg ∨ s.tags_grp_ = .tags_grp) && datasets_open s

/-- The invariant of a session for the channel `id` that `add_channel`
registered as `c0` with group `link`, after the pairs `L` have been appended
to it. -/
structure Tracked (id : ChannelID) (c0 : Channel) (link : String) (s : HDF5R)
    (L : List (Nat × Nat)) : Prop where
  recorded : Recorded id c0 link s L
  apart : Apart id link s
  tags : s.tags_grp_ = .neg ∨ s.tags_grp_ = .tags_grp

/-- A session on the log `ints_log`, in the manner of `round_one` of the
example program: a second channel is created, samples are appended to both
channels in turn, one append to each channel fails midway, a channel that
does not exist is read, and a tag is set. -/
def demo_calls : List Call :=
  [.add_channel {} "floats" "float" "thinner_air" (.dtype 4) (.dtype 4),
   .add_entry {} 0 100 7,
   .add_entry {} 1 150 3,
   .add_entry ts_extent_fails 0 170 8,
   .add_entry ⟨false, false, true, false, false, false⟩ 1 180 4,
   .get_entry {} 5 0,
   .add_entry {} 0 200 9,
   .add_entry {} 1 250 5,
   .set_text_tag {} "TITLE" "Sample HDF5R log",
   .get_channel_info {} 1]

/-- The function `HDF5R::index`. -/
def index (s : HDF5R) : Index :=
  s.index_

/-- The log `new_log` when its identifier counter stands at `n`. -/
def aged_log (n : Nat) : HDF5R :=
  { new_log with next_id_ := n }

/-- A call of `add_channel` that throws after it has advanced the identifier
counter: the container creates no group with an empty name. -/
def failing_add_channel : Call :=
  .add_channel {} "" "" "" .neg .neg

/-- Whether no two entries of the registry carry the same name. -/
def names_unique (s : HDF5R) : Bool :=
  decide ((s.channels_.map (fun p => p.2.name_)).Nodup)

/-- The state after a call of `add_channel` without environment failures. -/
def after_add_channel (s : HDF5R) (name : String) : HDF5R :=
  (add_channel {} s name "int" "thin_air" (.dtype 4) (.dtype 8)).2

/-- The identifier counter after closing a log and opening the file again. -/
def reopen_next_id (s : HDF5R) (mode : Mode) : Outcome ChannelID :=
  match reopen s mode with
  | .ok s' => .ok s'.next_id_
  | .error e => .error e

/-- What the first `add_channel` returns after closing a log and opening the
file again, and the identifiers and names registered after it. -/
def reopen_add_channel (s : HDF5R) (mode : Mode) (name : String) :
    Outcome (Outcome ChannelID × List (ChannelID × String)) :=
  match reopen s mode with
  | .ok s' =>
    let r := add_channel {} s' name "int" "thin_air" (.dtype 4) (.dtype 8)
    .ok (r.1, r.2.channels_.map (fun p => (p.1, p.2.name_)))
  | .error e => .error e

/-- A log whose two channels carry the two largest identifiers an
`unsigned int` holds. -/
def last_ids_log : HDF5R :=
  after_add_channel (after_add_channel (aged_log 4294967294) "a") "b"

/-- The keys of a `std::map` in iteration order are strictly ascending. -/
def ascending {β : Type} (m : List (Nat × β)) : Prop :=
  m.Pairwise (fun a b => a.1 < b.1)

/-- Calls on a new log that append to one channel with descending time
stamps: first 200, then 100. -/
def descending_calls : List Call :=
  [.add_channel {} "ints" "int" "thin_air" (.dtype 4) (.dtype 8),
   .add_entry {} 0 200 7,
   .add_entry {} 0 100 9]

/-- The index pointer a call records: for an `add_entry` that returns
normally, its time stamp with the channel and the ordinal of the sample, which
is the size of the channel before the call. -/
def Call.pointer (s : HDF5R) : Call → List (Nat × IndexPointer)
  | .add_entry flt c timestamp buf =>
    if (hdf5r.add_entry flt s c timestamp buf).1.isOk = true then
      [(timestamp, (c, (subscript s.channels_ c).1.size_))]
    else []
  | _ => []

/-- The index pointers recorded in the course of a sequence of calls, in call
order. -/
def pointers (s : HDF5R) : List Call → List (Nat × IndexPointer)
  | [] => []
  | call :: rest => call.pointer s ++ pointers (call.state s) rest

/-- The index a file holds after closing a log without environment
failures. -/
def closed_index (s : HDF5R) : Option (List (Nat × IndexPointerList)) :=
  (HDF5R.close {} s).2.index

/-- What `index()` holds for a time stamp after closing a log and opening the
file again. -/
def reopen_find (s : HDF5R) (mode : Mode) (timestamp : Nat) :
    Outcome (Option IndexPointerList) :=
  match reopen s mode with
  | .ok s' => .ok (find timestamp (index s'))
  | .error e => .error e

/-- An index with `n` entries: every time stamp below `n`, each with the
pointer to the sample of that ordinal in channel 0. -/
@[irreducible]
def ramp (n : Nat) : Index :=
  (List.range n).map (fun t => (t, [(0, t)]))

/-- A file without channels whose persisted index is `ramp n`. -/
def ramp_file (n : Nat) : File :=
  ⟨some [], some [], some (ramp n)⟩

/-- The session that the constructor builds from `ramp_file n` in the mode
`RDWR`. -/
def ramp_log (n : Nat) : HDF5R :=
  ⟨.RDWR, ramp_file n, .channels_grp, .tags_grp, [], 0, ramp n⟩

/-- Two appends with distinct time stamps, a text tag, and a lookup. -/
def index_calls : List Call :=
  [.add_channel {} "ints" "int" "thin_air" (.dtype 4) (.dtype 8),
   .add_entry {} 0 200 7,
   .set_text_tag {} "TITLE" "demo",
   .add_entry {} 0 100 9,
   .get_channel_info {} 0]

/-- A session in the mode `mode` over a file without channels whose persisted
index holds the one entry `(5, [(0, 7)])`, with the in-memory index `idx`. -/
def stale_log (mode : Mode) (idx : Index) : HDF5R :=
  ⟨mode, ⟨some [], some [], some [(5, [(0, 7)])]⟩, .channels_grp, .tags_grp, [], 0, idx⟩

/-- The tags identifier of a session is negative, or open on the tags group
of the file. -/
def tags_sound (s : HDF5R) : Prop :=
  s.tags_grp_ = .neg ∨ (s.tags_grp_ = .tags_grp ∧ s.store.tags.isSome = true)

/-- What `get_text_tag` returns after closing a log and opening the file
again. -/
def reopen_text_tag (s : HDF5R) (mode : Mode) (tag : String) : Outcome String :=
  match reopen s mode with
  | .ok s' => get_text_tag {} s' tag
  | .error e => .error e

/-- The text `"de"`, a NUL character, `"mo"`. -/
def text_with_nul : String :=
  String.mk ['d', 'e', Char.ofNat 0, 'm', 'o']

/-- The log `new_log` after `set_text_tag("TITLE", "demo")`. -/
def title_log : HDF5R :=
  (set_text_tag {} new_log "TITLE" "demo").2

/-- The invariant behind the validity of the index pointers, after at most `k`
calls on a newly created log: the identifier counter has not wrapped, every
channel registered under an identifier that `add_channel` has not handed out
yet is a default-constructed `Channel`, and every pointer of the index names a
registered channel and an ordinal below its size. -/
structure PointersValid (s : HDF5R) (k : Nat) : Prop where
  next : s.next_id_ ≤ k
  fresh : ∀ id chan, find id s.channels_ = some chan → s.next_id_ ≤ id → chan = {}
  valid : ∀ t l C P, (t, l) ∈ s.index_ → (C, P) ∈ l →
    ∃ chan, find C s.channels_ = some chan ∧ P < chan.size_

/-- Calls on a new log in which channels are created, appends succeed and
fail, one append addresses an identifier that is not registered, and one time
stamp is used twice. -/
def pointer_calls : List Call :=
  [.add_entry {} 1 50 2,
   .add_channel {} "ints" "int" "thin_air" (.dtype 4) (.dtype 8),
   .add_entry {} 0 100 7,
   .add_channel {} "ints" "int" "thin_air" (.dtype 4) (.dtype 8),
   .add_channel {} "floats" "float" "thinner_air" (.dtype 4) (.dtype 4),
   .add_entry ts_extent_fails 0 170 8,
   .add_entry {} 1 100 3,
   .add_entry {} 0 200 9]

/-- A plain link name: not empty, without a slash, and not the name `"."` of
the group itself.  The container resolves every name it is handed as a path;
a plain name is the one case in which the path names a direct member of the
group, which is how the `H5*` functions of this file take every name. -/
def plain_name (name : String) : Bool :=
  decide (name ≠ "") && !name.toList.contains '/' && decide (name ≠ ".")

/-! ## Association lists -/

theorem find_put_same {β : Type} (k : Nat) (v : β) (m : List (Nat × β)) :
    find k (put k v m) = some v := by
  induction m with
  | nil => simp [put, find]
  | cons p rest ih =>
    obtain ⟨k', v'⟩ := p
    simp only [put]
    split
    · simp [find]
    · split
      · simp [find]
      · rename_i h1 h2
        simp only [find]
        rw [if_neg (fun h => h2 h.symm)]
        exact ih

theorem find_put_ne {β : Type} {k k' : Nat} (h : k ≠ k') (v : β) (m : List (Nat × β)) :
    find k (put k' v m) = find k m := by
  induction m with
  | nil => simp [put, find, Ne.symm h]
  | cons p rest ih =>
    obtain ⟨k2, v2⟩ := p
    simp only [put]
    split
    · simp [find, Ne.symm h]
    · split
      · rename_i h1 h2
        subst h2
        simp [find, Ne.symm h]
      · simp only [find, ih]

theorem find_assign_same {β : Type} (k : String) (v : β) (m : List (String × β)) :
    find k (assign k v m) = some v := by
  induction m with
  | nil => simp [assign, find]
  | cons p rest ih =>
    obtain ⟨k', v'⟩ := p
    simp only [assign]
    split
    · simp [find]
    · rename_i h
      simp only [find, if_neg h]
      exact ih

theorem find_assign_ne {β : Type} {k k' : String} (h : k ≠ k') (v : β)
    (m : List (String × β)) : find k (assign k' v m) = find k m := by
  induction m with
  | nil => simp [assign, find, Ne.symm h]
  | cons p rest ih =>
    obtain ⟨k2, v2⟩ := p
    simp only [assign]
    split
    · rename_i h2
      subst h2
      simp [find, Ne.symm h]
    · simp only [find, ih]

theorem find_append_single {κ β : Type} [DecidableEq κ] (k k' : κ) (v : β) (m : List (κ × β)) :
    find k (m ++ [(k', v)]) =
      match find k m with
      | some x => some x
      | none => if k' = k then some v else none := by
  induction m with
  | nil => simp [find]
  | cons p rest ih =>
    obtain ⟨k2, v2⟩ := p
    simp only [List.cons_append, find]
    split
    · rfl
    · exact ih

theorem members_setMembers {f : File} {l' : String} {g0 : Group}
    (h : f.members (.group l') = some g0) (g : Group) (l : String) :
    (f.setMembers (.group l') g).members (.group l) =
      if l = l' then some g else f.members (.group l) := by
  unfold File.members at h
  cases hc : f.channels with
  | none => simp [hc] at h
  | some cs =>
    simp only [File.setMembers, File.members, hc, Option.map_some', Option.some_bind]
    split
    · rename_i e
      subst e
      exact find_assign_same _ _ _
    · rename_i e
      rw [find_assign_ne e]


theorem members_of_array {f : File} {d : hid_t} {xs : List Nat} (h : f.array d = some xs) :
    (∃ l g, d = .rec_set l ∧ f.members (.group l) = some g ∧
      find RECORDS_SET g = some (.array (f.width d) xs)) ∨
    (∃ l g, d = .ts_set l ∧ f.members (.group l) = some g ∧
      find TIMESTAMPS_SET g = some (.array (f.width d) xs)) := by
  cases d <;> simp only [File.array] at h <;> try (exact absurd h (by simp))
  · rename_i l
    left
    cases hm : f.members (.group l) with
    | none => simp [hm] at h
    | some g =>
      refine ⟨l, g, rfl, hm, ?_⟩
      simp only [hm, Option.some_bind] at h
      split at h
      · rename_i w ys hf
        simp only [Option.some.injEq] at h
        subst h
        simp only [File.width, hm, Option.some_bind, hf]
      · simp at h
  · rename_i l
    right
    cases hm : f.members (.group l) with
    | none => simp [hm] at h
    | some g =>
      refine ⟨l, g, rfl, hm, ?_⟩
      simp only [hm, Option.some_bind] at h
      split at h
      · rename_i w ys hf
        simp only [Option.some.injEq] at h
        subst h
        simp only [File.width, hm, Option.some_bind, hf]
      · simp at h

theorem array_setArray {f : File} {d : hid_t} {xs : List Nat} (h : f.array d = some xs)
    (ys : List Nat) (d' : hid_t) :
    (f.setArray d ys).array d' = if d' = d then some ys else f.array d' := by
  have hne : RECORDS_SET ≠ TIMESTAMPS_SET := by decide
  rcases members_of_array h with ⟨l, g, rfl, hm, _⟩ | ⟨l, g, rfl, hm, _⟩
  · cases d' <;> simp only [File.array, File.setArray, hm, reduceCtorEq, if_false]
    · rename_i l2
      rw [members_setMembers hm]
      by_cases e : l2 = l
      · subst e
        simp [find_assign_same]
      · simp [e]
    · rename_i l2
      rw [members_setMembers hm]
      by_cases e : l2 = l
      · subst e
        simp [find_assign_ne hne.symm, hm]
      · simp [e]
  · cases d' <;> simp only [File.array, File.setArray, hm, reduceCtorEq, if_false]
    · rename_i l2
      rw [members_setMembers hm]
      by_cases e : l2 = l
      · subst e
        simp [find_assign_ne hne, hm]
      · simp [e]
    · rename_i l2
      rw [members_setMembers hm]
      by_cases e : l2 = l
      · subst e
        simp [find_assign_same]
      · simp [e]

theorem width_setArray {f : File} {d : hid_t} {xs : List Nat} (h : f.array d = some xs)
    (ys : List Nat) (d' : hid_t) : (f.setArray d ys).width d' = f.width d' := by
  have hne : RECORDS_SET ≠ TIMESTAMPS_SET := by decide
  rcases members_of_array h with ⟨l, g, rfl, hm, hf⟩ | ⟨l, g, rfl, hm, hf⟩
  · cases d' <;> simp only [File.width, File.setArray, hm, reduceCtorEq, if_false]
    · rename_i l2
      rw [members_setMembers hm]
      by_cases e : l2 = l
      · subst e
        simp only [if_true, Option.some_bind, find_assign_same, hm]
      · simp [e]
    · rename_i l2
      rw [members_setMembers hm]
      by_cases e : l2 = l
      · subst e
        simp [find_assign_ne hne.symm, hm]
      · simp [e]
  · cases d' <;> simp only [File.width, File.setArray, hm, reduceCtorEq, if_false]
    · rename_i l2
      rw [members_setMembers hm]
      by_cases e : l2 = l
      · subst e
        simp [find_assign_ne hne, hm]
      · simp [e]
    · rename_i l2
      rw [members_setMembers hm]
      by_cases e : l2 = l
      · subst e
        simp only [if_true, Option.some_bind, find_assign_same, hm]
      · simp [e]

theorem member_setArray (f : File) (d : hid_t) (ys : List Nat) (l k : String)
    (h1 : k ≠ RECORDS_SET) (h2 : k ≠ TIMESTAMPS_SET) :
    ((f.setArray d ys).members (.group l)).bind (find k) = (f.members (.group l)).bind (find k) := by
  cases d <;> simp only [File.setArray]
  · rename_i l'
    cases hm : f.members (.group l') with
    | none => rfl
    | some g =>
      simp only []
      rw [members_setMembers hm]
      by_cases e : l = l'
      · subst e
        simp [hm, find_assign_ne h1]
      · simp [e]
  · rename_i l'
    cases hm : f.members (.group l') with
    | none => rfl
    | some g =>
      simp only []
      rw [members_setMembers hm]
      by_cases e : l = l'
      · subst e
        simp [hm, find_assign_ne h2]
      · simp [e]


theorem H5Dset_extent_some {fl w : Bool} {f f1 : File} {d : hid_t} {m : Nat}
    (h : H5Dset_extent fl w f d m = some f1) :
    fl = false ∧ w = true ∧ ∃ xs, f.array d = some xs ∧ f1 = f.setArray d (resize xs m) := by
  unfold H5Dset_extent at h
  split at h
  · simp at h
  · rename_i hc
    simp only [Bool.or_eq_true, Bool.not_eq_true', not_or, Bool.not_eq_true,
      Bool.not_eq_false] at hc
    cases ha : f.array d with
    | none => simp [ha] at h
    | some xs =>
      simp only [ha, Option.some.injEq] at h
      exact ⟨hc.1, hc.2, xs, rfl, h.symm⟩

theorem H5Dwrite_some {fl w : Bool} {f f1 : File} {d mt : hid_t} {n v : Nat}
    (h : H5Dwrite fl w f d mt n v = some f1) :
    fl = false ∧ w = true ∧ (∃ sz, mt = .dtype sz) ∧
      ∃ xs, f.array d = some xs ∧ n < xs.length ∧
        f1 = f.setArray d (xs.set n (H5Tconvert (H5Tget_size mt) (f.width d) v)) := by
  unfold H5Dwrite at h
  split at h
  · simp at h
  · rename_i hc
    simp only [Bool.or_eq_true, Bool.not_eq_true', not_or, Bool.not_eq_true,
      Bool.not_eq_false] at hc
    split at h
    · rename_i sz xs ha
      split at h
      · rename_i hlt
        simp only [Option.some.injEq] at h
        exact ⟨hc.1, hc.2, ⟨sz, rfl⟩, xs, ha, hlt, h.symm⟩
      · simp at h
    · simp at h

theorem length_resize (xs : List Nat) (n : Nat) : (resize xs n).length = n := by
  simp only [resize, List.length_append, List.length_take, List.length_replicate]
  omega

theorem take_resize {xs : List Nat} {n : Nat} (h : n ≤ xs.length) (m : Nat) (hm : n ≤ m) :
    (resize xs m).take n = xs.take n := by
  simp only [resize]
  rw [List.take_append_of_le_length (by simp; omega)]
  rw [List.take_take]
  simp [hm]

/-- Extending a dataset and writing its new last element. -/
theorem extend_write {fl1 fl2 w : Bool} {f f1 f2 : File} {d mt : hid_t} {m n v : Nat}
    (h1 : H5Dset_extent fl1 w f d m = some f1)
    (h2 : H5Dwrite fl2 w f1 d mt n v = some f2) :
    ∃ xs, f.array d = some xs ∧ n < m ∧ (∃ sz, mt = .dtype sz) ∧
      (∀ d', f2.array d' =
        if d' = d then some ((resize xs m).set n (H5Tconvert (H5Tget_size mt) (f.width d) v))
        else f.array d') ∧
      (∀ l k, k ≠ RECORDS_SET → k ≠ TIMESTAMPS_SET →
        (f2.members (.group l)).bind (find k) = (f.members (.group l)).bind (find k)) ∧
      (∀ d', f2.width d' = f.width d') := by
  obtain ⟨-, -, xs, hxs, rfl⟩ := H5Dset_extent_some h1
  obtain ⟨-, -, hmt, ys, hys, hlt, rfl⟩ := H5Dwrite_some h2
  have e1 := array_setArray hxs (resize xs m) d
  simp only [if_true] at e1
  rw [e1] at hys
  simp only [Option.some.injEq] at hys
  subst hys
  rw [length_resize] at hlt
  refine ⟨xs, hxs, hlt, hmt, ?_, ?_, ?_⟩
  · intro d'
    rw [array_setArray e1, array_setArray hxs, width_setArray hxs]
    split <;> rfl
  · intro l k hk1 hk2
    rw [member_setArray _ _ _ _ _ hk1 hk2, member_setArray _ _ _ _ _ hk1 hk2]
  · intro d'
    rw [width_setArray e1, width_setArray hxs]

theorem subscript_found {m : List (ChannelID × Channel)} {id : ChannelID} {c : Channel}
    (h : find id m = some c) : subscript m id = (c, m) := by
  simp [subscript, h]


theorem tags_setArray (f : File) (d : hid_t) (ys : List Nat) :
    (f.setArray d ys).tags = f.tags := by
  cases d <;> simp only [File.setArray] <;> split <;> simp [File.setMembers]

theorem index_setArray (f : File) (d : hid_t) (ys : List Nat) :
    (f.setArray d ys).index = f.index := by
  cases d <;> simp only [File.setArray] <;> split <;> simp [File.setMembers]

theorem add_entry_error {flt : AddEntryFaults} {s : HDF5R} {id t v : Nat}
    (h : (add_entry flt s id t v).1.isOk = false) :
    (add_entry flt s id t v).2.index_ = s.index_ ∧
    (add_entry flt s id t v).2.channels_ = (subscript s.channels_ id).2 ∧
    (add_entry flt s id t v).2.next_id_ = s.next_id_ := by
  revert h
  unfold add_entry
  simp only []
  repeat' split
  all_goals simp [Outcome.isOk]

theorem add_entry_ok {flt : AddEntryFaults} {s s' : HDF5R} {id t v : Nat} {chan : Channel}
    (hc : find id s.channels_ = some chan)
    (h : add_entry flt s id t v = (.ok (), s')) :
    ∃ xs ys, s.store.array chan.rec_set_ = some xs ∧ chan.size_ + 1 < 2 ^ 64 ∧
      (∃ sz, chan.mem_type_ = .dtype sz) ∧
      (if chan.ts_set_ = chan.rec_set_ then
          some ((resize xs (chan.size_ + 1)).set chan.size_
            (H5Tconvert (H5Tget_size chan.mem_type_) (s.store.width chan.rec_set_) v))
        else s.store.array chan.ts_set_) = some ys ∧
      (∀ d', s'.store.array d' =
        if d' = chan.ts_set_ then
          some ((resize ys (chan.size_ + 1)).set chan.size_
            (H5Tconvert 8 (s.store.width chan.ts_set_) t))
        else if d' = chan.rec_set_ then
          some ((resize xs (chan.size_ + 1)).set chan.size_
            (H5Tconvert (H5Tget_size chan.mem_type_) (s.store.width chan.rec_set_) v))
        else s.store.array d') ∧
      (∀ l k, k ≠ RECORDS_SET → k ≠ TIMESTAMPS_SET →
        (s'.store.members (.group l)).bind (find k) = (s.store.members (.group l)).bind (find k)) ∧
      s'.channels_ = put id { chan with size_ := chan.size_ + 1 } s.channels_ ∧
      s'.index_ = put t [(id, chan.size_)] s.index_ ∧
      s'.next_id_ = s.next_id_ ∧ s'.mode_ = s.mode_ ∧
      s'.channels_grp_ = s.channels_grp_ ∧ s'.tags_grp_ = s.tags_grp_ ∧
      s'.store.tags = s.store.tags ∧ s'.store.index = s.store.index := by
  unfold add_entry at h
  rw [subscript_found hc] at h
  simp only [] at h
  split at h
  · simp at h
  rename_i f1 h1
  split at h
  · simp at h
  split at h
  · simp at h
  rename_i f2 h2
  split at h
  · simp at h
  rename_i f3 h3
  split at h
  · simp at h
  split at h
  · simp at h
  rename_i f4 h4
  simp only [Prod.mk.injEq, true_and] at h
  subst h
  obtain ⟨xs, hxs, hlt, hmt, ha, hm, hw⟩ := extend_write h1 h2
  obtain ⟨ys, hys, -, -, ha', hm', -⟩ := extend_write h3 h4
  rw [hw, show H5Tget_size H5T_NATIVE_ULLONG = 8 from rfl] at ha'
  have hmod : (chan.size_ + 1) % 2 ^ 64 = chan.size_ + 1 := by
    rcases Nat.lt_or_ge (chan.size_ + 1) (2 ^ 64) with hl | hl
    · exact Nat.mod_eq_of_lt hl
    · have := Nat.mod_lt (chan.size_ + 1) (show 2 ^ 64 > 0 by norm_num)
      omega
  rw [hmod] at ha ha' hlt
  have hlt2 : chan.size_ + 1 < 2 ^ 64 := by
    rw [← hmod]; exact Nat.mod_lt _ (by norm_num)
  refine ⟨xs, ys, hxs, hlt2, hmt, ?_, ?_, ?_, ?_, rfl, rfl, rfl, rfl, rfl, ?_, ?_⟩
  · rw [← hys, ha]
  · intro d'
    rw [ha' d', ha d']
  · intro l k hk1 hk2
    rw [hm' l k hk1 hk2, hm l k hk1 hk2]
  · simp only [hmod]
  · obtain ⟨-, -, xs1, hx1, rfl⟩ := H5Dset_extent_some h1
    obtain ⟨-, -, -, xs2, hx2, -, rfl⟩ := H5Dwrite_some h2
    obtain ⟨-, -, xs3, hx3, rfl⟩ := H5Dset_extent_some h3
    obtain ⟨-, -, -, xs4, hx4, -, rfl⟩ := H5Dwrite_some h4
    simp only [tags_setArray]
  · obtain ⟨-, -, xs1, hx1, rfl⟩ := H5Dset_extent_some h1
    obtain ⟨-, -, -, xs2, hx2, -, rfl⟩ := H5Dwrite_some h2
    obtain ⟨-, -, xs3, hx3, rfl⟩ := H5Dset_extent_some h3
    obtain ⟨-, -, -, xs4, hx4, -, rfl⟩ := H5Dwrite_some h4
    simp only [index_setArray]

theorem H5Tconvert_le {src dst : Nat} (h : src ≤ dst) (v : Nat) : H5Tconvert src dst v = v := by
  simp [H5Tconvert, h]

theorem H5Tconvert_zero (src dst : Nat) : H5Tconvert src dst 0 = 0 := by
  simp [H5Tconvert]

/-- A value of the memory type comes back from a dataset whose datatype is at
least as wide. -/
theorem H5Tconvert_round_trip {m w v : Nat} (hw : m ≤ w) (hv : v < 256 ^ m) :
    H5Tconvert w m (H5Tconvert m w v) = v := by
  rw [H5Tconvert_le hw]
  simp [H5Tconvert, hv]

theorem width_extent {fl w : Bool} {f f1 : File} {d : hid_t} {m : Nat}
    (h : H5Dset_extent fl w f d m = some f1) (d' : hid_t) : f1.width d' = f.width d' := by
  obtain ⟨-, -, xs, hxs, rfl⟩ := H5Dset_extent_some h
  exact width_setArray hxs _ d'

theorem width_write {fl w : Bool} {f f1 : File} {d mt : hid_t} {n v : Nat}
    (h : H5Dwrite fl w f d mt n v = some f1) (d' : hid_t) : f1.width d' = f.width d' := by
  obtain ⟨-, -, -, xs, hxs, -, rfl⟩ := H5Dwrite_some h
  exact width_setArray hxs _ d'

/-- Whatever `add_entry` does, every dataset keeps its datatype. -/
theorem add_entry_width (flt : AddEntryFaults) (s : HDF5R) (c t v : Nat) (d : hid_t) :
    (add_entry flt s c t v).2.store.width d = s.store.width d := by
  unfold add_entry
  simp only []
  split
  · rfl
  rename_i f1 h1
  have a1 := width_extent h1 d
  split
  · exact a1
  split
  · exact a1
  rename_i f2 h2
  have a2 := (width_write h2 d).trans a1
  split
  · exact a2
  rename_i f3 h3
  have a3 := (width_extent h3 d).trans a2
  split
  · exact a3
  split
  · exact a3
  rename_i f4 h4
  exact (width_write h4 d).trans a3

theorem width_of_members {f f' : File} {l : String}
    (h : f'.members (.group l) = f.members (.group l)) :
    f'.width (.rec_set l) = f.width (.rec_set l) ∧ f'.width (.ts_set l) = f.width (.ts_set l) := by
  simp [File.width, h]

theorem find_assign_append {β : Type} (k k' : String) (v init : β) (m : List (String × β))
    (h : find k m = none) :
    find k' (assign k v (m ++ [(k, init)])) = if k' = k then some v else find k' m := by
  by_cases e : k' = k
  · subst e
    simp [find_assign_same]
  · rw [find_assign_ne e, find_append_single]
    simp only [e, if_false]
    cases find k' m <;> simp [Ne.symm e]

theorem member_setMembers {f : File} {l : String} {g0 : Group}
    (h : f.members (.group l) = some g0) (g : Group) (k : String) :
    (f.setMembers (.group l) g).member l k = find k g := by
  simp [File.member, members_setMembers h]

theorem H5Dcreate_true {fl w : Bool} {f f' : File} {l k : String} {init : Obj}
    (h : H5Dcreate fl w f (.group l) k init = (true, f')) :
    ∃ g, f.members (.group l) = some g ∧ find k g = none ∧
      f' = f.setMembers (.group l) (g ++ [(k, init)]) := by
  unfold H5Dcreate at h
  cases hm : f.members (.group l) with
  | none => simp [hm] at h
  | some g =>
    simp only [hm] at h
    split at h
    · simp at h
    · rename_i hc
      simp only [Bool.or_eq_true, not_or, Option.isSome_iff_ne_none, ne_eq,
        decide_eq_true_eq, Decidable.not_not] at hc
      simp only [Prod.mk.injEq, true_and] at h
      exact ⟨g, rfl, hc.2, h.symm⟩

theorem H5Dcreate_false {fl w : Bool} {f f' : File} {grp : hid_t} {k : String} {init : Obj}
    (h : H5Dcreate fl w f grp k init = (false, f')) : f' = f := by
  unfold H5Dcreate at h
  split at h
  · simp only [Prod.mk.injEq, true_and] at h
    exact h.symm
  · split at h
    · simp only [Prod.mk.injEq, true_and] at h
      exact h.symm
    · simp at h

theorem H5Dcreate_group {fl w : Bool} {f f' : File} {grp : hid_t} {k : String} {init : Obj}
    (h : H5Dcreate fl w f grp k init = (true, f')) : grp = .tags_grp ∨ ∃ l, grp = .group l := by
  unfold H5Dcreate at h
  cases grp <;> simp [File.members] at h ⊢

/-- Effect of a successful dataset creation on the members of the group. -/
theorem member_H5Dcreate {fl w : Bool} {f f' : File} {l k : String} {init : Obj}
    (h : H5Dcreate fl w f (.group l) k init = (true, f')) (k' : String) :
    f'.member l k' = if k' = k then some init else f.member l k' := by
  obtain ⟨g, hg, hk, rfl⟩ := H5Dcreate_true h
  rw [member_setMembers hg, find_append_single]
  simp only [File.member, hg, Option.some_bind]
  by_cases e : k' = k
  · subst e
    simp [hk]
  · simp only [e, if_false, Ne.symm e]
    cases find k' g <;> simp [Ne.symm e]

theorem member_H5Dwrite_scalar {fl : Bool} {f f' : File} {l k : String} {v : Obj}
    (h : H5Dwrite_scalar fl f (.group l) k v = some f') (k' : String) :
    f'.member l k' = if k' = k then some v else f.member l k' := by
  unfold H5Dwrite_scalar at h
  split at h
  · simp at h
  cases hm : f.members (.group l) with
  | none => simp [hm] at h
  | some g =>
    simp only [hm] at h
    split at h
    · simp only [Option.some.injEq] at h
      subst h
      rw [member_setMembers hm]
      simp only [File.member, hm, Option.some_bind]
      by_cases e : k' = k
      · subst e
        simp [find_assign_same]
      · simp [e, find_assign_ne e]
    · simp at h

theorem write_uint_ok {fl w : Bool} {f f' : File} {grp : hid_t} {set : String} {v : Nat}
    (h : write_uint fl w f grp set v = (.ok (), f')) :
    grp ≠ .neg ∧ ∀ l, grp = .group l → ∀ k', f'.member l k' =
      if k' = c_str set then some (.uint (v % 2 ^ 32)) else f.member l k' := by
  unfold write_uint at h
  split at h
  · simp at h
  rename_i f1 h1
  split at h
  · simp at h
  rename_i f2 h2
  simp only [Prod.mk.injEq, true_and] at h
  subst h
  constructor
  · rcases H5Dcreate_group h1 with e | ⟨l, e⟩ <;> simp [e]
  · intro l e k'
    subst e
    rw [member_H5Dwrite_scalar h2, member_H5Dcreate h1]
    split <;> rfl

theorem write_string_ok {flt : WriteStringFaults} {w : Bool} {f f' : File} {l : String}
    {set str : String} (h : write_string flt w f (.group l) set str = (.ok (), f')) (k' : String) :
    f'.member l k' = if k' = c_str set then some (.str str) else f.member l k' := by
  unfold write_string at h
  split at h
  · simp at h
  split at h
  · simp at h
  rename_i f1 h1
  split at h
  · simp at h
  rename_i f2 h2
  simp only [Prod.mk.injEq, true_and] at h
  subst h
  rw [member_H5Dwrite_scalar h2, member_H5Dcreate h1]
  split <;> rfl

theorem write_type_ok {fl w : Bool} {f f' : File} {l : String}
    {set : String} {type : hid_t} (h : write_type fl w f (.group l) set type = (.ok (), f')) :
    ∃ n, type = .dtype n ∧ ∀ k', f'.member l k' =
      if k' = c_str set then some (.dtype n) else f.member l k' := by
  unfold write_type at h
  split at h
  · rename_i n
    split at h
    · simp at h
    rename_i f1 h1
    simp only [Prod.mk.injEq, true_and] at h
    subst h
    exact ⟨n, rfl, member_H5Dcreate h1⟩
  · simp at h

theorem H5Gcreate_cases (fl w : Bool) (f : File) (loc : hid_t) (name : String) :
    H5Gcreate fl w f loc name = (.neg, f) ∨
      ∃ f', H5Gcreate fl w f loc name = (.group name, f') := by
  unfold H5Gcreate
  split
  · split
    · exact Or.inl rfl
    · exact Or.inr ⟨_, rfl⟩
  · exact Or.inl rfl


theorem member_H5Dcreate_ne {fl w b : Bool} {f f' : File} {l k : String} {init : Obj}
    (h : H5Dcreate fl w f (.group l) k init = (b, f')) {k' : String} (hne : k' ≠ k) :
    f'.member l k' = f.member l k' := by
  cases b with
  | false => rw [H5Dcreate_false h]
  | true => rw [member_H5Dcreate h, if_neg hne]

theorem add_channel_ok {flt : AddChannelFaults} {s s' : HDF5R}
    {name type_name source_name : String} {mem_type file_type : hid_t} {id : ChannelID}
    (h : add_channel flt s name type_name source_name mem_type file_type = (.ok id, s')) :
    id = s.next_id_ ∧ have_channel s name = false ∧
    s'.next_id_ = (s.next_id_ + 1) % 2 ^ 64 ∧ s'.index_ = s.index_ ∧ s'.mode_ = s.mode_ ∧
    ∃ n rec_set ts_set, mem_type = .dtype n ∧
      s'.channels_ =
        put id ⟨name, .group (c_str name), .rec_space (c_str name), rec_set,
          .ts_space (c_str name), ts_set, mem_type, 0⟩ s.channels_ ∧
      (rec_set = .neg ∨ rec_set = .rec_set (c_str name) ∧
        s'.store.member (c_str name) RECORDS_SET =
          some (.array (H5Tget_size file_type) (List.replicate 10 0))) ∧
      (ts_set = .neg ∨ ts_set = .ts_set (c_str name) ∧
        s'.store.member (c_str name) TIMESTAMPS_SET = some (.array 8 (List.replicate 10 0))) ∧
      s'.store.member (c_str name) "uid" = some (.uint (id % 2 ^ 32)) ∧
      s'.store.member (c_str name) "name" = some (.str name) ∧
      s'.store.member (c_str name) "type_name" = some (.str type_name) ∧
      s'.store.member (c_str name) "source_name" = some (.str source_name) ∧
      s'.store.member (c_str name) "mem_type" = some (.dtype n) := by
  unfold add_channel at h
  split at h
  · simp at h
  rename_i hhave
  simp only [] at h
  rcases H5Gcreate_cases flt.gcreate (decide (s.mode_ ≠ .RDONLY)) s.store s.channels_grp_
    (c_str name) with hg | ⟨f0, hg⟩
  · simp only [HDF5R.writable, hg] at h
    split at h
    · simp at h
    rename_i h1
    exact absurd rfl (write_uint_ok h1).1
  simp only [HDF5R.writable, hg] at h
  split at h
  · simp at h
  rename_i u1 f1 h1
  split at h
  · simp at h
  rename_i u2 f2 h2
  split at h
  · simp at h
  rename_i u3 f3 h3
  split at h
  · simp at h
  rename_i u4 f4 h4
  split at h
  · simp at h
  rename_i u5 f5 h5
  cases h6 : H5Dcreate (flt.rec_create || !file_type.is_type) (decide (s.mode_ ≠ .RDONLY)) f5
    (.group (c_str name)) RECORDS_SET (.array (H5Tget_size file_type) (List.replicate 10 0)) with
  | mk b6 f6 =>
  cases h7 : H5Dcreate flt.ts_create (decide (s.mode_ ≠ .RDONLY)) f6
    (.group (c_str name)) TIMESTAMPS_SET (.array 8 (List.replicate 10 0)) with
  | mk b7 f7 =>
  simp only [h6, h7, Prod.mk.injEq, Outcome.ok.injEq] at h
  obtain ⟨rfl, rfl⟩ := h
  obtain ⟨n, rfl, m5⟩ := write_type_ok h5
  have m1 := (write_uint_ok h1).2 _ rfl
  have m2 := write_string_ok h2
  have m3 := write_string_ok h3
  have m4 := write_string_ok h4
  have c1 : c_str "uid" = "uid" := by decide
  have c2 : c_str "name" = "name" := by decide
  have c3 : c_str "type_name" = "type_name" := by decide
  have c4 : c_str "source_name" = "source_name" := by decide
  have c5 : c_str "mem_type" = "mem_type" := by decide
  rw [c1] at m1
  rw [c2] at m2
  rw [c3] at m3
  rw [c4] at m4
  rw [c5] at m5
  have keep : ∀ k, k ≠ RECORDS_SET → k ≠ TIMESTAMPS_SET →
      f7.member (c_str name) k = f5.member (c_str name) k := by
    intro k hk1 hk2
    rw [member_H5Dcreate_ne h7 hk2, member_H5Dcreate_ne h6 hk1]
  refine ⟨rfl, by simpa using hhave, rfl, rfl, rfl, n, _, _, rfl, rfl, ?_, ?_, ?_, ?_, ?_, ?_, ?_⟩
  · cases b6 with
    | false => exact Or.inl (by simp)
    | true =>
      refine Or.inr ⟨by simp, ?_⟩
      show f7.member _ _ = _
      rw [member_H5Dcreate_ne h7 (by decide), member_H5Dcreate h6, if_pos rfl]
  · cases b7 with
    | false => exact Or.inl (by simp)
    | true =>
      refine Or.inr ⟨by simp, ?_⟩
      show f7.member _ _ = _
      rw [member_H5Dcreate h7, if_pos rfl]
  · show f7.member _ _ = _
    rw [keep _ (by decide) (by decide), m5, if_neg (by decide), m4, if_neg (by decide), m3,
      if_neg (by decide), m2, if_neg (by decide), m1, if_pos rfl]
  · show f7.member _ _ = _
    rw [keep _ (by decide) (by decide), m5, if_neg (by decide), m4, if_neg (by decide), m3,
      if_neg (by decide), m2, if_pos rfl]
  · show f7.member _ _ = _
    rw [keep _ (by decide) (by decide), m5, if_neg (by decide), m4, if_neg (by decide), m3,
      if_pos rfl]
  · show f7.member _ _ = _
    rw [keep _ (by decide) (by decide), m5, if_neg (by decide), m4, if_pos rfl]
  · show f7.member _ _ = _
    rw [keep _ (by decide) (by decide), m5, if_pos rfl]


theorem array_of_member {f : File} {l : String} {w : Nat} {xs : List Nat} :
    (f.member l RECORDS_SET = some (.array w xs) → f.array (.rec_set l) = some xs) ∧
    (f.member l TIMESTAMPS_SET = some (.array w xs) → f.array (.ts_set l) = some xs) := by
  constructor <;> intro h <;> simp only [File.member] at h <;> simp [File.array, h]

theorem width_of_member {f : File} {l : String} {w : Nat} {xs : List Nat} :
    (f.member l RECORDS_SET = some (.array w xs) → f.width (.rec_set l) = w) ∧
    (f.member l TIMESTAMPS_SET = some (.array w xs) → f.width (.ts_set l) = w) := by
  constructor <;> intro h <;> simp only [File.member] at h <;> simp [File.width, h]

theorem set_last {zs : List Nat} {n : Nat} (h : zs.length = n + 1) (v : Nat) :
    zs.set n v = zs.take n ++ [v] := by
  induction zs generalizing n with
  | nil => simp at h
  | cons z rest ih =>
    cases n with
    | zero =>
      simp only [List.length_cons, Nat.zero_add, Nat.add_left_eq_self, List.length_eq_zero] at h
      subst h
      simp
    | succ n =>
      simp only [List.length_cons, Nat.add_right_cancel_iff] at h
      simp [ih h]

theorem resize_set {xs : List Nat} {n : Nat} (h : n ≤ xs.length) (v : Nat) :
    (resize xs (n + 1)).set n v = xs.take n ++ [v] := by
  rw [set_last (length_resize xs (n + 1)), take_resize h (n + 1) (Nat.le_succ n)]

theorem Recorded.recorded_init {flt : AddChannelFaults} {s s' : HDF5R}
    {name type_name source_name : String} {mem_type file_type : hid_t} {id : ChannelID}
    (h : add_channel flt s name type_name source_name mem_type file_type = (.ok id, s')) :
    ∃ c0, Recorded id c0 (c_str name) s' [] ∧ c0.mem_type_ = mem_type ∧
      (c0.rec_set_ = .rec_set (c_str name) →
        s'.store.width (.rec_set (c_str name)) = H5Tget_size file_type) := by
  obtain ⟨-, -, -, -, -, n, rec_set, ts_set, rfl, hch, hr, ht, -, h2, h3, h4, h5⟩ :=
    add_channel_ok h
  refine ⟨⟨name, .group (c_str name), .rec_space (c_str name), rec_set,
    .ts_space (c_str name), ts_set, .dtype n, 0⟩, ?_, rfl, ?_⟩
  swap
  · intro e
    simp only at e
    rcases hr with e' | ⟨-, hm⟩
    · rw [e'] at e
      cases e
    · exact width_of_member.1 hm
  refine ⟨?_, rfl, rfl, rfl, ⟨n, rfl⟩, ?_, ?_, fun e => absurd rfl e, ⟨_, h2⟩, ⟨_, h3⟩,
    ⟨_, h4⟩, ⟨_, h5⟩, ?_, ?_, ?_⟩
  · rw [hch, find_put_same]
    rfl
  · exact hr.imp (fun e => e) (fun e => e.1)
  · exact ht.imp (fun e => e) (fun e => e.1)
  · intro e
    simp only at e
    rcases hr with e' | ⟨-, hm⟩
    · rw [e'] at e
      cases e
    · exact ⟨_, array_of_member.1 hm, by simp, by simp⟩
  · intro e
    simp only at e
    rcases ht with e' | ⟨-, hm⟩
    · rw [e'] at e
      cases e
    · exact ⟨_, array_of_member.2 hm, by simp, by simp⟩
  · intro e
    simp only at e
    rcases ht with e' | ⟨-, hm⟩
    · rw [e'] at e
      cases e
    · exact width_of_member.2 hm

theorem Recorded.recorded_step {id : ChannelID} {c0 : Channel} {link : String} {s s' : HDF5R}
    {L : List (Nat × Nat)} (inv : Recorded id c0 link s L) {flt : AddEntryFaults} {t v : Nat}
    (h : add_entry flt s id t v = (.ok (), s')) : Recorded id c0 link s' (L ++ [(t, v)]) := by
  obtain ⟨xs, ys, hxs, -, -, hys, harr, hmem, hch, -⟩ := add_entry_ok inv.chan h
  simp only at hxs hys harr hch
  have hrec : c0.rec_set_ = .rec_set link := by
    rcases inv.rec_set with e | e
    · rw [e] at hxs
      simp [File.array] at hxs
    · exact e
  have hne : c0.ts_set_ ≠ c0.rec_set_ := by
    rw [hrec]
    rcases inv.ts_set with e | e <;> rw [e] <;> simp
  rw [if_neg hne] at hys
  have hts : c0.ts_set_ = .ts_set link := by
    rcases inv.ts_set with e | e
    · rw [e] at hys
      simp [File.array] at hys
    · exact e
  rw [hrec] at hxs
  rw [hts] at hys
  rw [hrec, hts] at harr
  obtain ⟨xs', hxs', htake, hlen⟩ := inv.recs hrec
  obtain ⟨ys', hys', htake', hlen'⟩ := inv.tss hts
  rw [hxs] at hxs'
  rw [hys] at hys'
  simp only [Option.some.injEq] at hxs' hys'
  subst hxs' hys'
  have keep : ∀ k, k ≠ RECORDS_SET → k ≠ TIMESTAMPS_SET →
      s'.store.member link k = s.store.member link k := fun k h1 h2 => hmem link k h1 h2
  have hwid : ∀ d, s'.store.width d = s.store.width d := by
    intro d
    have e := add_entry_width flt s id t v d
    rw [h] at e
    exact e
  have hts8 := inv.ts_width hts
  rw [hts8, H5Tconvert_le (Nat.le_refl 8)] at harr
  refine ⟨?_, inv.group, inv.rec_space, inv.ts_space, inv.mem_type, inv.rec_set, inv.ts_set,
    fun _ => ⟨hrec, hts⟩, ?_, ?_, ?_, ?_, ?_, ?_, ?_⟩
  · rw [hch, find_put_same]
    simp
  · rw [keep _ (by decide) (by decide)]; exact inv.name
  · rw [keep _ (by decide) (by decide)]; exact inv.type_name
  · rw [keep _ (by decide) (by decide)]; exact inv.source_name
  · rw [keep _ (by decide) (by decide)]; exact inv.type
  · intro _
    have e1 : s'.store.array (.rec_set link) =
        some ((resize xs (L.length + 1)).set L.length
          (H5Tconvert (H5Tget_size c0.mem_type_) (s.store.width (.rec_set link)) v)) := by
      rw [harr, if_neg (by simp), if_pos rfl]
    refine ⟨_, e1, ?_, ?_⟩
    · rw [resize_set hlen, htake, hwid]
      simp
    · rw [resize_set hlen, htake]
      simp
  · intro _
    have e1 : s'.store.array (.ts_set link) =
        some ((resize ys (L.length + 1)).set L.length t) := by
      rw [harr, if_pos rfl]
    refine ⟨_, e1, ?_, ?_⟩
    · rw [resize_set hlen', htake']
      simp
    · rw [resize_set hlen', htake']
      simp
  · intro _
    rw [hwid]
    exact hts8

theorem read_string_member {f : File} {l a : String} (set : String)
    (h : f.member l (c_str set) = some (.str a)) :
    read_string {} f (.group l) set = .ok (c_str (a.push (Char.ofNat 0))) := by
  simp only [File.member] at h
  simp [read_string, h, Obj.bytes]

theorem read_type_member {f : File} {l : String} {n : Nat} (set : String)
    (h : f.member l (c_str set) = some (.dtype n)) :
    read_type false f (.group l) set = .ok (.dtype n) := by
  simp only [File.member] at h
  simp [read_type, h]

theorem get?_of_take {xs M : List Nat} {n i : Nat} (h : xs.take n = M) (hi : i < n) :
    xs.get? i = M.get? i := by
  subst h
  simp [List.getElem?_take, hi]

theorem Recorded.entry {id : ChannelID} {c0 : Channel} {link : String} {s : HDF5R}
    {L : List (Nat × Nat)} (inv : Recorded id c0 link s L) {i : Nat} {p : Nat × Nat}
    (h : L.get? i = some p) :
    get_entry {} s id i =
      (.ok (p.1, H5Tconvert (s.store.width (.rec_set link)) (H5Tget_size c0.mem_type_)
        (H5Tconvert (H5Tget_size c0.mem_type_) (s.store.width (.rec_set link)) p.2)), s) := by
  have hi : i < L.length := by
    rcases Nat.lt_or_ge i L.length with hl | hl
    · exact hl
    · rw [List.get?_eq_none.2 hl] at h
      cases h
  have hL : L ≠ [] := by
    intro e
    subst e
    simp at hi
  obtain ⟨hrec, hts⟩ := inv.live hL
  obtain ⟨xs, hxs, htake, -⟩ := inv.recs hrec
  obtain ⟨ys, hys, htake', -⟩ := inv.tss hts
  obtain ⟨n, hmt⟩ := inv.mem_type
  have e1 : ys.get? i = some p.1 := by
    rw [get?_of_take htake' hi]
    simp only [List.get?_eq_getElem?] at h ⊢
    simp [List.getElem?_map, h]
  have e2 : xs.get? i =
      some (H5Tconvert (H5Tget_size c0.mem_type_) (s.store.width (.rec_set link)) p.2) := by
    rw [get?_of_take htake hi]
    simp only [List.get?_eq_getElem?] at h ⊢
    simp [List.getElem?_map, h]
  unfold get_entry
  rw [subscript_found inv.chan]
  simp only [inv.ts_space, inv.rec_space, hrec, hts, hmt, H5Sselect_elements, H5Dread, hxs, hys,
    H5T_NATIVE_ULLONG, e1, e2, inv.ts_width hts, H5Tget_size, Option.map_some',
    H5Tconvert_le (Nat.le_refl 8)]
  simp

theorem Recorded.info {id : ChannelID} {c0 : Channel} {link : String} {s : HDF5R}
    {L : List (Nat × Nat)} (inv : Recorded id c0 link s L) :
    ∃ info, get_channel_info {} s id = (.ok info, s) ∧ info.size_ = L.length ∧
      info.start_time_ = ((L.map Prod.fst).head?).getD 0 ∧
      info.end_time_ = ((L.map Prod.fst).getLast?).getD 0 := by
  obtain ⟨a1, h1⟩ := inv.name
  obtain ⟨a2, h2⟩ := inv.type_name
  obtain ⟨a3, h3⟩ := inv.source_name
  obtain ⟨n, h4⟩ := inv.type
  have r1 := read_string_member "name" (by rw [show c_str "name" = "name" by decide]; exact h1)
  have r2 := read_string_member "type_name"
    (by rw [show c_str "type_name" = "type_name" by decide]; exact h2)
  have r3 := read_string_member "source_name"
    (by rw [show c_str "source_name" = "source_name" by decide]; exact h3)
  have r4 := read_type_member "mem_type"
    (by rw [show c_str "mem_type" = "mem_type" by decide]; exact h4)
  unfold get_channel_info
  rw [inv.chan]
  simp only [read_channel_info, inv.group]
  rw [r1, r2, r3, r4]
  simp only []
  by_cases hL : L = []
  · subst hL
    simp
  · obtain ⟨-, hts⟩ := inv.live hL
    obtain ⟨ys, hys, htake', -⟩ := inv.tss hts
    have hpos : 0 < L.length := List.length_pos.2 hL
    have e0 : ys.get? 0 = (L.map Prod.fst).get? 0 := get?_of_take htake' hpos
    have e1 : ys.get? (L.length - 1) = (L.map Prod.fst).get? (L.length - 1) :=
      get?_of_take htake' (by omega)
    have g0 : ((L.map Prod.fst).get? 0).isSome := by
      simp [List.get?_eq_getElem?, hpos]
    have g1 : ((L.map Prod.fst).get? (L.length - 1)).isSome := by
      simp only [List.get?_eq_getElem?]
      rw [List.getElem?_eq_getElem (by simp; omega)]
      rfl
    obtain ⟨t0, ht0⟩ := Option.isSome_iff_exists.1 g0
    obtain ⟨t1, ht1⟩ := Option.isSome_iff_exists.1 g1
    simp only [hpos, if_true, inv.ts_space, hts, H5Sselect_elements, H5Dread, hys,
      H5T_NATIVE_ULLONG, e0, e1, ht0, ht1, inv.ts_width hts, H5Tget_size, Option.map_some',
      H5Tconvert_le (Nat.le_refl 8)]
    refine ⟨_, rfl, rfl, ?_, ?_⟩
    · simp only [List.head?_eq_getElem?]
      rw [List.get?_eq_getElem?] at ht0
      simp [ht0]
    · simp only [List.getLast?_eq_getElem?]
      rw [List.get?_eq_getElem?] at ht1
      simp only [List.length_map]
      simp [ht1]

theorem find_mem {κ β : Type} [DecidableEq κ] {k : κ} {v : β} {m : List (κ × β)}
    (h : find k m = some v) : (k, v) ∈ m := by
  induction m with
  | nil => simp [find] at h
  | cons p rest ih =>
    obtain ⟨k', v'⟩ := p
    simp only [find] at h
    split at h
    · rename_i e
      simp only [Option.some.injEq] at h
      subst e h
      exact List.mem_cons_self _ _
    · exact List.mem_cons_of_mem _ (ih h)

theorem find_none_iff {β : Type} {k : Nat} {m : List (Nat × β)} :
    find k m = none ↔ k ∉ m.map Prod.fst := by
  induction m with
  | nil => simp [find]
  | cons p rest ih =>
    obtain ⟨k', v'⟩ := p
    simp only [find, List.map_cons, List.mem_cons, not_or]
    split
    · rename_i e
      simp [e]
    · rename_i e
      rw [ih]
      constructor
      · intro h
        exact ⟨fun e' => e e'.symm, h⟩
      · intro h
        exact h.2

theorem open_truncate : HDF5R.open_ {} none .TRUNCATE = .ok new_log := by decide

theorem Frame.frame_refl (d1 d2 : hid_t) (f : File) : Frame d1 d2 f f :=
  ⟨fun _ _ _ => rfl, fun _ _ _ _ => rfl, rfl, rfl⟩

theorem Frame.frame_trans {d1 d2 : hid_t} {f f' f'' : File} (h1 : Frame d1 d2 f f')
    (h2 : Frame d1 d2 f' f'') : Frame d1 d2 f f'' :=
  ⟨fun d a b => (h2.1 d a b).trans (h1.1 d a b),
    fun l k a b => (h2.2.1 l k a b).trans (h1.2.1 l k a b),
    h2.2.2.1.trans h1.2.2.1, h2.2.2.2.trans h1.2.2.2⟩

theorem Frame.frame_setArray {f : File} {d : hid_t} {xs : List Nat} (h : f.array d = some xs)
    (ys : List Nat) (d1 d2 : hid_t) (hd : d = d1 ∨ d = d2) : Frame d1 d2 f (f.setArray d ys) := by
  refine ⟨?_, fun l k a b => member_setArray f d ys l k a b, tags_setArray _ _ _,
    index_setArray _ _ _⟩
  intro d' a b
  rw [array_setArray h, if_neg]
  rcases hd with e | e <;> rw [e] <;> assumption

theorem Frame.frame_extent {fl w : Bool} {f f1 : File} {d : hid_t} {m : Nat}
    (h : H5Dset_extent fl w f d m = some f1) (d1 d2 : hid_t) (hd : d = d1 ∨ d = d2) :
    Frame d1 d2 f f1 := by
  obtain ⟨-, -, xs, hxs, rfl⟩ := H5Dset_extent_some h
  exact Frame.frame_setArray hxs _ d1 d2 hd

theorem Frame.frame_write {fl w : Bool} {f f1 : File} {d mt : hid_t} {n v : Nat}
    (h : H5Dwrite fl w f d mt n v = some f1) (d1 d2 : hid_t) (hd : d = d1 ∨ d = d2) :
    Frame d1 d2 f f1 := by
  obtain ⟨-, -, -, xs, hxs, -, rfl⟩ := H5Dwrite_some h
  exact Frame.frame_setArray hxs _ d1 d2 hd

/-- Whatever `add_entry` does, it touches nothing in the file but the two
datasets of the addressed channel. -/
theorem add_entry_frame (flt : AddEntryFaults) (s : HDF5R) (c t v : Nat) :
    Frame (subscript s.channels_ c).1.rec_set_ (subscript s.channels_ c).1.ts_set_ s.store
      (add_entry flt s c t v).2.store := by
  unfold add_entry
  simp only []
  split
  · exact Frame.frame_refl _ _ _
  rename_i f1 h1
  have a1 := Frame.frame_extent h1 _ (subscript s.channels_ c).1.ts_set_ (Or.inl rfl)
  split
  · exact a1
  split
  · exact a1
  rename_i f2 h2
  have a2 := a1.frame_trans (Frame.frame_write h2 _ (subscript s.channels_ c).1.ts_set_ (Or.inl rfl))
  split
  · exact a2
  rename_i f3 h3
  have a3 := a2.frame_trans (Frame.frame_extent h3 (subscript s.channels_ c).1.rec_set_ _ (Or.inr rfl))
  split
  · exact a3
  split
  · exact a3
  rename_i f4 h4
  exact a3.frame_trans (Frame.frame_write h4 (subscript s.channels_ c).1.rec_set_ _ (Or.inr rfl))

/-- The registry after `add_entry`, whatever its outcome. -/
theorem add_entry_registry (flt : AddEntryFaults) (s : HDF5R) (c t v : Nat) :
    (add_entry flt s c t v).2.channels_ = (subscript s.channels_ c).2 ∨
    (add_entry flt s c t v).2.channels_ =
      put c { (subscript s.channels_ c).1 with
        size_ := ((subscript s.channels_ c).1.size_ + 1) % 2 ^ 64 } (subscript s.channels_ c).2 := by
  unfold add_entry
  simp only []
  repeat' split
  all_goals simp

theorem add_channel_fresh_link {flt : AddChannelFaults} {s s' : HDF5R}
    {name type_name source_name : String} {mem_type file_type : hid_t} {id : ChannelID}
    (h : add_channel flt s name type_name source_name mem_type file_type = (.ok id, s')) :
    s.store.members (.group (c_str name)) = none := by
  unfold add_channel at h
  split at h
  · simp at h
  simp only [] at h
  rcases H5Gcreate_cases flt.gcreate (decide (s.mode_ ≠ .RDONLY)) s.store s.channels_grp_
    (c_str name) with hg | ⟨f0, hg⟩
  · simp only [HDF5R.writable, hg] at h
    split at h
    · simp at h
    rename_i h1
    exact absurd rfl (write_uint_ok h1).1
  · unfold H5Gcreate at hg
    split at hg
    · rename_i cs hcs
      split at hg
      · simp at hg
      · rename_i hc
        simp only [Bool.or_eq_true, not_or, Option.isSome_iff_ne_none, ne_eq,
          Decidable.not_not] at hc
        simp [File.members, hcs, hc.2]
    · simp at hg

/-- The dataset identifiers of a channel registered after `add_entry` are
those of the channel registered under the same identifier before, or
negative. -/
theorem add_entry_handles (flt : AddEntryFaults) (s : HDF5R) (c t v : Nat) (id' : ChannelID)
    (c'' : Channel) (h : find id' (add_entry flt s c t v).2.channels_ = some c'') :
    (∃ c', find id' s.channels_ = some c' ∧ c''.rec_set_ = c'.rec_set_ ∧
      c''.ts_set_ = c'.ts_set_) ∨ (c''.rec_set_ = .neg ∧ c''.ts_set_ = .neg) := by
  have key : ∀ c3, find id' (subscript s.channels_ c).2 = some c3 →
      (∃ c', find id' s.channels_ = some c' ∧ c3.rec_set_ = c'.rec_set_ ∧
        c3.ts_set_ = c'.ts_set_) ∨ (c3.rec_set_ = .neg ∧ c3.ts_set_ = .neg) := by
    intro c3 h3
    unfold subscript at h3
    cases hf : find c s.channels_ with
    | some c1 =>
      rw [hf] at h3
      exact Or.inl ⟨c3, h3, rfl, rfl⟩
    | none =>
      rw [hf] at h3
      simp only [] at h3
      by_cases e : id' = c
      · subst e
        rw [find_put_same] at h3
        cases h3
        exact Or.inr ⟨rfl, rfl⟩
      · rw [find_put_ne e] at h3
        exact Or.inl ⟨c3, h3, rfl, rfl⟩
  have first : (∃ c', find c s.channels_ = some c' ∧
      (subscript s.channels_ c).1.rec_set_ = c'.rec_set_ ∧
      (subscript s.channels_ c).1.ts_set_ = c'.ts_set_) ∨
      ((subscript s.channels_ c).1.rec_set_ = .neg ∧
        (subscript s.channels_ c).1.ts_set_ = .neg) := by
    unfold subscript
    cases hf : find c s.channels_ with
    | some c1 => exact Or.inl ⟨c1, rfl, rfl, rfl⟩
    | none => exact Or.inr ⟨rfl, rfl⟩
  rcases add_entry_registry flt s c t v with e | e
  · rw [e] at h
    exact key _ h
  · rw [e] at h
    by_cases e' : id' = c
    · subst e'
      rw [find_put_same] at h
      cases h
      exact first
    · rw [find_put_ne e'] at h
      exact key _ h

theorem Apart.apart_step {id : ChannelID} {link : String} {s : HDF5R} (ap : Apart id link s)
    (flt : AddEntryFaults) (c t v : Nat) : Apart id link (add_entry flt s c t v).2 := by
  intro id' c'' hne h
  rcases add_entry_handles flt s c t v id' c'' h with ⟨c', hc', e1, e2⟩ | ⟨e1, e2⟩
  · rw [e1, e2]
    exact ap id' c' hne hc'
  · rw [e1, e2]
    simp

theorem Apart.apart_init {flt : AddChannelFaults} {s s' : HDF5R}
    {name type_name source_name : String} {mem_type file_type : hid_t} {id : ChannelID}
    (hs : datasets_open s = true)
    (h : add_channel flt s name type_name source_name mem_type file_type = (.ok id, s')) :
    Apart id (c_str name) s' := by
  have fresh := add_channel_fresh_link h
  obtain ⟨-, -, -, -, -, n, rec_set, ts_set, -, hch, -⟩ := add_channel_ok h
  have none1 : s.store.array (.rec_set (c_str name)) = none := by
    simp [File.array, fresh]
  have none2 : s.store.array (.ts_set (c_str name)) = none := by
    simp [File.array, fresh]
  intro id' c' hne hf
  rw [hch, find_put_ne hne] at hf
  have hm := find_mem hf
  simp only [datasets_open, List.all_eq_true, Bool.and_eq_true] at hs
  obtain ⟨o1, o2⟩ := hs _ hm
  simp only [dataset_open, Bool.or_eq_true, decide_eq_true_eq] at o1 o2
  refine ⟨⟨?_, ?_⟩, ⟨?_, ?_⟩⟩
  · intro e
    rw [e, none1] at o1
    simp at o1
  · intro e
    rw [e, none2] at o1
    simp at o1
  · intro e
    rw [e, none1] at o2
    simp at o2
  · intro e
    rw [e, none2] at o2
    simp at o2

theorem Recorded.other {id : ChannelID} {c0 : Channel} {link : String} {s : HDF5R}
    {L : List (Nat × Nat)} (inv : Recorded id c0 link s L) (ap : Apart id link s)
    (flt : AddEntryFaults) {c : ChannelID} (hne : c ≠ id) (t v : Nat) :
    Recorded id c0 link (add_entry flt s c t v).2 L := by
  have hreg : find id (add_entry flt s c t v).2.channels_ = find id s.channels_ := by
    have key : find id (subscript s.channels_ c).2 = find id s.channels_ := by
      unfold subscript
      cases hf : find c s.channels_ with
      | some c1 => rfl
      | none => exact find_put_ne (Ne.symm hne) _ _
    rcases add_entry_registry flt s c t v with e | e
    · rw [e, key]
    · rw [e, find_put_ne (Ne.symm hne), key]
  have hset : ((subscript s.channels_ c).1.rec_set_ ≠ .rec_set link ∧
      (subscript s.channels_ c).1.rec_set_ ≠ .ts_set link) ∧
      ((subscript s.channels_ c).1.ts_set_ ≠ .rec_set link ∧
      (subscript s.channels_ c).1.ts_set_ ≠ .ts_set link) := by
    unfold subscript
    cases hf : find c s.channels_ with
    | some c1 => exact ap c c1 hne hf
    | none => simp
  obtain ⟨harr, hmem, -, -⟩ := add_entry_frame flt s c t v
  have a1 := harr (.rec_set link) (Ne.symm hset.1.1) (Ne.symm hset.2.1)
  have a2 := harr (.ts_set link) (Ne.symm hset.1.2) (Ne.symm hset.2.2)
  refine ⟨hreg.trans inv.chan, inv.group, inv.rec_space, inv.ts_space, inv.mem_type, inv.rec_set,
    inv.ts_set, inv.live, ?_, ?_, ?_, ?_, ?_, ?_, ?_⟩
  · rw [hmem _ _ (by decide) (by decide)]; exact inv.name
  · rw [hmem _ _ (by decide) (by decide)]; exact inv.type_name
  · rw [hmem _ _ (by decide) (by decide)]; exact inv.source_name
  · rw [hmem _ _ (by decide) (by decide)]; exact inv.type
  · rw [a1, add_entry_width]; exact inv.recs
  · rw [a2]; exact inv.tss
  · rw [add_entry_width]; exact inv.ts_width

/-! ### Calls that leave a channel group alone -/

theorem members_setMembers_tags (f : File) (g : Group) (l : String) :
    (f.setMembers .tags_grp g).members (.group l) = f.members (.group l) := rfl

theorem array_of_members {f f' : File} {l : String}
    (h : f'.members (.group l) = f.members (.group l)) :
    f'.array (.rec_set l) = f.array (.rec_set l) ∧ f'.array (.ts_set l) = f.array (.ts_set l) := by
  simp [File.array, h]

theorem H5Dcreate_members (fl w : Bool) (f : File) (grp : hid_t) (k : String) (init : Obj)
    (l : String) (h : grp ≠ .group l) :
    (H5Dcreate fl w f grp k init).2.members (.group l) = f.members (.group l) := by
  unfold H5Dcreate
  split
  · rfl
  rename_i g hg
  split
  · rfl
  cases grp <;> simp only [File.members, reduceCtorEq] at hg
  · rfl
  · rename_i l2
    have hne : l ≠ l2 := fun e => h (by rw [e])
    have hg' : f.members (.group l2) = some g := hg
    rw [members_setMembers hg', if_neg hne]

theorem H5Dwrite_scalar_members {fl : Bool} {f f' : File} {grp : hid_t} {k : String} {v : Obj}
    (h : H5Dwrite_scalar fl f grp k v = some f') (l : String) (hne : grp ≠ .group l) :
    f'.members (.group l) = f.members (.group l) := by
  unfold H5Dwrite_scalar at h
  split at h
  · cases h
  split at h
  · cases h
  rename_i g hg
  split at h
  · simp only [Option.some.injEq] at h
    subst h
    cases grp <;> simp only [File.members, reduceCtorEq] at hg
    · rfl
    · rename_i l2
      have hne' : l ≠ l2 := fun e => hne (by rw [e])
      have hg' : f.members (.group l2) = some g := hg
      rw [members_setMembers hg', if_neg hne']
  · cases h

theorem write_uint_members (fl w : Bool) (f : File) (grp : hid_t) (set : String) (v : Nat)
    (l : String) (hne : grp ≠ .group l) :
    (write_uint fl w f grp set v).2.members (.group l) = f.members (.group l) := by
  have h1 := H5Dcreate_members false w f grp (c_str set) (.uint 0) l hne
  unfold write_uint
  split
  · rename_i f1 e
    rw [e] at h1
    exact h1
  rename_i f1 e
  rw [e] at h1
  split
  · exact h1
  · rename_i f2 e2
    exact (H5Dwrite_scalar_members e2 l hne).trans h1

theorem write_string_members (flt : WriteStringFaults) (w : Bool) (f : File) (grp : hid_t)
    (set str : String) (l : String) (hne : grp ≠ .group l) :
    (write_string flt w f grp set str).2.members (.group l) = f.members (.group l) := by
  have h1 := H5Dcreate_members false w f grp (c_str set) (.str "") l hne
  unfold write_string
  split
  · rfl
  split
  · rename_i f1 e
    rw [e] at h1
    exact h1
  rename_i f1 e
  rw [e] at h1
  split
  · exact h1
  · rename_i f2 e2
    exact (H5Dwrite_scalar_members e2 l hne).trans h1

theorem write_type_members (fl w : Bool) (f : File) (grp : hid_t) (set : String) (type : hid_t)
    (l : String) (hne : grp ≠ .group l) :
    (write_type fl w f grp set type).2.members (.group l) = f.members (.group l) := by
  unfold write_type
  split
  · rename_i n
    have h1 := H5Dcreate_members fl w f grp (c_str set) (.dtype n) l hne
    split
    · rename_i f1 e
      rw [e] at h1
      exact h1
    · rename_i f1 e
      rw [e] at h1
      exact h1
  · rfl

theorem H5Gcreate_members (fl w : Bool) (f : File) (loc : hid_t) (name l : String)
    (h : (f.members (.group l)).isSome) :
    (H5Gcreate fl w f loc name).2.members (.group l) = f.members (.group l) ∧
    (H5Gcreate fl w f loc name).1 ≠ .group l := by
  unfold H5Gcreate
  split
  · rename_i cs hcs
    split
    · exact ⟨rfl, by simp⟩
    · rename_i hc
      simp only [Bool.or_eq_true, not_or, Option.isSome_iff_ne_none, ne_eq,
        Decidable.not_not] at hc
      have hne : name ≠ l := by
        intro e
        subst e
        simp [File.members, hcs, hc.2] at h
      constructor
      · simp only [File.members, hcs, Option.some_bind]
        rw [find_append_single]
        cases find l cs <;> simp [hne]
      · simp [hne]
  · exact ⟨rfl, by simp⟩

/-- What `add_channel` does, whatever its outcome, seen from a channel group
`l` that is already in the file: the group is untouched, the counter is kept
or advanced by one, and the registry is kept or gains under the old counter
value a channel whose dataset identifiers are not open on the group `l`. -/
theorem add_channel_other (flt : AddChannelFaults) (s : HDF5R)
    (name type_name source_name : String) (mem_type file_type : hid_t) (l : String)
    (hl : (s.store.members (.group l)).isSome) :
    let s' := (add_channel flt s name type_name source_name mem_type file_type).2
    s'.store.members (.group l) = s.store.members (.group l) ∧
    (s'.next_id_ = s.next_id_ ∨ s'.next_id_ = (s.next_id_ + 1) % 2 ^ 64) ∧
    (s'.channels_ = s.channels_ ∨
      ∃ c, s'.channels_ = put s.next_id_ c s.channels_ ∧
        (c.rec_set_ ≠ .rec_set l ∧ c.rec_set_ ≠ .ts_set l) ∧
        (c.ts_set_ ≠ .rec_set l ∧ c.ts_set_ ≠ .ts_set l)) := by
  intro s'
  show (add_channel flt s name type_name source_name mem_type file_type).2.store.members _ = _ ∧
    ((add_channel flt s name type_name source_name mem_type file_type).2.next_id_ = _ ∨
      (add_channel flt s name type_name source_name mem_type file_type).2.next_id_ = _) ∧
    ((add_channel flt s name type_name source_name mem_type file_type).2.channels_ = _ ∨
      ∃ c, (add_channel flt s name type_name source_name mem_type file_type).2.channels_ = _ ∧ _)
  unfold add_channel
  split
  · exact ⟨rfl, Or.inl rfl, Or.inl rfl⟩
  simp only [HDF5R.writable]
  obtain ⟨g0, g1⟩ := H5Gcreate_members flt.gcreate (decide (s.mode_ ≠ .RDONLY)) s.store
    s.channels_grp_ (c_str name) l hl
  have hG : ∃ group f0, H5Gcreate flt.gcreate (decide (s.mode_ ≠ .RDONLY)) s.store
      s.channels_grp_ (c_str name) = (group, f0) ∧ (group = .neg ∨ group = .group (c_str name)) := by
    rcases H5Gcreate_cases flt.gcreate (decide (s.mode_ ≠ .RDONLY)) s.store s.channels_grp_
      (c_str name) with e | ⟨f', e⟩
    · exact ⟨_, _, e, Or.inl rfl⟩
    · exact ⟨_, _, e, Or.inr rfl⟩
  obtain ⟨group, f0, hG, hgc⟩ := hG
  rw [hG] at g0 g1
  simp only [hG]
  simp only at g0 g1
  have w1 := write_uint_members flt.uid (decide (s.mode_ ≠ .RDONLY)) f0 group "uid" s.next_id_ l g1
  split
  · rename_i e f1 h1
    rw [h1] at w1
    exact ⟨w1.trans g0, Or.inr rfl, Or.inl rfl⟩
  rename_i u1 f1 h1
  rw [h1] at w1
  have w2 := write_string_members flt.name (decide (s.mode_ ≠ .RDONLY)) f1 group "name" name l g1
  split
  · rename_i e f2 h2
    rw [h2] at w2
    exact ⟨(w2.trans w1).trans g0, Or.inr rfl, Or.inl rfl⟩
  rename_i u2 f2 h2
  rw [h2] at w2
  have w3 := write_string_members flt.type_name (decide (s.mode_ ≠ .RDONLY)) f2 group "type_name"
    type_name l g1
  split
  · rename_i e f3 h3
    rw [h3] at w3
    exact ⟨((w3.trans w2).trans w1).trans g0, Or.inr rfl, Or.inl rfl⟩
  rename_i u3 f3 h3
  rw [h3] at w3
  have w4 := write_string_members flt.source_name (decide (s.mode_ ≠ .RDONLY)) f3 group
    "source_name" source_name l g1
  split
  · rename_i e f4 h4
    rw [h4] at w4
    exact ⟨(((w4.trans w3).trans w2).trans w1).trans g0, Or.inr rfl, Or.inl rfl⟩
  rename_i u4 f4 h4
  rw [h4] at w4
  have w5 := write_type_members flt.mem_type (decide (s.mode_ ≠ .RDONLY)) f4 group "mem_type"
    mem_type l g1
  split
  · rename_i e f5 h5
    rw [h5] at w5
    exact ⟨((((w5.trans w4).trans w3).trans w2).trans w1).trans g0, Or.inr rfl, Or.inl rfl⟩
  rename_i u5 f5 h5
  rw [h5] at w5
  have w6 := H5Dcreate_members (flt.rec_create || !file_type.is_type) (decide (s.mode_ ≠ .RDONLY))
    f5 group RECORDS_SET (.array (H5Tget_size file_type) (List.replicate 10 0)) l g1
  have w7 := H5Dcreate_members flt.ts_create (decide (s.mode_ ≠ .RDONLY))
    (H5Dcreate (flt.rec_create || !file_type.is_type) (decide (s.mode_ ≠ .RDONLY))
      f5 group RECORDS_SET (.array (H5Tget_size file_type) (List.replicate 10 0))).2 group
    TIMESTAMPS_SET (.array 8 (List.replicate 10 0)) l g1
  have hgrp : group ≠ .neg := (write_uint_ok h1).1
  have hname : c_str name ≠ l := by
    rcases hgc with e | e
    · exact absurd e hgrp
    · intro e2
      exact g1 (by rw [e, e2])
  refine ⟨(((((w7.trans w6).trans w5).trans w4).trans w3).trans w2).trans w1 |>.trans g0,
    Or.inr rfl, Or.inr ⟨_, rfl, ?_, ?_⟩⟩
  · simp only
    split <;> simp [hname]
  · simp only
    split <;> simp [hname]

theorem take_set_self (xs : List Nat) (n v : Nat) : (xs.set n v).take n = xs.take n :=
  List.ext_getElem? fun i => by
    rw [List.getElem?_take, List.getElem?_take]
    split
    · rename_i h
      rw [List.getElem?_set_ne (by omega)]
    · rfl

theorem KeepsPrefix.prefix_refl (n : Nat) (f : File) : KeepsPrefix n f f :=
  fun _ xs h hn => ⟨xs, h, rfl, hn⟩

theorem KeepsPrefix.prefix_trans {n : Nat} {f f' f'' : File} (h1 : KeepsPrefix n f f')
    (h2 : KeepsPrefix n f' f'') : KeepsPrefix n f f'' := by
  intro d xs h hn
  obtain ⟨xs', a, b, c⟩ := h1 d xs h hn
  obtain ⟨xs'', a', b', c'⟩ := h2 d xs' a c
  exact ⟨xs'', a', b'.trans b, c'⟩

theorem KeepsPrefix.prefix_setArray {n : Nat} {f : File} {d : hid_t} {xs ys : List Nat}
    (h : f.array d = some xs) (hy : n ≤ xs.length → ys.take n = xs.take n ∧ n ≤ ys.length) :
    KeepsPrefix n f (f.setArray d ys) := by
  intro d' zs hz hn
  rw [array_setArray h]
  by_cases e : d' = d
  · subst e
    rw [h] at hz
    cases hz
    exact ⟨ys, by simp, (hy hn).1, (hy hn).2⟩
  · exact ⟨zs, by simp [e, hz], rfl, hn⟩

theorem KeepsPrefix.prefix_extent {n m : Nat} (hm : n ≤ m) {fl w : Bool} {f f1 : File} {d : hid_t}
    (h : H5Dset_extent fl w f d m = some f1) : KeepsPrefix n f f1 := by
  obtain ⟨-, -, xs, hxs, rfl⟩ := H5Dset_extent_some h
  refine KeepsPrefix.prefix_setArray hxs (fun hn => ⟨take_resize hn m hm, ?_⟩)
  rw [length_resize]
  exact hm

theorem KeepsPrefix.prefix_write {n : Nat} {fl w : Bool} {f f1 : File} {d mt : hid_t} {v : Nat}
    (h : H5Dwrite fl w f d mt n v = some f1) : KeepsPrefix n f f1 := by
  obtain ⟨-, -, -, xs, hxs, -, rfl⟩ := H5Dwrite_some h
  refine KeepsPrefix.prefix_setArray hxs (fun hn => ⟨take_set_self xs n _, ?_⟩)
  simpa using hn

/-- Whatever its outcome, `add_entry` on a channel of size `n` below
`2 ^ 64 - 1` keeps the first `n` elements of every dataset. -/
theorem add_entry_keeps_prefix (flt : AddEntryFaults) (s : HDF5R) (c t v : Nat)
    (hn : (subscript s.channels_ c).1.size_ + 1 < 2 ^ 64) :
    KeepsPrefix (subscript s.channels_ c).1.size_ s.store (add_entry flt s c t v).2.store := by
  have hmod : ((subscript s.channels_ c).1.size_ + 1) % 2 ^ 64 =
      (subscript s.channels_ c).1.size_ + 1 := Nat.mod_eq_of_lt hn
  unfold add_entry
  simp only [hmod]
  split
  · exact KeepsPrefix.prefix_refl _ _
  rename_i f1 h1
  have a1 := KeepsPrefix.prefix_extent (Nat.le_succ _) h1
  split
  · exact a1
  split
  · exact a1
  rename_i f2 h2
  have a2 := a1.prefix_trans (KeepsPrefix.prefix_write h2)
  split
  · exact a2
  rename_i f3 h3
  have a3 := a2.prefix_trans (KeepsPrefix.prefix_extent (Nat.le_succ _) h3)
  split
  · exact a3
  split
  · exact a3
  rename_i f4 h4
  exact a3.prefix_trans (KeepsPrefix.prefix_write h4)

theorem Recorded.failed {id : ChannelID} {c0 : Channel} {link : String} {s : HDF5R}
    {L : List (Nat × Nat)} (inv : Recorded id c0 link s L) (flt : AddEntryFaults) (t v : Nat)
    (hfail : (add_entry flt s id t v).1.isOk = false) (hb : L.length + 1 < 2 ^ 64) :
    Recorded id c0 link (add_entry flt s id t v).2 L := by
  obtain ⟨-, hreg, -⟩ := add_entry_error hfail
  rw [subscript_found inv.chan] at hreg
  have hkeep := add_entry_keeps_prefix flt s id t v
    (by rw [subscript_found inv.chan]; exact hb)
  rw [subscript_found inv.chan] at hkeep
  simp only at hkeep
  obtain ⟨-, hmem, -, -⟩ := add_entry_frame flt s id t v
  refine ⟨by rw [hreg]; exact inv.chan, inv.group, inv.rec_space, inv.ts_space, inv.mem_type,
    inv.rec_set, inv.ts_set, inv.live, ?_, ?_, ?_, ?_, ?_, ?_, ?_⟩
  · rw [hmem _ _ (by decide) (by decide)]; exact inv.name
  · rw [hmem _ _ (by decide) (by decide)]; exact inv.type_name
  · rw [hmem _ _ (by decide) (by decide)]; exact inv.source_name
  · rw [hmem _ _ (by decide) (by decide)]; exact inv.type
  · intro e
    obtain ⟨xs, hxs, htake, hlen⟩ := inv.recs e
    obtain ⟨xs', a, b, c⟩ := hkeep _ xs hxs hlen
    rw [add_entry_width]
    exact ⟨xs', a, b.trans htake, c⟩
  · intro e
    obtain ⟨xs, hxs, htake, hlen⟩ := inv.tss e
    obtain ⟨xs', a, b, c⟩ := hkeep _ xs hxs hlen
    exact ⟨xs', a, b.trans htake, c⟩
  · rw [add_entry_width]; exact inv.ts_width

theorem Recorded.congr {id : ChannelID} {c0 : Channel} {link : String} {s s' : HDF5R}
    {L : List (Nat × Nat)} (inv : Recorded id c0 link s L)
    (hreg : find id s'.channels_ = find id s.channels_)
    (hst : s'.store.members (.group link) = s.store.members (.group link)) :
    Recorded id c0 link s' L := by
  have hmem : ∀ k, s'.store.member link k = s.store.member link k := by
    intro k
    simp only [File.member, hst]
  obtain ⟨a1, a2⟩ := array_of_members hst
  obtain ⟨b1, b2⟩ := width_of_members hst
  exact ⟨hreg.trans inv.chan, inv.group, inv.rec_space, inv.ts_space, inv.mem_type, inv.rec_set,
    inv.ts_set, inv.live, by rw [hmem]; exact inv.name, by rw [hmem]; exact inv.type_name,
    by rw [hmem]; exact inv.source_name, by rw [hmem]; exact inv.type,
    by rw [a1, b1]; exact inv.recs, by rw [a2]; exact inv.tss, by rw [b2]; exact inv.ts_width⟩

theorem Recorded.group_present {id : ChannelID} {c0 : Channel} {link : String} {s : HDF5R}
    {L : List (Nat × Nat)} (inv : Recorded id c0 link s L) :
    (s.store.members (.group link)).isSome := by
  obtain ⟨a, h⟩ := inv.name
  simp only [File.member] at h
  cases hm : s.store.members (.group link) with
  | none => simp [hm] at h
  | some g => rfl

theorem find_subscript {m : List (ChannelID × Channel)} {id c : ChannelID} {ch : Channel}
    (h : find id m = some ch) : find id (subscript m c).2 = some ch := by
  unfold subscript
  cases hf : find c m with
  | some c1 => exact h
  | none =>
    simp only []
    rw [find_put_ne]
    · exact h
    · intro e
      subst e
      rw [hf] at h
      cases h

theorem Apart.apart_subscript {id : ChannelID} {link : String} {s s' : HDF5R} (ap : Apart id link s)
    (c : ChannelID) (h : s'.channels_ = (subscript s.channels_ c).2) : Apart id link s' := by
  intro id' c' hne hf
  rw [h] at hf
  unfold hdf5r.subscript at hf
  cases hc : find c s.channels_ with
  | some c1 =>
    rw [hc] at hf
    exact ap id' c' hne hf
  | none =>
    rw [hc] at hf
    simp only [] at hf
    by_cases e : id' = c
    · subst e
      rw [find_put_same] at hf
      cases hf
      simp
    · rw [find_put_ne e] at hf
      exact ap id' c' hne hf

theorem get_entry_state (flt : GetEntryFaults) (s : HDF5R) (c i : Nat) :
    (get_entry flt s c i).2 = { s with channels_ := (subscript s.channels_ c).2 } := by
  unfold get_entry
  simp only []
  repeat' split
  all_goals rfl

theorem get_entry_size_state (s : HDF5R) (c i : Nat) :
    (get_entry_size s c i).2 = { s with channels_ := (subscript s.channels_ c).2 } := rfl

theorem get_channel_info_state (flt : ReadChannelInfoFaults) (s : HDF5R) (c : Nat) :
    (get_channel_info flt s c).2 = s := by
  unfold get_channel_info
  split <;> rfl

theorem add_entry_fields (flt : AddEntryFaults) (s : HDF5R) (c t v : Nat) :
    (add_entry flt s c t v).2.tags_grp_ = s.tags_grp_ ∧
    (add_entry flt s c t v).2.next_id_ = s.next_id_ ∧
    (add_entry flt s c t v).2.mode_ = s.mode_ ∧
    (add_entry flt s c t v).2.channels_grp_ = s.channels_grp_ := by
  unfold add_entry
  simp only []
  repeat' split
  all_goals exact ⟨rfl, rfl, rfl, rfl⟩

theorem add_channel_fields (flt : AddChannelFaults) (s : HDF5R)
    (name type_name source_name : String) (mem_type file_type : hid_t) :
    (add_channel flt s name type_name source_name mem_type file_type).2.tags_grp_ = s.tags_grp_ ∧
    (add_channel flt s name type_name source_name mem_type file_type).2.mode_ = s.mode_ ∧
    (add_channel flt s name type_name source_name mem_type file_type).2.channels_grp_ =
      s.channels_grp_ ∧
    (add_channel flt s name type_name source_name mem_type file_type).2.index_ = s.index_ := by
  unfold add_channel
  simp only []
  repeat' split
  all_goals exact ⟨rfl, rfl, rfl, rfl⟩

theorem prepare_tags_group_spec (s : HDF5R) (ht : s.tags_grp_ = .neg ∨ s.tags_grp_ = .tags_grp) :
    ((prepare_tags_group s).tags_grp_ = .neg ∨ (prepare_tags_group s).tags_grp_ = .tags_grp) ∧
    (prepare_tags_group s).channels_ = s.channels_ ∧
    (prepare_tags_group s).next_id_ = s.next_id_ ∧
    (prepare_tags_group s).index_ = s.index_ ∧
    (prepare_tags_group s).mode_ = s.mode_ ∧
    (prepare_tags_group s).store.channels = s.store.channels ∧
    (prepare_tags_group s).store.index = s.store.index := by
  unfold prepare_tags_group
  repeat' split
  all_goals simp [ht]

theorem set_text_tag_spec (flt : WriteStringFaults) (s : HDF5R) (tag value : String)
    (ht : s.tags_grp_ = .neg ∨ s.tags_grp_ = .tags_grp) (l : String) :
    ((set_text_tag flt s tag value).2.tags_grp_ = .neg ∨
      (set_text_tag flt s tag value).2.tags_grp_ = .tags_grp) ∧
    (set_text_tag flt s tag value).2.channels_ = s.channels_ ∧
    (set_text_tag flt s tag value).2.next_id_ = s.next_id_ ∧
    (set_text_tag flt s tag value).2.store.members (.group l) = s.store.members (.group l) := by
  obtain ⟨p1, p2, p3, -, -, p6, -⟩ := prepare_tags_group_spec s ht
  have hne : (prepare_tags_group s).tags_grp_ ≠ .group l := by
    rcases p1 with e | e <;> rw [e] <;> simp
  have w := write_string_members flt (prepare_tags_group s).writable (prepare_tags_group s).store
    (prepare_tags_group s).tags_grp_ tag value l hne
  unfold set_text_tag
  simp only []
  refine ⟨p1, p2, p3, w.trans ?_⟩
  simp only [File.members, p6]

theorem set_binary_tag_spec (fault : Bool) (s : HDF5R) (tag : String) (bytes : List Nat)
    (ht : s.tags_grp_ = .neg ∨ s.tags_grp_ = .tags_grp) (l : String) :
    ((set_binary_tag fault s tag bytes).2.tags_grp_ = .neg ∨
      (set_binary_tag fault s tag bytes).2.tags_grp_ = .tags_grp) ∧
    (set_binary_tag fault s tag bytes).2.channels_ = s.channels_ ∧
    (set_binary_tag fault s tag bytes).2.next_id_ = s.next_id_ ∧
    (set_binary_tag fault s tag bytes).2.store.members (.group l) =
      s.store.members (.group l) := by
  obtain ⟨p1, p2, p3, -, -, p6, -⟩ := prepare_tags_group_spec s ht
  have hne : (prepare_tags_group s).tags_grp_ ≠ .group l := by
    rcases p1 with e | e <;> rw [e] <;> simp
  have hp : (prepare_tags_group s).store.members (.group l) = s.store.members (.group l) := by
    simp only [File.members, p6]
  have w := H5Dcreate_members (decide (bytes.length = 0)) (prepare_tags_group s).writable
    (prepare_tags_group s).store (prepare_tags_group s).tags_grp_ (c_str tag)
    (.blob (List.replicate bytes.length 0)) l hne
  unfold set_binary_tag
  simp only []
  split
  · rename_i f1 e
    rw [e] at w
    exact ⟨p1, p2, p3, w.trans hp⟩
  rename_i f1 e
  rw [e] at w
  split
  · exact ⟨p1, p2, p3, w.trans hp⟩
  · rename_i f2 e2
    exact ⟨p1, p2, p3, ((H5Dwrite_scalar_members e2 l hne).trans w).trans hp⟩

theorem next_id_ne (id a : Nat) (ha : a + 1 < 2 ^ 64) : (id + 1 + a) % 2 ^ 64 ≠ id := by
  have e : (2 : Nat) ^ 64 = 18446744073709551616 := by norm_num
  rw [e] at ha ⊢
  omega

theorem next_id_succ (id a : Nat) : ((id + 1 + a) % 2 ^ 64 + 1) % 2 ^ 64 = (id + 1 + (a + 1)) % 2 ^ 64 := by
  have e : (2 : Nat) ^ 64 = 18446744073709551616 := by norm_num
  rw [e]
  omega

theorem Tracked.tracked_step {id : ChannelID} {c0 : Channel} {link : String} {s : HDF5R}
    {L : List (Nat × Nat)} (tr : Tracked id c0 link s L) (call : Call) (a : Nat)
    (ha : s.next_id_ = (id + 1 + a) % 2 ^ 64) (hab : a + 1 < 2 ^ 64)
    (hL : L.length + 1 < 2 ^ 64) :
    Tracked id c0 link (call.state s) (L ++ call.appends s id) ∧
    ((call.state s).next_id_ = (id + 1 + a) % 2 ^ 64 ∨
      (call.state s).next_id_ = (id + 1 + (a + 1)) % 2 ^ 64) ∧
    (L ++ call.appends s id).length ≤ L.length + 1 := by
  cases call with
  | add_channel flt name type_name source_name mem_type file_type =>
    simp only [Call.state, Call.appends, List.append_nil]
    obtain ⟨h1, h2, h3⟩ := add_channel_other flt s name type_name source_name mem_type
      file_type link tr.recorded.group_present
    obtain ⟨f1, -⟩ := add_channel_fields flt s name type_name source_name mem_type file_type
    have hne : s.next_id_ ≠ id := by rw [ha]; exact next_id_ne id a hab
    have hreg : find id (add_channel flt s name type_name source_name mem_type
        file_type).2.channels_ = find id s.channels_ := by
      rcases h3 with e | ⟨c, e, -⟩
      · rw [e]
      · rw [e, find_put_ne (Ne.symm hne)]
    refine ⟨⟨tr.recorded.congr hreg h1, ?_, by rw [f1]; exact tr.tags⟩, ?_, Nat.le_succ _⟩
    · intro id' c' hid hf
      rcases h3 with e | ⟨c, e, hc⟩
      · rw [e] at hf
        exact tr.apart id' c' hid hf
      · rw [e] at hf
        by_cases e' : id' = s.next_id_
        · rw [e', find_put_same] at hf
          cases hf
          exact hc
        · rw [find_put_ne e'] at hf
          exact tr.apart id' c' hid hf
    · rcases h2 with e | e
      · exact Or.inl (e.trans ha)
      · refine Or.inr (e.trans ?_)
        rw [ha]
        exact next_id_succ id a
  | add_entry flt c t v =>
    simp only [Call.state, Call.appends]
    obtain ⟨f1, f2, -, -⟩ := add_entry_fields flt s c t v
    have ap := tr.apart.apart_step flt c t v
    have nx : (add_entry flt s c t v).2.next_id_ = (id + 1 + a) % 2 ^ 64 := f2.trans ha
    by_cases e : c = id
    · subst e
      cases hr : (add_entry flt s c t v).1 with
      | ok u =>
        have hpair : add_entry flt s c t v = (.ok (), (add_entry flt s c t v).2) := by
          rw [← hr]
        have inv := tr.recorded.recorded_step hpair
        simp only [true_and, Outcome.isOk, if_true]
        exact ⟨⟨inv, ap, by rw [f1]; exact tr.tags⟩, Or.inl nx, by simp⟩
      | error msg =>
        have inv := tr.recorded.failed flt t v (by rw [hr]; rfl) hL
        simp only [true_and, Outcome.isOk, Bool.false_eq_true, if_false, List.append_nil]
        exact ⟨⟨inv, ap, by rw [f1]; exact tr.tags⟩, Or.inl nx, Nat.le_succ _⟩
    · have inv := tr.recorded.other tr.apart flt e t v
      simp only [e, false_and, if_false, List.append_nil]
      exact ⟨⟨inv, ap, by rw [f1]; exact tr.tags⟩, Or.inl nx, Nat.le_succ _⟩
  | get_entry flt c i =>
    simp only [Call.state, Call.appends, List.append_nil, get_entry_state]
    exact ⟨⟨tr.recorded.congr (find_subscript tr.recorded.chan |>.trans tr.recorded.chan.symm) rfl,
      tr.apart.apart_subscript c rfl, tr.tags⟩, Or.inl ha, Nat.le_succ _⟩
  | get_entry_size c i =>
    simp only [Call.state, Call.appends, List.append_nil, get_entry_size_state]
    exact ⟨⟨tr.recorded.congr (find_subscript tr.recorded.chan |>.trans tr.recorded.chan.symm) rfl,
      tr.apart.apart_subscript c rfl, tr.tags⟩, Or.inl ha, Nat.le_succ _⟩
  | get_channel_info flt c =>
    simp only [Call.state, Call.appends, List.append_nil, get_channel_info_state]
    exact ⟨tr, Or.inl ha, Nat.le_succ _⟩
  | set_text_tag flt tag value =>
    simp only [Call.state, Call.appends, List.append_nil]
    obtain ⟨p1, p2, p3, p4⟩ := set_text_tag_spec flt s tag value tr.tags link
    refine ⟨⟨tr.recorded.congr (by rw [p2]) p4, ?_, p1⟩, Or.inl (p3.trans ha), Nat.le_succ _⟩
    intro id' c' hid hf
    rw [p2] at hf
    exact tr.apart id' c' hid hf
  | set_binary_tag fault tag bytes =>
    simp only [Call.state, Call.appends, List.append_nil]
    obtain ⟨p1, p2, p3, p4⟩ := set_binary_tag_spec fault s tag bytes tr.tags link
    refine ⟨⟨tr.recorded.congr (by rw [p2]) p4, ?_, p1⟩, Or.inl (p3.trans ha), Nat.le_succ _⟩
    intro id' c' hid hf
    rw [p2] at hf
    exact tr.apart id' c' hid hf

theorem Tracked.tracked_session {id : ChannelID} {c0 : Channel} {link : String}
    (calls : List Call) {s : HDF5R} {L : List (Nat × Nat)} (tr : Tracked id c0 link s L)
    (a : Nat) (ha : s.next_id_ = (id + 1 + a) % 2 ^ 64)
    (hab : a + calls.length < 2 ^ 64) (hL : L.length + calls.length < 2 ^ 64) :
    Tracked id c0 link (session s calls) (L ++ appended s id calls) := by
  induction calls generalizing s L a with
  | nil => simpa [session, appended] using tr
  | cons call rest ih =>
    simp only [List.length_cons] at hab hL
    obtain ⟨tr1, hnext, hlen⟩ := tr.tracked_step call a ha (by omega) (by omega)
    simp only [session, List.foldl_cons, appended]
    rw [← List.append_assoc]
    rcases hnext with e | e
    · exact ih tr1 a e (by omega) (by omega)
    · exact ih tr1 (a + 1) e (by omega) (by omega)

theorem Tracked.tracked_init {flt : AddChannelFaults} {s s' : HDF5R}
    {name type_name source_name : String} {mem_type file_type : hid_t} {id : ChannelID}
    (hs : handles_sound s = true)
    (h : add_channel flt s name type_name source_name mem_type file_type = (.ok id, s')) :
    ∃ c0, Tracked id c0 (c_str name) s' [] ∧ s'.next_id_ = (id + 1 + 0) % 2 ^ 64 ∧
      c0.mem_type_ = mem_type ∧
      (c0.rec_set_ = .rec_set (c_str name) →
        s'.store.width (.rec_set (c_str name)) = H5Tget_size file_type) := by
  simp only [handles_sound, Bool.and_eq_true, decide_eq_true_eq] at hs
  obtain ⟨c0, inv, hmt, hwid⟩ := Recorded.recorded_init h
  obtain ⟨e1, -, e2, -⟩ := add_channel_ok h
  obtain ⟨f1, -⟩ := add_channel_fields flt s name type_name source_name mem_type file_type
  rw [h] at f1
  refine ⟨c0, ⟨inv, Apart.apart_init hs.2 h, by rw [f1]; exact hs.1⟩, ?_, hmt, hwid⟩
  rw [e2, e1]

/-- A call leaves the datatype of the record dataset of a tracked channel as
it is. -/
theorem Tracked.width_step {id : ChannelID} {c0 : Channel} {link : String} {s : HDF5R}
    {L : List (Nat × Nat)} (tr : Tracked id c0 link s L) (call : Call) :
    (call.state s).store.width (.rec_set link) = s.store.width (.rec_set link) := by
  cases call with
  | add_channel flt name type_name source_name mem_type file_type =>
    exact (width_of_members (add_channel_other flt s name type_name source_name mem_type
      file_type link tr.recorded.group_present).1).1
  | add_entry flt c t v => exact add_entry_width flt s c t v _
  | get_entry flt c i =>
    simp only [Call.state, get_entry_state]
  | get_entry_size c i =>
    simp only [Call.state, get_entry_size_state]
  | get_channel_info flt c =>
    simp only [Call.state, get_channel_info_state]
  | set_text_tag flt tag value =>
    exact (width_of_members (set_text_tag_spec flt s tag value tr.tags link).2.2.2).1
  | set_binary_tag fault tag bytes =>
    exact (width_of_members (set_binary_tag_spec fault s tag bytes tr.tags link).2.2.2).1

theorem Tracked.width_session {id : ChannelID} {c0 : Channel} {link : String}
    (calls : List Call) {s : HDF5R} {L : List (Nat × Nat)} (tr : Tracked id c0 link s L)
    (a : Nat) (ha : s.next_id_ = (id + 1 + a) % 2 ^ 64)
    (hab : a + calls.length < 2 ^ 64) (hL : L.length + calls.length < 2 ^ 64) :
    (session s calls).store.width (.rec_set link) = s.store.width (.rec_set link) := by
  induction calls generalizing s L a with
  | nil => rfl
  | cons call rest ih =>
    simp only [List.length_cons] at hab hL
    obtain ⟨tr1, hnext, hlen⟩ := tr.tracked_step call a ha (by omega) (by omega)
    simp only [session, List.foldl_cons]
    rcases hnext with e | e
    · exact (ih tr1 a e (by omega) (by omega)).trans (tr.width_step call)
    · exact (ih tr1 (a + 1) e (by omega) (by omega)).trans (tr.width_step call)

/-! ### The identifiers of a session stay sound -/

theorem mem_put {β : Type} {k : Nat} {v : β} {m : List (Nat × β)} {p : Nat × β}
    (h : p ∈ put k v m) : p = (k, v) ∨ p ∈ m := by
  induction m with
  | nil =>
    simp only [put, List.mem_singleton] at h
    exact Or.inl h
  | cons q rest ih =>
    obtain ⟨k', v'⟩ := q
    simp only [put] at h
    split at h
    · rcases List.mem_cons.1 h with e | e
      · exact Or.inl e
      · exact Or.inr e
    · split at h
      · rcases List.mem_cons.1 h with e | e
        · exact Or.inl e
        · exact Or.inr (List.mem_cons_of_mem _ e)
      · rcases List.mem_cons.1 h with e | e
        · exact Or.inr (e ▸ List.mem_cons_self _ _)
        · rcases ih e with e' | e'
          · exact Or.inl e'
          · exact Or.inr (List.mem_cons_of_mem _ e')

theorem mem_subscript {m : List (ChannelID × Channel)} {c : ChannelID} {p : ChannelID × Channel}
    (h : p ∈ (subscript m c).2) : p ∈ m ∨ p.2 = {} := by
  unfold subscript at h
  cases hf : find c m with
  | some c1 =>
    rw [hf] at h
    exact Or.inl h
  | none =>
    rw [hf] at h
    rcases mem_put h with e | e
    · exact Or.inr (by rw [e])
    · exact Or.inl e

theorem subscript_fst (m : List (ChannelID × Channel)) (c : ChannelID) :
    (c, (subscript m c).1) ∈ m ∨ (subscript m c).1 = {} := by
  unfold subscript
  cases hf : find c m with
  | some c1 => exact Or.inl (find_mem hf)
  | none => exact Or.inr rfl

/-- Datasets of `f` are datasets of `f'`. -/
theorem grows_setArray {f : File} {d : hid_t} {xs : List Nat} (h : f.array d = some xs)
    (ys : List Nat) (d' : hid_t) (hd : (f.array d').isSome) :
    ((f.setArray d ys).array d').isSome := by
  rw [array_setArray h]
  split
  · rfl
  · exact hd

theorem add_entry_grows (flt : AddEntryFaults) (s : HDF5R) (c t v : Nat) (d : hid_t)
    (hd : (s.store.array d).isSome) : ((add_entry flt s c t v).2.store.array d).isSome := by
  have ext : ∀ {fl w : Bool} {f f1 : File} {h : hid_t} {m : Nat},
      H5Dset_extent fl w f h m = some f1 → (f.array d).isSome → (f1.array d).isSome := by
    intro fl w f f1 h m e hf
    obtain ⟨-, -, xs, hxs, rfl⟩ := H5Dset_extent_some e
    exact grows_setArray hxs _ d hf
  have wr : ∀ {fl w : Bool} {f f1 : File} {h mt : hid_t} {n x : Nat},
      H5Dwrite fl w f h mt n x = some f1 → (f.array d).isSome → (f1.array d).isSome := by
    intro fl w f f1 h mt n x e hf
    obtain ⟨-, -, -, xs, hxs, -, rfl⟩ := H5Dwrite_some e
    exact grows_setArray hxs _ d hf
  unfold add_entry
  simp only []
  split
  · exact hd
  rename_i f1 h1
  have a1 := ext h1 hd
  split
  · exact a1
  split
  · exact a1
  rename_i f2 h2
  have a2 := wr h2 a1
  split
  · exact a2
  rename_i f3 h3
  have a3 := ext h3 a2
  split
  · exact a3
  split
  · exact a3
  rename_i f4 h4
  exact wr h4 a3

theorem array_isSome_members {f : File} {d : hid_t} (h : (f.array d).isSome) :
    ∃ l, (d = .rec_set l ∨ d = .ts_set l) ∧ (f.members (.group l)).isSome := by
  obtain ⟨xs, hxs⟩ := Option.isSome_iff_exists.1 h
  rcases members_of_array hxs with ⟨l, g, e, hm, -⟩ | ⟨l, g, e, hm, -⟩
  · exact ⟨l, Or.inl e, by rw [hm]; rfl⟩
  · exact ⟨l, Or.inr e, by rw [hm]; rfl⟩

theorem array_congr_members {f f' : File} {d : hid_t}
    (h : ∀ l, f'.members (.group l) = f.members (.group l)) : f'.array d = f.array d := by
  cases d <;> simp [File.array, h]

theorem datasets_open_iff {s : HDF5R} :
    datasets_open s = true ↔ ∀ p ∈ s.channels_,
      (p.2.rec_set_ = .neg ∨ (s.store.array p.2.rec_set_).isSome) ∧
      (p.2.ts_set_ = .neg ∨ (s.store.array p.2.ts_set_).isSome) := by
  simp [datasets_open, dataset_open]

theorem handles_sound_iff {s : HDF5R} :
    handles_sound s = true ↔ (s.tags_grp_ = .neg ∨ s.tags_grp_ = .tags_grp) ∧
      datasets_open s = true := by
  simp [handles_sound]

theorem add_channel_error_registry {flt : AddChannelFaults} {s s' : HDF5R}
    {name type_name source_name : String} {mem_type file_type : hid_t} {e : String}
    (h : add_channel flt s name type_name source_name mem_type file_type = (.error e, s')) :
    s'.channels_ = s.channels_ := by
  unfold add_channel at h
  split at h
  · simp only [Prod.mk.injEq] at h
    rw [← h.2]
  simp only [] at h
  split at h
  · simp only [Prod.mk.injEq] at h
    rw [← h.2]
  split at h
  · simp only [Prod.mk.injEq] at h
    rw [← h.2]
  split at h
  · simp only [Prod.mk.injEq] at h
    rw [← h.2]
  split at h
  · simp only [Prod.mk.injEq] at h
    rw [← h.2]
  split at h
  · simp only [Prod.mk.injEq] at h
    rw [← h.2]
  simp at h

/-- Every call of a public operation keeps the identifiers of the session
sound. -/
theorem handles_sound_step (s : HDF5R) (call : Call) (hs : handles_sound s = true) :
    handles_sound (call.state s) = true := by
  rw [handles_sound_iff] at hs ⊢
  obtain ⟨ht, hd⟩ := hs
  rw [datasets_open_iff] at hd ⊢
  have keep : ∀ (s' : HDF5R), (∀ d, (s.store.array d).isSome → (s'.store.array d).isSome) →
      (∀ p ∈ s'.channels_, p ∈ s.channels_ ∨ (p.2.rec_set_ = .neg ∧ p.2.ts_set_ = .neg) ∨
        ((s'.store.array p.2.rec_set_).isSome ∨ p.2.rec_set_ = .neg) ∧
        ((s'.store.array p.2.ts_set_).isSome ∨ p.2.ts_set_ = .neg)) →
      ∀ p ∈ s'.channels_,
        (p.2.rec_set_ = .neg ∨ (s'.store.array p.2.rec_set_).isSome) ∧
        (p.2.ts_set_ = .neg ∨ (s'.store.array p.2.ts_set_).isSome) := by
    intro s' hg hr p hp
    rcases hr p hp with e | ⟨e1, e2⟩ | ⟨e1, e2⟩
    · obtain ⟨a, b⟩ := hd p e
      exact ⟨a.imp (fun x => x) (hg _), b.imp (fun x => x) (hg _)⟩
    · exact ⟨Or.inl e1, Or.inl e2⟩
    · exact ⟨e1.symm, e2.symm⟩
  cases call with
  | add_channel flt name type_name source_name mem_type file_type =>
    simp only [Call.state]
    obtain ⟨f1, -⟩ := add_channel_fields flt s name type_name source_name mem_type file_type
    refine ⟨by rw [f1]; exact ht, keep _ ?_ ?_⟩
    · intro d hdd
      obtain ⟨l, hl, hm⟩ := array_isSome_members hdd
      obtain ⟨h1, -⟩ := add_channel_other flt s name type_name source_name mem_type file_type l hm
      obtain ⟨a1, a2⟩ := array_of_members h1
      rcases hl with e | e
      · rw [e, a1, ← e]; exact hdd
      · rw [e, a2, ← e]; exact hdd
    · intro p hp
      cases hr : add_channel flt s name type_name source_name mem_type file_type with
      | mk r s' =>
        rw [hr] at hp
        cases r with
        | error e =>
          left
          rw [add_channel_error_registry hr] at hp
          exact hp
        | ok id =>
          obtain ⟨-, -, -, -, -, n, rec_set, ts_set, -, hch, o1, o2, -⟩ := add_channel_ok hr
          simp only at hp ⊢
          rw [hch] at hp
          rcases mem_put hp with e | e
          · right; right
            rw [e]
            simp only
            constructor
            · rcases o1 with x | ⟨x, y⟩
              · exact Or.inr x
              · left
                rw [x, array_of_member.1 y]
                rfl
            · rcases o2 with x | ⟨x, y⟩
              · exact Or.inr x
              · left
                rw [x, array_of_member.2 y]
                rfl
          · exact Or.inl e
  | add_entry flt c t v =>
    simp only [Call.state]
    obtain ⟨f1, -⟩ := add_entry_fields flt s c t v
    refine ⟨by rw [f1]; exact ht, keep _ (add_entry_grows flt s c t v) ?_⟩
    intro p hp
    have key : ∀ q ∈ (subscript s.channels_ c).2,
        q ∈ s.channels_ ∨ (q.2.rec_set_ = .neg ∧ q.2.ts_set_ = .neg) := by
      intro q hq
      rcases mem_subscript hq with e | e
      · exact Or.inl e
      · exact Or.inr (by rw [e]; exact ⟨rfl, rfl⟩)
    rcases add_entry_registry flt s c t v with e | e
    · rw [e] at hp
      rcases key p hp with x | x
      · exact Or.inl x
      · exact Or.inr (Or.inl x)
    · rw [e] at hp
      rcases mem_put hp with x | x
      · rcases subscript_fst s.channels_ c with y | y
        · right; right
          obtain ⟨a, b⟩ := hd _ y
          rw [x]
          simp only at a b ⊢
          exact ⟨(a.imp (fun z => z) (add_entry_grows flt s c t v _)).symm,
            (b.imp (fun z => z) (add_entry_grows flt s c t v _)).symm⟩
        · right; left
          rw [x, y]
          exact ⟨rfl, rfl⟩
      · rcases key p x with y | y
        · exact Or.inl y
        · exact Or.inr (Or.inl y)
  | get_entry flt c i =>
    simp only [Call.state, get_entry_state]
    refine ⟨ht, keep { s with channels_ := (subscript s.channels_ c).2 } (fun _ h => h) ?_⟩
    intro p hp
    rcases mem_subscript hp with e | e
    · exact Or.inl e
    · exact Or.inr (Or.inl (by rw [e]; exact ⟨rfl, rfl⟩))
  | get_entry_size c i =>
    simp only [Call.state, get_entry_size_state]
    refine ⟨ht, keep { s with channels_ := (subscript s.channels_ c).2 } (fun _ h => h) ?_⟩
    intro p hp
    rcases mem_subscript hp with e | e
    · exact Or.inl e
    · exact Or.inr (Or.inl (by rw [e]; exact ⟨rfl, rfl⟩))
  | get_channel_info flt c =>
    simp only [Call.state, get_channel_info_state]
    exact ⟨ht, hd⟩
  | set_text_tag flt tag value =>
    simp only [Call.state]
    obtain ⟨p1, p2, -, -⟩ := set_text_tag_spec flt s tag value ht ""
    have hm : ∀ l, (set_text_tag flt s tag value).2.store.members (.group l) =
        s.store.members (.group l) := fun l => (set_text_tag_spec flt s tag value ht l).2.2.2
    refine ⟨p1, keep _ (fun d h => by rw [array_congr_members hm]; exact h) ?_⟩
    intro p hp
    rw [p2] at hp
    exact Or.inl hp
  | set_binary_tag fault tag bytes =>
    simp only [Call.state]
    obtain ⟨p1, p2, -, -⟩ := set_binary_tag_spec fault s tag bytes ht ""
    have hm : ∀ l, (set_binary_tag fault s tag bytes).2.store.members (.group l) =
        s.store.members (.group l) := fun l => (set_binary_tag_spec fault s tag bytes ht l).2.2.2
    refine ⟨p1, keep _ (fun d h => by rw [array_congr_members hm]; exact h) ?_⟩
    intro p hp
    rw [p2] at hp
    exact Or.inl hp

/-- Every sequence of calls keeps the identifiers of the session sound. -/
theorem handles_sound_session (calls : List Call) (s : HDF5R) (hs : handles_sound s = true) :
    handles_sound (session s calls) = true := by
  induction calls generalizing s with
  | nil => exact hs
  | cons call rest ih => exact ih _ (handles_sound_step s call hs)

theorem prepare_loop_sound (flt : PrepareFaults) (f : File) (names : List String) (i : Nat)
    (st r : List (ChannelID × Channel) × ChannelID)
    (h0 : ∀ p ∈ st.1, (p.2.rec_set_ = .neg ∨ (f.array p.2.rec_set_).isSome) ∧
      (p.2.ts_set_ = .neg ∨ (f.array p.2.ts_set_).isSome))
    (h : prepare_loop flt f i names st = .ok r) :
    ∀ p ∈ r.1, (p.2.rec_set_ = .neg ∨ (f.array p.2.rec_set_).isSome) ∧
      (p.2.ts_set_ = .neg ∨ (f.array p.2.ts_set_).isSome) := by
  induction names generalizing i st with
  | nil =>
    simp only [prepare_loop, Outcome.ok.injEq] at h
    subst h
    exact h0
  | cons ii rest ih =>
    obtain ⟨chans, next_id⟩ := st
    simp only [prepare_loop] at h
    split at h
    · cases h
    split at h
    · cases h
    refine ih _ _ ?_ h
    intro p hp
    rcases mem_put hp with e | e
    · rw [e]
      simp only
      constructor
      · split
        · rename_i hx
          exact Or.inr hx
        · exact Or.inl rfl
      · split
        · rename_i hx
          exact Or.inr hx
        · exact Or.inl rfl
    · exact h0 p e

theorem read_index_fields (flt : IndexFaults) (s : HDF5R) :
    (read_index flt s).2.tags_grp_ = s.tags_grp_ ∧ (read_index flt s).2.channels_ = s.channels_ ∧
    (read_index flt s).2.store = s.store ∧ (read_index flt s).2.next_id_ = s.next_id_ := by
  unfold read_index
  split
  · exact ⟨rfl, rfl, rfl, rfl⟩
  · exact ⟨rfl, rfl, rfl, rfl⟩

/-- A session that the constructor has built holds sound identifiers,
whatever the file and the mode. -/
theorem handles_sound_open (flt : PrepareFaults) (disk : Option File) (mode : Mode) (s : HDF5R)
    (h : HDF5R.open_ flt disk mode = .ok s) : handles_sound s = true := by
  have main : ∀ s0 : HDF5R, s0.channels_ = [] → s0.tags_grp_ = .neg → prepare flt s0 = .ok s →
      handles_sound s = true := by
    intro s0 hc ht hp
    unfold prepare at hp
    simp only [] at hp
    have fin : ∀ s1 : HDF5R, (s1.tags_grp_ = .neg ∨ s1.tags_grp_ = .tags_grp) →
        (∀ p ∈ s1.channels_, (p.2.rec_set_ = .neg ∨ (s1.store.array p.2.rec_set_).isSome) ∧
          (p.2.ts_set_ = .neg ∨ (s1.store.array p.2.ts_set_).isSome)) →
        (match read_index flt.index (prepare_tags_group s1) with
          | (.error e, _) => Outcome.error e
          | (.ok _, s) => Outcome.ok s) = .ok s → handles_sound s = true := by
      intro s1 t1 d1 hfin
      obtain ⟨p1, p2, -, -, -, p6, -⟩ := prepare_tags_group_spec s1 t1
      obtain ⟨r1, r2, r3, -⟩ := read_index_fields flt.index (prepare_tags_group s1)
      split at hfin
      · cases hfin
      rename_i u s2 hri
      simp only [Outcome.ok.injEq] at hfin
      subst hfin
      rw [hri] at r1 r2 r3
      simp only at r1 r2 r3
      rw [handles_sound_iff, datasets_open_iff]
      refine ⟨by rw [r1]; exact p1, ?_⟩
      intro p hp
      rw [r2, p2] at hp
      have harr : ∀ d, s2.store.array d = s1.store.array d := by
        intro d
        rw [r3]
        cases d <;> simp [File.array, File.members, p6]
      rw [harr, harr]
      exact d1 p hp
    split at hp
    · cases hp
    rename_i s1 hr
    have props : s1.tags_grp_ = .neg ∧
        ∀ p ∈ s1.channels_, (p.2.rec_set_ = .neg ∨ (s1.store.array p.2.rec_set_).isSome) ∧
          (p.2.ts_set_ = .neg ∨ (s1.store.array p.2.ts_set_).isSome) := by
      split at hr
      · split at hr
        · simp only [Outcome.ok.injEq] at hr
          subst hr
          refine ⟨ht, ?_⟩
          intro p hp'
          simp only [hc, List.not_mem_nil] at hp'
        · simp only [Outcome.ok.injEq] at hr
          subst hr
          refine ⟨ht, ?_⟩
          intro p hp'
          simp only [hc, List.not_mem_nil] at hp'
      · split at hr
        · cases hr
        · rename_i chans next_id hl
          simp only [Outcome.ok.injEq] at hr
          subst hr
          refine ⟨ht, ?_⟩
          exact prepare_loop_sound flt s0.store _ 0 _ (chans, next_id)
            (by intro p hp'; simp only [hc, List.not_mem_nil] at hp') hl
    exact fin s1 (Or.inl props.1) props.2 hp
  unfold HDF5R.open_ at h
  simp only [] at h
  split at h
  · cases h
  · exact main _ rfl rfl h
  · cases h
  · exact main _ rfl rfl h
  · cases h
  · exact main _ rfl rfl h
  · exact main _ rfl rfl h

/-! ## Properties of the specification -/

/-- C1, as stated, fails for a channel whose file type is narrower than its
memory type.  On a channel created with a memory type of four bytes and a file
type of one byte, `add_entry(0, 100, 300)` returns normally, so that the pair
`(100, 300)` is the one appended pair and `get_channel_info` reports size 1;
`get_entry(0, 0)` returns the time stamp 100 with the sample 255, the largest
value of the file type, and not 300. -/
theorem narrow_file_type_loses_sample :
    add_channel {} new_log "bytes" "int" "thin_air" (.dtype 4) (.dtype 1) = (.ok 0, narrow_log) ∧
    (add_entry {} narrow_log 0 100 300).1 = .ok () ∧
    appended narrow_log 0 [.add_entry {} 0 100 300] = [(100, 300)] ∧
    (get_channel_info {} (session narrow_log [.add_entry {} 0 100 300]) 0).1 =
      .ok ⟨"bytes", "int", "thin_air", .dtype 4, 1, 100, 100⟩ ∧
    (get_entry {} (session narrow_log [.add_entry {} 0 100 300]) 0 0).1 = .ok (100, 255) ∧
    (get_entry {} (session narrow_log [.add_entry {} 0 100 300]) 0 0).1 ≠ .ok (100, 300) := by
  decide

/-- C1, amended: for a channel that `add_channel` has created with a file type
at least as wide as its memory type, and any calls of the public operations
that follow (on this and on other channels, returning or throwing, in any
environment, fewer than `2 ^ 64` calls in all) in which every sample appended
to the channel is a value of the memory type, `get_channel_info` reports as
size the number `N` of `add_entry` calls on the channel that returned
normally, and `get_entry` at every ordinal `i < N` returns the time stamp and
the sample of the `i`-th of them. -/
theorem add_entry_get_entry_round_trip (fc : AddChannelFaults) (s s1 : HDF5R)
    (name type_name source_name : String) (mem_type file_type : hid_t) (id : ChannelID)
    (calls : List Call)
    (hs : handles_sound s = true)
    (hc : add_channel fc s name type_name source_name mem_type file_type = (.ok id, s1))
    (hn : calls.length < 2 ^ 64)
    (hw : H5Tget_size mem_type ≤ H5Tget_size file_type)
    (hv : ∀ p ∈ appended s1 id calls, p.2 < 256 ^ H5Tget_size mem_type) :
    (∃ info, (get_channel_info {} (session s1 calls) id).1 = .ok info ∧
      info.size_ = (appended s1 id calls).length) ∧
    ∀ (i : Nat) (hi : i < (appended s1 id calls).length),
      (get_entry {} (session s1 calls) id i).1 = .ok ((appended s1 id calls).get ⟨i, hi⟩) := by
  obtain ⟨c0, tr, hnext, hmt, hwid⟩ := Tracked.tracked_init hs hc
  have tr1 := tr.tracked_session calls 0 hnext (by omega) (by simpa using hn)
  have hkeep := tr.width_session calls 0 hnext (by omega) (by simpa using hn)
  have inv := tr1.recorded
  simp only [List.nil_append] at inv
  constructor
  · obtain ⟨info, h1, h2, -⟩ := inv.info
    exact ⟨info, by rw [h1], h2⟩
  · intro i hi
    have hget : (appended s1 id calls).get? i = some ((appended s1 id calls).get ⟨i, hi⟩) := by
      simp [List.get?_eq_getElem?, List.getElem?_eq_getElem hi]
    have hL : appended s1 id calls ≠ [] := by
      intro e
      rw [e] at hi
      exact absurd hi (by simp)
    have hrec := (inv.live hL).1
    rw [inv.entry hget, hkeep, hwid hrec, hmt,
      H5Tconvert_round_trip hw (hv _ (List.get_mem _ _ _))]

theorem add_entry_get_entry_round_trip_witness :
    handles_sound new_log = true ∧
    add_channel {} new_log "ints" "int" "thin_air" (.dtype 4) (.dtype 8) = (.ok 0, ints_log) ∧
    H5Tget_size (.dtype 4) ≤ H5Tget_size (.dtype 8) ∧
    appended ints_log 0 demo_calls = [(100, 7), (200, 9)] ∧
    (∀ p ∈ appended ints_log 0 demo_calls, p.2 < 256 ^ H5Tget_size (.dtype 4)) ∧
    (∃ info, (get_channel_info {} (session ints_log demo_calls) 0).1 = .ok info ∧
      info.size_ = 2) ∧
    (get_entry {} (session ints_log demo_calls) 0 0).1 = .ok (100, 7) ∧
    (get_entry {} (session ints_log demo_calls) 0 1).1 = .ok (200, 9) :=
  have h := add_entry_get_entry_round_trip {} new_log ints_log "ints" "int" "thin_air"
    (.dtype 4) (.dtype 8) 0 demo_calls (by decide) (by decide) (by decide) (by decide)
    (by decide)
  ⟨by decide, by decide, by decide, by decide, by decide, h.1, h.2 0 (by decide),
    h.2 1 (by decide)⟩

/-- C2: `add_channel` with a name that a registered channel already carries
throws "Channel already exists" and leaves the whole state, so also the
registered identifiers, every channel and the identifier counter, as it was. -/
theorem add_channel_duplicate_name (flt : AddChannelFaults) (s : HDF5R)
    (name type_name source_name : String) (mem_type file_type : hid_t)
    (id : ChannelID) (c : Channel)
    (hreg : find id s.channels_ = some c) (hname : c.name_ = name) :
    add_channel flt s name type_name source_name mem_type file_type =
      (.error "Channel already exists", s) := by
  have hh : have_channel s name = true := by
    simp only [have_channel, List.any_eq_true, decide_eq_true_eq]
    exact ⟨(id, c), find_mem hreg, hname⟩
  simp [add_channel, hh]

theorem add_channel_duplicate_name_witness :
    find 0 ints_log.channels_ = some ints_channel ∧ ints_channel.name_ = "ints" ∧
    add_channel {} ints_log "ints" "float" "elsewhere" (.dtype 4) (.dtype 4) =
      (.error "Channel already exists", ints_log) :=
  ⟨by decide, by decide,
    add_channel_duplicate_name {} ints_log "ints" "float" "elsewhere" (.dtype 4) (.dtype 4) 0
      ints_channel (by decide) (by decide)⟩

/-- C3: after a successful `add_entry(C, T, sample)` on a registered channel
`C` of size `P`, the pointer list the index holds for `T` contains `(C, P)`. -/
theorem add_entry_records_pointer (flt : AddEntryFaults) (s s' : HDF5R)
    (chan_id timestamp buf : Nat) (c : Channel)
    (hreg : find chan_id s.channels_ = some c)
    (h : add_entry flt s chan_id timestamp buf = (.ok (), s')) :
    ∃ l, find timestamp s'.index_ = some l ∧ (chan_id, c.size_) ∈ l := by
  obtain ⟨-, -, -, -, -, -, -, -, -, hidx, -⟩ := add_entry_ok hreg h
  exact ⟨[(chan_id, c.size_)], by rw [hidx, find_put_same], List.mem_singleton.2 rfl⟩

theorem add_entry_records_pointer_witness :
    find 0 ints_log.channels_ = some ints_channel ∧
    add_entry {} ints_log 0 100 7 = (.ok (), (add_entry {} ints_log 0 100 7).2) ∧
    ∃ l, find 100 (add_entry {} ints_log 0 100 7).2.index_ = some l ∧
      (0, ints_channel.size_) ∈ l :=
  ⟨by decide, by decide,
    add_entry_records_pointer {} ints_log _ 0 100 7 ints_channel (by decide) (by decide)⟩

/-- C4, evaluated: two successful appends to one channel with the same time
stamp 100 leave under 100 only the pointer of the second append, ordinal 1;
the pointer `(0, 0)` of the first append is gone from the index.  The same
happens when the two appends go to different channels. -/
theorem add_entry_same_timestamp_replaces :
    add_entries ints_log 0 [({}, 100, 7), ({}, 100, 9)] = some collision_log ∧
    find 100 collision_log.index_ = some [(0, 1)] ∧
    (∀ l, find 100 collision_log.index_ = some l → (0, 0) ∉ l) ∧
    (add_entry {} two_channels_log 0 100 7).1 = .ok () ∧
    (add_entry {} (add_entry {} two_channels_log 0 100 7).2 1 100 3).1 = .ok () ∧
    (add_entry {} (add_entry {} two_channels_log 0 100 7).2 1 100 3).2.index_ =
      [(100, [(1, 0)])] := by
  refine ⟨by decide, by decide, ?_, by decide, by decide, by decide⟩
  intro l hl
  rw [show find 100 collision_log.index_ = some [(0, 1)] by decide] at hl
  cases hl
  decide

/-- C5: when a store step of `add_entry` fails, for an environment failure of
any of the six steps or for any other reason, the call throws, the time index
is what it was, and every channel registered before the call is still
registered with the same size and identifiers. -/
theorem add_entry_failure_no_partial_effect (flt : AddEntryFaults) (s : HDF5R)
    (chan_id timestamp buf : Nat)
    (h : (flt.rec_extent || flt.rec_select || flt.rec_write || flt.ts_extent ||
        flt.ts_select || flt.ts_write) = true ∨
      (add_entry flt s chan_id timestamp buf).1.isOk = false) :
    (add_entry flt s chan_id timestamp buf).1.isOk = false ∧
    (add_entry flt s chan_id timestamp buf).2.index_ = s.index_ ∧
    (add_entry flt s chan_id timestamp buf).2.next_id_ = s.next_id_ ∧
    ∀ id c, find id s.channels_ = some c →
      find id (add_entry flt s chan_id timestamp buf).2.channels_ = some c := by
  have hfail : (add_entry flt s chan_id timestamp buf).1.isOk = false := by
    rcases h with h | h
    · cases hr : add_entry flt s chan_id timestamp buf with
      | mk r s' =>
        cases r with
        | error e => rfl
        | ok u =>
          exfalso
          unfold add_entry at hr
          simp only [] at hr
          split at hr
          · simp at hr
          rename_i f1 h1
          split at hr
          · simp at hr
          rename_i hs1
          split at hr
          · simp at hr
          rename_i f2 h2
          split at hr
          · simp at hr
          rename_i f3 h3
          split at hr
          · simp at hr
          rename_i hs2
          split at hr
          · simp at hr
          rename_i f4 h4
          have a1 := (H5Dset_extent_some h1).1
          have a2 := (H5Dwrite_some h2).1
          have a3 := (H5Dset_extent_some h3).1
          have a4 := (H5Dwrite_some h4).1
          simp only [H5Sselect_elements, Bool.not_and, Bool.not_not, Bool.or_eq_true,
            not_or, Bool.not_eq_true] at hs1 hs2
          simp [a1, a2, a3, a4, hs1.1, hs2.1] at h
    · exact h
  obtain ⟨h1, h2, h3⟩ := add_entry_error hfail
  refine ⟨hfail, h1, h3, ?_⟩
  intro id c hc
  rw [h2]
  unfold subscript
  cases hf : find chan_id s.channels_ with
  | some c' => exact hc
  | none =>
    simp only []
    rw [find_put_ne]
    · exact hc
    · intro e
      subst e
      rw [hf] at hc
      cases hc

theorem add_entry_failure_no_partial_effect_witness :
    (ts_extent_fails.rec_extent || ts_extent_fails.rec_select || ts_extent_fails.rec_write ||
      ts_extent_fails.ts_extent || ts_extent_fails.ts_select || ts_extent_fails.ts_write) = true ∧
    (add_entry ts_extent_fails ints_log 0 100 7).1 =
      .error "Failed to extend dataset for new timestamp" ∧
    (add_entry ts_extent_fails ints_log 0 100 7).2.index_ = ints_log.index_ ∧
    find 0 (add_entry ts_extent_fails ints_log 0 100 7).2.channels_ = some ints_channel :=
  have h := add_entry_failure_no_partial_effect ts_extent_fails ints_log 0 100 7
    (Or.inl (by decide))
  ⟨by decide, by decide, h.2.1, h.2.2.2 0 ints_channel (by decide)⟩

/-- C6, refuted as stated: when the record dataset has been extended and
written and extending the time stamp dataset then fails, `add_entry` throws
and leaves the record array with one element and the time stamp array with
the ten elements it had. -/
theorem add_entry_torn_arrays :
    (add_entry ts_extent_fails ints_log 0 100 7).1 =
      .error "Failed to extend dataset for new timestamp" ∧
    ∃ chan, find 0 torn_log.channels_ = some chan ∧
      persisted_lengths torn_log chan = (some 1, some 10) ∧
      (persisted_lengths torn_log chan).1 ≠ (persisted_lengths torn_log chan).2 := by
  exact ⟨by decide, ints_channel, by decide, by decide, by decide⟩

/-- C6, amended: after every `add_entry` that returns normally, the persisted
record array and the persisted time stamp array of the addressed channel both
have the length that is the new size of the channel, one more than before. -/
theorem add_entry_success_equal_lengths (flt : AddEntryFaults) (s s' : HDF5R)
    (chan_id timestamp buf : Nat)
    (h : add_entry flt s chan_id timestamp buf = (.ok (), s')) :
    ∃ c c', find chan_id s.channels_ = some c ∧ find chan_id s'.channels_ = some c' ∧
      c'.size_ = c.size_ + 1 ∧
      persisted_lengths s' c' = (some c'.size_, some c'.size_) ∧
      ∀ d, d ≠ c.rec_set_ → d ≠ c.ts_set_ → s'.store.array d = s.store.array d := by
  cases hf : find chan_id s.channels_ with
  | none =>
    exfalso
    have hsub : subscript s.channels_ chan_id = ({}, put chan_id {} s.channels_) := by
      simp [subscript, hf]
    unfold add_entry at h
    rw [hsub] at h
    simp [H5Dset_extent, File.array] at h
  | some c =>
    obtain ⟨xs, ys, -, -, -, -, harr, -, hch, -⟩ := add_entry_ok hf h
    refine ⟨c, { c with size_ := c.size_ + 1 }, rfl, by rw [hch, find_put_same], rfl, ?_, ?_⟩
    · simp only [persisted_lengths, harr]
      by_cases e : c.rec_set_ = c.ts_set_
      · simp [e, length_resize]
      · simp [e, length_resize]
    · intro d h1 h2
      rw [harr, if_neg h2, if_neg h1]

theorem add_entry_success_equal_lengths_witness :
    add_entry {} ints_log 0 100 7 = (.ok (), (add_entry {} ints_log 0 100 7).2) ∧
    ∃ c c', find 0 ints_log.channels_ = some c ∧
      find 0 (add_entry {} ints_log 0 100 7).2.channels_ = some c' ∧
      c'.size_ = c.size_ + 1 ∧
      persisted_lengths (add_entry {} ints_log 0 100 7).2 c' = (some c'.size_, some c'.size_) ∧
      ∀ d, d ≠ c.rec_set_ → d ≠ c.ts_set_ →
        (add_entry {} ints_log 0 100 7).2.store.array d = ints_log.store.array d :=
  ⟨by decide, add_entry_success_equal_lengths {} ints_log _ 0 100 7 (by decide)⟩

/-- C7, evaluated: on the channel `add_channel` has just created, whose size
is zero, `get_entry` at each of the ordinals 0 to 9 returns time stamp 0 and
sample 0 instead of failing; at ordinal 10 it fails. -/
theorem get_entry_fresh_channel_returns :
    (get_channel_info {} ints_log 0).1 = .ok ⟨"ints", "int", "thin_air", .dtype 4, 0, 0, 0⟩ ∧
    (List.range 10).all
      (fun k => decide ((get_entry {} ints_log 0 k).1 = .ok (0, 0))) = true ∧
    (get_entry {} ints_log 0 10).1 = .error "Failed to read time stamp" := by
  decide

theorem read_string_error {flt : ReadStringFaults} {f : File} {g : hid_t} {set e : String}
    (h : read_string flt f g set = .error e) :
    e = "Failed to open string " ++ set ∨ e = "Failed to get string data type for" ++ set ∨
      e = "Error reading string " ++ set := by
  unfold read_string at h
  repeat' split at h
  all_goals simp only [Outcome.error.injEq, reduceCtorEq] at h
  all_goals simp [← h]

theorem read_type_error {fl : Bool} {f : File} {g : hid_t} {set e : String}
    (h : read_type fl f g set = .error e) : e = "Error reading data type " ++ set := by
  unfold read_type at h
  repeat' split at h
  all_goals simp only [Outcome.error.injEq, reduceCtorEq] at h
  all_goals simp [← h]

theorem read_channel_info_error (flt : ReadChannelInfoFaults) (f : File) (chan : Channel) :
    read_channel_info flt f chan ≠ .error "Bad channel ID" := by
  unfold read_channel_info
  split
  · rename_i e h
    rcases read_string_error h with rfl | rfl | rfl <;> decide
  split
  · rename_i e h
    rcases read_string_error h with rfl | rfl | rfl <;> decide
  split
  · rename_i e h
    rcases read_string_error h with rfl | rfl | rfl <;> decide
  split
  · rename_i e h
    rw [read_type_error h]
    decide
  repeat' split
  all_goals simp

/-- C8: `get_channel_info` on an identifier that is not registered throws
"Bad channel ID" and leaves the state as it was; on a registered identifier
it never throws that error, and it leaves the state as it was. -/
theorem get_channel_info_bad_id (flt : ReadChannelInfoFaults) (s : HDF5R)
    (chan_id : ChannelID) :
    (chan_id ∉ channels s → get_channel_info flt s chan_id = (.error "Bad channel ID", s)) ∧
    (chan_id ∈ channels s →
      (get_channel_info flt s chan_id).1 ≠ .error "Bad channel ID" ∧
      (get_channel_info flt s chan_id).2 = s) := by
  constructor
  · intro h
    have hf : find chan_id s.channels_ = none := find_none_iff.2 h
    simp [get_channel_info, hf]
  · intro h
    cases hf : find chan_id s.channels_ with
    | none => exact absurd h (find_none_iff.1 hf)
    | some c =>
      simp only [get_channel_info, hf]
      exact ⟨read_channel_info_error flt s.store c, trivial⟩

theorem get_channel_info_bad_id_witness :
    5 ∉ channels ints_log ∧ 0 ∈ channels ints_log ∧
    get_channel_info {} ints_log 5 = (.error "Bad channel ID", ints_log) ∧
    (get_channel_info {} ints_log 0).1 ≠ .error "Bad channel ID" ∧
    (get_channel_info {} ints_log 0).2 = ints_log :=
  ⟨by decide, by decide, (get_channel_info_bad_id {} ints_log 5).1 (by decide),
    (get_channel_info_bad_id {} ints_log 0).2 (by decide)⟩

/-- For a channel that `add_channel` has created in this session, and any
calls of the public operations that follow (fewer than `2 ^ 64`),
`get_channel_info` returns the number of `add_entry` calls on the channel that
returned normally as size, and as start and end time the time stamps of the
first and of the last of them, both zero when there is none. -/
theorem get_channel_info_first_last (fc : AddChannelFaults) (s s1 : HDF5R)
    (name type_name source_name : String) (mem_type file_type : hid_t) (id : ChannelID)
    (calls : List Call)
    (hs : handles_sound s = true)
    (hc : add_channel fc s name type_name source_name mem_type file_type = (.ok id, s1))
    (hn : calls.length < 2 ^ 64) :
    ∃ info, get_channel_info {} (session s1 calls) id = (.ok info, session s1 calls) ∧
      info.size_ = (appended s1 id calls).length ∧
      info.start_time_ = (((appended s1 id calls).map Prod.fst).head?).getD 0 ∧
      info.end_time_ = (((appended s1 id calls).map Prod.fst).getLast?).getD 0 := by
  obtain ⟨c0, tr, hnext, -⟩ := Tracked.tracked_init hs hc
  have inv := (tr.tracked_session calls 0 hnext (by omega) (by simpa using hn)).recorded
  simp only [List.nil_append] at inv
  exact inv.info

theorem get_channel_info_first_last_witness :
    handles_sound new_log = true ∧
    add_channel {} new_log "ints" "int" "thin_air" (.dtype 4) (.dtype 8) = (.ok 0, ints_log) ∧
    session ints_log [.add_entry {} 0 100 7, .add_entry {} 0 200 9] = two_log ∧
    ∃ info, get_channel_info {} two_log 0 = (.ok info, two_log) ∧ info.size_ = 2 ∧
      info.start_time_ = 100 ∧ info.end_time_ = 200 :=
  ⟨by decide, by decide, by decide,
    get_channel_info_first_last {} new_log ints_log "ints" "int" "thin_air"
      (.dtype 4) (.dtype 8) 0 [.add_entry {} 0 100 7, .add_entry {} 0 200 9]
      (by decide) (by decide) (by decide)⟩

/-- C9: `get_channel_info` does not return the size and the first and last
time stamps for every registered channel.  After `get_entry_size(5, 0)` on a
log whose only channel is 0, the identifier 5 is registered, with size 0, and
`get_channel_info(5)` throws "Failed to open string name" instead of
returning size 0 with both times zero.  A channel without appends that is
registered again by opening the closed file is reported with size 10 and both
times zero. -/
theorem get_channel_info_default_channel :
    channels (get_entry_size ints_log 5 0).2 = [0, 5] ∧
      (find 5 (get_entry_size ints_log 5 0).2.channels_).map (fun c => c.size_) = some 0 ∧
      (get_channel_info {} (get_entry_size ints_log 5 0).2 5).1
        = .error "Failed to open string name" ∧
      reopen_channels ints_log .RDWR = .ok [0] ∧
      reopen_info ints_log .RDWR 0 = .ok ⟨"ints", "int", "thin_air", .dtype 4, 10, 0, 0⟩ := by
  decide

/-- C10, evaluated: a log with one channel and no append reports size 0 for
the channel; after closing it and opening the file again the same channel,
under the same identifier, is reported with size 10, the length the time
stamp dataset was created with.  With two appends the size, 2, and the first
and last time stamps are the same before and after. -/
theorem reopen_empty_channel_size :
    (get_channel_info {} ints_log 0).1 = .ok ⟨"ints", "int", "thin_air", .dtype 4, 0, 0, 0⟩ ∧
    reopen_channels ints_log .RDONLY = .ok [0] ∧
    reopen_info ints_log .RDONLY 0 = .ok ⟨"ints", "int", "thin_air", .dtype 4, 10, 0, 0⟩ ∧
    (get_channel_info {} two_log 0).1 =
      .ok ⟨"ints", "int", "thin_air", .dtype 4, 2, 100, 200⟩ ∧
    reopen_info two_log .RDONLY 0 = .ok ⟨"ints", "int", "thin_air", .dtype 4, 2, 100, 200⟩ := by
  decide

/-- Reads at or beyond the length of the persisted time stamp array fail:
`get_entry` relies on the container for the range check. -/
theorem get_entry_beyond_array (flt : GetEntryFaults) (s : HDF5R) (chan_id index : Nat)
    (c : Channel) (hreg : find chan_id s.channels_ = some c)
    (h : ∀ xs, s.store.array c.ts_set_ = some xs → xs.length ≤ index) :
    (get_entry flt s chan_id index).1.isOk = false := by
  unfold get_entry
  rw [subscript_found hreg]
  simp only []
  split
  · rfl
  split
  · rfl
  rename_i t ht
  exfalso
  unfold H5Dread at ht
  split at ht
  · cases ht
  split at ht
  · rename_i xs _ hxs
    have := h xs hxs
    rw [List.get?_eq_none.2 this] at ht
    cases ht
  · cases ht

/-! ### Identifiers wider than 32 bits, and identifiers nobody handed out -/

theorem H5Gcreate_empty_name (fl w : Bool) (f : File) (loc : hid_t) :
    H5Gcreate fl w f loc "" = (.neg, f) := by
  unfold H5Gcreate
  split
  · simp
  · rfl

/-- A call of `add_channel` with an empty name throws after it has advanced
the identifier counter, and changes nothing else. -/
theorem failing_add_channel_state (s : HDF5R) (h : have_channel s "" = false) :
    failing_add_channel.state s = { s with next_id_ := (s.next_id_ + 1) % 2 ^ 64 } := by
  have hc : c_str "" = "" := by decide
  simp only [failing_add_channel, Call.state, add_channel, h, hc, H5Gcreate_empty_name]
  rfl

/-- The identifier counter of a new log reaches every 64-bit value: `n` calls
of `add_channel` that throw leave it at `n`. -/
theorem next_id_reachable (n : Nat) :
    session new_log (List.replicate n failing_add_channel) = aged_log (n % 2 ^ 64) := by
  induction n with
  | zero => rfl
  | succ n ih =>
    have h : session new_log (List.replicate (n + 1) failing_add_channel)
        = failing_add_channel.state (session new_log (List.replicate n failing_add_channel)) := by
      simp only [List.replicate_succ', session, List.foldl_append, List.foldl_cons, List.foldl_nil]
    rw [h, ih]
    rw [failing_add_channel_state _ (by rfl)]
    simp only [aged_log, Nat.add_mod_mod, Nat.mod_add_mod]

/-- C11: the persisted `uid` does not equal the identifier `add_channel`
returned once the identifier needs more than 32 bits.  With the counter at
`2 ^ 32`, `add_channel` returns `4294967296`, `write_uint` stores `0` as the
channel's `uid` (its parameter is an `unsigned int`), `read_uint` reads `0`,
and after close and reopen the channel is registered under `0`. -/
theorem uid_loses_upper_bits :
    (add_channel {} (aged_log 4294967296) "ints" "int" "thin_air" (.dtype 4) (.dtype 8)).1
        = .ok 4294967296
      ∧ (after_add_channel (aged_log 4294967296) "ints").store.member "ints" "uid"
        = some (.uint 0)
      ∧ read_uint {} (after_add_channel (aged_log 4294967296) "ints").store (.group "ints") "uid"
        = .ok 0
      ∧ reopen_channels (after_add_channel (aged_log 4294967296) "ints") .RDONLY = .ok [0] := by
  decide

/-- C12: opening a file does not leave the identifier counter at the largest
persisted `uid` plus one when that `uid` is `2 ^ 32 - 1`: `uid + 1` is computed
in `unsigned int` and wraps to `0`.  A file whose only channel has the `uid`
`4294967295` opens with the counter at `0`; a file whose channels have the
`uid`s `4294967294` and `4294967295` opens with the counter at `4294967295`,
so the first `add_channel` returns the identifier of the reopened channel
`"b"` and takes its place in the registry. -/
theorem prepare_counter_wraps :
    reopen_channels (after_add_channel (aged_log 4294967295) "a") .RDWR = .ok [4294967295]
      ∧ reopen_next_id (after_add_channel (aged_log 4294967295) "a") .RDWR = .ok 0
      ∧ reopen_channels last_ids_log .RDWR = .ok [4294967294, 4294967295]
      ∧ reopen_next_id last_ids_log .RDWR = .ok 4294967295
      ∧ reopen_add_channel last_ids_log .RDWR "c"
        = .ok (.ok 4294967295, [(4294967294, "a"), (4294967295, "c")]) := by
  decide

/-- C13: a successful `add_channel` does not always return an identifier
greater than every registered one, nor one that is no key of the registry.
On a new log `get_entry_size(5, 0)` registers the identifier 5 (through
`channels_[chan_id]`) and the next `add_channel` returns 0; after
`get_entry_size(0, 0)` the identifier 0 is registered and the next
`add_channel` returns that same 0. -/
theorem add_channel_not_above_registered :
    channels (get_entry_size new_log 5 0).2 = [5]
      ∧ (add_channel {} (get_entry_size new_log 5 0).2 "a" "int" "thin_air" (.dtype 4)
          (.dtype 8)).1 = .ok 0
      ∧ channels (get_entry_size new_log 0 0).2 = [0]
      ∧ (add_channel {} (get_entry_size new_log 0 0).2 "a" "int" "thin_air" (.dtype 4)
          (.dtype 8)).1 = .ok 0 := by
  decide

/-- C14: `get_entry_size`, `get_entry` and `add_entry` change the set of
registered identifiers when they are called with an identifier that is not
registered.  On a log whose only channel is 0, each of the three calls with
the identifier 5 leaves `channels()` at `[0, 5]`; `get_entry` and `add_entry`
throw all the same.  `get_channel_info(5)` leaves the registry as it was. -/
theorem lookup_registers_identifier :
    channels ints_log = [0]
      ∧ channels (get_entry_size ints_log 5 0).2 = [0, 5]
      ∧ (get_entry {} ints_log 5 0).1 = .error "Failed to select time stamp"
      ∧ channels (get_entry {} ints_log 5 0).2 = [0, 5]
      ∧ (add_entry {} ints_log 5 100 7).1 = .error "Failed to extend dataset for new record"
      ∧ channels (add_entry {} ints_log 5 100 7).2 = [0, 5]
      ∧ (get_channel_info {} ints_log 5).1 = .error "Bad channel ID"
      ∧ channels (get_channel_info {} ints_log 5).2 = [0] := by
  decide

/-- C15: two registered channels can have the same name.  On a new log the
calls `get_entry_size(5, 0)` and `get_entry_size(6, 0)` register the
identifiers 5 and 6, both with the empty name of a default-constructed
`Channel`. -/
theorem default_channels_share_name :
    names_unique new_log = true
      ∧ (session new_log [.get_entry_size 5 0, .get_entry_size 6 0]).channels_.map
          (fun p => (p.1, p.2.name_)) = [(5, ""), (6, "")]
      ∧ names_unique (session new_log [.get_entry_size 5 0, .get_entry_size 6 0]) = false := by
  decide

/-! ### The index stays in key order -/

theorem put_ascending {β : Type} (k : Nat) (v : β) {m : List (Nat × β)} (h : ascending m) :
    ascending (put k v m) := by
  induction m with
  | nil => simp [put, ascending]
  | cons q rest ih =>
    obtain ⟨k', v'⟩ := q
    unfold ascending at h ih ⊢
    rw [List.pairwise_cons] at h
    simp only [put]
    split
    · rename_i hlt
      rw [List.pairwise_cons, List.pairwise_cons]
      refine ⟨?_, h⟩
      intro b hb
      rcases List.mem_cons.1 hb with e | e
      · rw [e]; exact hlt
      · exact Nat.lt_trans hlt (h.1 b e)
    · split
      · rename_i _ heq
        rw [List.pairwise_cons]
        refine ⟨?_, h.2⟩
        intro b hb
        have := h.1 b hb
        simp only at this ⊢
        omega
      · rename_i hlt hne
        rw [List.pairwise_cons]
        refine ⟨?_, ih h.2⟩
        intro b hb
        rcases mem_put hb with e | e
        · rw [e]; simp only; omega
        · exact h.1 b e

theorem ascending_nodup {β : Type} {m : List (Nat × β)} (h : ascending m) :
    (m.map Prod.fst).Nodup := by
  unfold ascending at h
  rw [List.Nodup, List.pairwise_map]
  exact h.imp (fun hab => Nat.ne_of_lt hab)

theorem read_index_loop_ascending (flt : IndexFaults) (i : Nat)
    (es : List (Nat × IndexPointerList)) (idx : Index) (h : ascending idx) :
    ascending (read_index_loop flt i es idx).2 := by
  induction es generalizing i idx with
  | nil => exact h
  | cons e rest ih =>
    obtain ⟨t, r⟩ := e
    simp only [read_index_loop]
    split
    · exact h
    · split
      · exact h
      · exact ih _ _ (put_ascending t r h)

theorem prepare_tags_group_index (s : HDF5R) :
    (prepare_tags_group s).index_ = s.index_ := by
  unfold prepare_tags_group
  repeat' split
  all_goals rfl

theorem add_entry_index (flt : AddEntryFaults) (s : HDF5R) (c t v : Nat) :
    (add_entry flt s c t v).2.index_ = s.index_ ∨
      ∃ p, (add_entry flt s c t v).2.index_ = put t p s.index_ := by
  unfold add_entry
  simp only []
  repeat' split
  all_goals first | exact Or.inl rfl | exact Or.inr ⟨_, rfl⟩

theorem Call.state_index (s : HDF5R) (call : Call) :
    (call.state s).index_ = s.index_ ∨ ∃ t p, (call.state s).index_ = put t p s.index_ := by
  cases call with
  | add_channel flt name type_name source_name mem_type file_type =>
    exact Or.inl (add_channel_fields flt s name type_name source_name mem_type file_type).2.2.2
  | add_entry flt c t v =>
    rcases add_entry_index flt s c t v with h | ⟨p, h⟩
    · exact Or.inl h
    · exact Or.inr ⟨t, p, h⟩
  | get_entry flt c i =>
    left
    simp only [Call.state, get_entry_state]
  | get_entry_size c i => exact Or.inl rfl
  | get_channel_info flt c =>
    left
    simp only [Call.state, get_channel_info_state]
  | set_text_tag flt tag value =>
    left
    simp only [Call.state, set_text_tag]
    exact prepare_tags_group_index s
  | set_binary_tag fault tag bytes =>
    left
    show (hdf5r.set_binary_tag fault s tag bytes).2.index_ = s.index_
    unfold hdf5r.set_binary_tag
    simp only []
    repeat' split
    all_goals exact prepare_tags_group_index s

theorem ascending_session (s : HDF5R) (calls : List Call) (h : ascending s.index_) :
    ascending (session s calls).index_ := by
  induction calls generalizing s with
  | nil => exact h
  | cons call rest ih =>
    simp only [session, List.foldl_cons]
    apply ih
    rcases Call.state_index s call with e | ⟨t, p, e⟩
    · rw [e]; exact h
    · rw [e]; exact put_ascending t p h

theorem prepare_index (flt : PrepareFaults) (s0 s : HDF5R) (h : prepare flt s0 = .ok s) :
    ∃ s1 : HDF5R, s1.index_ = s0.index_ ∧ s1.mode_ = s0.mode_ ∧
      (s1.store.index = s0.store.index) ∧
      read_index flt.index (prepare_tags_group s1) = (.ok (), s) := by
  unfold prepare at h
  simp only [] at h
  split at h
  · exact absurd h (by simp)
  · rename_i s1 hr
    split at h
    · exact absurd h (by simp)
    · rename_i u s2 hread
      simp only [Outcome.ok.injEq] at h
      subst h
      refine ⟨s1, ?_, ?_, ?_, hread⟩
      all_goals
        revert hr
        repeat' split
        all_goals
          intro hr
          cases hr <;> rfl

theorem open_ascending (flt : PrepareFaults) (disk : Option File) (mode : Mode) (s : HDF5R)
    (h : HDF5R.open_ flt disk mode = .ok s) : ascending s.index_ := by
  have main : ∀ s0 : HDF5R, s0.index_ = [] → prepare flt s0 = .ok s → ascending s.index_ := by
    intro s0 h0 hp
    obtain ⟨s1, e1, -, -, hread⟩ := prepare_index flt s0 s hp
    unfold read_index at hread
    have hi : (prepare_tags_group s1).index_ = [] := by
      rw [prepare_tags_group_index, e1, h0]
    split at hread
    · simp only [Prod.mk.injEq] at hread
      rw [← hread.2, hi]
      exact List.Pairwise.nil
    · rename_i es _
      simp only [Prod.mk.injEq] at hread
      rw [← hread.2]
      exact read_index_loop_ascending _ _ _ _ (by rw [hi]; exact List.Pairwise.nil)
  unfold HDF5R.open_ at h
  simp only [] at h
  split at h
  all_goals first
    | exact absurd h (by simp)
    | exact main _ rfl h

/-- C16: in every state a session reaches (the constructor on any file in any
mode, then any public calls in any environment) `index()` lists its entries
with strictly ascending time stamps, hence with no time stamp twice, whatever
the order in which the samples were appended. -/
theorem index_ascending_no_duplicates (flt : PrepareFaults) (disk : Option File) (mode : Mode)
    (s0 : HDF5R) (calls : List Call) (h : HDF5R.open_ flt disk mode = .ok s0) :
    (index (session s0 calls)).Pairwise (fun a b => a.1 < b.1) ∧
      ((index (session s0 calls)).map Prod.fst).Nodup :=
  ⟨ascending_session s0 calls (open_ascending flt disk mode s0 h),
    ascending_nodup (ascending_session s0 calls (open_ascending flt disk mode s0 h))⟩

theorem index_ascending_no_duplicates_witness :
    HDF5R.open_ {} none .TRUNCATE = .ok new_log ∧
      index (session new_log descending_calls) = [(100, [(0, 1)]), (200, [(0, 0)])] ∧
      (index (session new_log descending_calls)).Pairwise (fun a b => a.1 < b.1) ∧
      ((index (session new_log descending_calls)).map Prod.fst).Nodup :=
  ⟨by decide, by decide,
    index_ascending_no_duplicates {} none .TRUNCATE new_log descending_calls (by decide)⟩

/-! ### Writing the index and reading it back -/

/-- The loop of `write_index` over the first entries of the index, as long as
the `unsigned int` position does not wrap: they land at consecutive positions
and the loop goes on with the rest. -/
theorem write_index_loop_append (es1 es2 : Index) (i o : Nat)
    (d : List (Nat × IndexPointerList)) (ho : o < 2 ^ 32) (h32 : o + es1.length ≤ 2 ^ 32)
    (hd : o + es1.length ≤ d.length) :
    ∃ d1, d1.length = d.length ∧
      (∀ j, d1[j]? = if o ≤ j ∧ j < o + es1.length then es1[j - o]? else d[j]?) ∧
      write_index_loop {} i o (es1 ++ es2) d =
        write_index_loop {} (i + es1.length) ((o + es1.length) % 2 ^ 32) es2 d1 := by
  have e32 : (2 : Nat) ^ 32 = 4294967296 := by norm_num
  rw [e32] at ho h32 ⊢
  induction es1 generalizing i o d with
  | nil =>
    refine ⟨d, rfl, ?_, ?_⟩
    · intro j
      rw [if_neg]
      simp only [List.length_nil]
      omega
    · simp only [List.nil_append, List.length_nil, Nat.add_zero]
      rw [Nat.mod_eq_of_lt ho]
  | cons e rest ih =>
    simp only [List.length_cons] at h32 hd
    have ho' : (o + 1) % 4294967296 < 4294967296 := Nat.mod_lt _ (by norm_num)
    obtain ⟨d1, l1, g1, w1⟩ := ih (i + 1) ((o + 1) % 4294967296) (d.set o e) ho'
      (by omega) (by rw [List.length_set]; omega)
    refine ⟨d1, by rw [l1, List.length_set], ?_, ?_⟩
    · intro j
      rw [g1, List.getElem?_set]
      simp only [List.length_cons]
      by_cases hj : o = j
      · subst hj
        have : ¬ ((o + 1) % 4294967296 ≤ o ∧ o < (o + 1) % 4294967296 + rest.length) := by omega
        rw [if_neg this, if_pos rfl, if_pos (by omega), if_pos (by omega)]
        simp
      · rw [if_neg hj]
        by_cases hr : rest.length = 0
        · have : ¬ ((o + 1) % 4294967296 ≤ j ∧ j < (o + 1) % 4294967296 + rest.length) := by omega
          rw [if_neg this, if_neg (by omega)]
        · have eo : (o + 1) % 4294967296 = o + 1 := Nat.mod_eq_of_lt (by omega)
          rw [eo]
          by_cases hin : o + 1 ≤ j ∧ j < o + 1 + rest.length
          · rw [if_pos hin, if_pos (by omega)]
            have : j - o = (j - (o + 1)) + 1 := by omega
            rw [this, List.getElem?_cons_succ]
          · rw [if_neg hin, if_neg (by omega)]
    · have hstep : write_index_loop {} i o (e :: rest ++ es2) d =
          write_index_loop {} (i + 1) ((o + 1) % 4294967296) (rest ++ es2) (d.set o e) := by
        have hlen : ¬ d.length ≤ o := by omega
        simp [write_index_loop, hlen]
      rw [hstep, w1]
      have e1 : i + 1 + rest.length = i + (rest.length + 1) := by omega
      have e2 : ((o + 1) % 4294967296 + rest.length) % 4294967296 =
          (o + (rest.length + 1)) % 4294967296 := by omega
      simp only [List.length_cons]
      rw [e1, e2]

/-- Without environment failures, and with at most `2 ^ 32` entries, the loop
of `write_index` fills the new dataset with the entries of the index, in
order. -/
theorem write_index_loop_all (es : Index) (h32 : es.length ≤ 2 ^ 32) :
    write_index_loop {} 0 0 es (List.replicate es.length (0, [])) = (.ok (), es) := by
  obtain ⟨d1, l1, g1, w1⟩ := write_index_loop_append es [] 0 0
    (List.replicate es.length (0, [])) (by norm_num) (by omega) (by simp)
  rw [List.append_nil] at w1
  rw [w1]
  simp only [write_index_loop, Prod.mk.injEq, true_and]
  apply List.ext_getElem?
  intro j
  rw [g1]
  split
  · simp
  · rename_i hj
    rw [List.getElem?_replicate, if_neg (by omega), List.getElem?_eq_none (by omega)]

/-- Without environment failures the loop of `read_index` assigns every
persisted entry to the index, in order. -/
theorem read_index_loop_foldl (i : Nat) (es : List (Nat × IndexPointerList)) (idx : Index) :
    read_index_loop {} i es idx = (.ok (), es.foldl (fun acc e => put e.1 e.2 acc) idx) := by
  induction es generalizing i idx with
  | nil => rfl
  | cons e rest ih =>
    obtain ⟨t, r⟩ := e
    simp only [read_index_loop, List.foldl_cons]
    exact ih _ _

theorem put_append_last {β : Type} (k : Nat) (v : β) (m : List (Nat × β))
    (h : ascending (m ++ [(k, v)])) : put k v m = m ++ [(k, v)] := by
  induction m with
  | nil => rfl
  | cons q rest ih =>
    obtain ⟨k', v'⟩ := q
    unfold ascending at h ih
    rw [List.cons_append, List.pairwise_cons] at h
    have hlt : k' < k := h.1 (k, v) (by simp)
    simp only [put, List.cons_append]
    rw [if_neg (by omega), if_neg (by omega), ih h.2]

theorem foldl_put_ascending {β : Type} (es acc : List (Nat × β)) (h : ascending (acc ++ es)) :
    es.foldl (fun acc e => put e.1 e.2 acc) acc = acc ++ es := by
  induction es generalizing acc with
  | nil => simp
  | cons e rest ih =>
    have h1 : ascending ((acc ++ [e]) ++ rest) := by
      rw [List.append_assoc]
      exact h
    have h2 : ascending (acc ++ [e]) := by
      unfold ascending at h1 ⊢
      exact (List.pairwise_append.1 h1).1
    rw [List.foldl_cons, put_append_last e.1 e.2 acc h2, ih _ h1, List.append_assoc]
    rfl

theorem prepare_tags_group_store_index (s : HDF5R) :
    (prepare_tags_group s).store.index = s.store.index := by
  unfold prepare_tags_group
  repeat' split
  all_goals rfl

/-- The index of a session that the constructor has built from a file,
without environment failures: the persisted entries assigned in order. -/
theorem open_index (f : File) (mode : Mode) (s : HDF5R)
    (hm : mode = .RDONLY ∨ mode = .RDWR)
    (h : HDF5R.open_ {} (some f) mode = .ok s) :
    s.index_ = (f.index.getD []).foldl (fun acc e => put e.1 e.2 acc) [] := by
  have main : ∀ s0 : HDF5R, s0.index_ = [] → s0.store.index = f.index →
      prepare {} s0 = .ok s →
      s.index_ = (f.index.getD []).foldl (fun acc e => put e.1 e.2 acc) [] := by
    intro s0 h0 hf hp
    obtain ⟨s1, e1, -, e3, hread⟩ := prepare_index {} s0 s hp
    unfold read_index at hread
    have hi : (prepare_tags_group s1).index_ = [] := by
      rw [prepare_tags_group_index, e1, h0]
    have hs : (prepare_tags_group s1).store.index = f.index := by
      rw [prepare_tags_group_store_index, e3, hf]
    rw [hs] at hread
    split at hread
    · rename_i hnone
      simp only [Prod.mk.injEq] at hread
      rw [← hread.2, hi, hnone]
      rfl
    · rename_i es hsome
      simp only [Prod.mk.injEq] at hread
      rw [← hread.2, hsome]
      show (read_index_loop {} 0 es (prepare_tags_group s1).index_).2 = _
      rw [read_index_loop_foldl, hi]
      rfl
  rcases hm with e | e
  all_goals
    subst e
    exact main _ rfl rfl h

/-- What `write_index` leaves in the file of a writable session that holds
between one and `2 ^ 32` entries: exactly those entries, in order. -/
theorem write_index_entries (s : HDF5R) (hw : s.mode_ ≠ .RDONLY) (hne : s.index_ ≠ [])
    (h32 : s.index_.length ≤ 2 ^ 32) :
    write_index {} s = (.ok (), { s.store with index := some s.index_ }) := by
  have hl : s.index_.length ≠ 0 := fun e => hne (List.length_eq_zero.1 e)
  unfold write_index
  rw [if_neg hw]
  simp only []
  rw [if_neg hl, write_index_loop_all _ h32]

theorem write_index_empty (flt : IndexFaults) (s : HDF5R) (hw : s.mode_ ≠ .RDONLY)
    (he : s.index_ = []) :
    write_index flt s = (.ok (), { s.store with index := none }) := by
  unfold write_index
  rw [if_neg hw]
  simp only []
  rw [if_pos (by rw [he]; rfl)]

theorem write_index_read_only (flt : IndexFaults) (s : HDF5R) (hr : s.mode_ = .RDONLY) :
    write_index flt s = (.ok (), s.store) := by
  unfold write_index
  rw [if_pos hr]

/-- Closing a writable session with at most `2 ^ 32` entries succeeds and
leaves its entries as the persisted index, or no persisted index when it has
none. -/
theorem close_index (s : HDF5R) (hw : s.mode_ ≠ .RDONLY) (h32 : s.index_.length ≤ 2 ^ 32) :
    (HDF5R.close {} s).1 = .ok () ∧ ((HDF5R.close {} s).2.index.getD []) = s.index_ := by
  unfold HDF5R.close
  by_cases he : s.index_ = []
  · rw [write_index_empty {} s hw he, he]
    exact ⟨rfl, rfl⟩
  · rw [write_index_entries s hw he h32]
    exact ⟨rfl, rfl⟩

theorem add_entry_index_ok (flt : AddEntryFaults) (s : HDF5R) (c t v : Nat)
    (h : (add_entry flt s c t v).1.isOk = true) :
    (add_entry flt s c t v).2.index_ =
      put t [(c, (subscript s.channels_ c).1.size_)] s.index_ := by
  revert h
  unfold add_entry
  simp only []
  repeat' split
  all_goals simp [Outcome.isOk]

theorem Call.state_pointer (s : HDF5R) (call : Call) :
    (call.state s).index_ = (call.pointer s).foldl (fun acc tp => put tp.1 [tp.2] acc) s.index_ := by
  cases call with
  | add_entry flt c t v =>
    simp only [Call.pointer]
    split
    · rename_i h
      exact add_entry_index_ok flt s c t v h
    · rename_i h
      exact (add_entry_error (Bool.not_eq_true _ ▸ h)).1
  | add_channel flt name type_name source_name mem_type file_type =>
    exact (add_channel_fields flt s name type_name source_name mem_type file_type).2.2.2
  | get_entry flt c i =>
    simp only [Call.state, get_entry_state, Call.pointer, List.foldl_nil]
  | get_entry_size c i => rfl
  | get_channel_info flt c =>
    simp only [Call.state, get_channel_info_state, Call.pointer, List.foldl_nil]
  | set_text_tag flt tag value =>
    simp only [Call.state, set_text_tag, Call.pointer, List.foldl_nil]
    exact prepare_tags_group_index s
  | set_binary_tag fault tag bytes =>
    show (hdf5r.set_binary_tag fault s tag bytes).2.index_ = s.index_
    unfold hdf5r.set_binary_tag
    simp only []
    repeat' split
    all_goals exact prepare_tags_group_index s

/-- The index after a sequence of calls: the pointers recorded in its course
assigned in call order, each as a list of one pointer. -/
theorem session_index (s : HDF5R) (calls : List Call) :
    (session s calls).index_ =
      (pointers s calls).foldl (fun acc tp => put tp.1 [tp.2] acc) s.index_ := by
  induction calls generalizing s with
  | nil => rfl
  | cons call rest ih =>
    simp only [session, List.foldl_cons, pointers, List.foldl_append]
    rw [← Call.state_pointer]
    exact ih _

theorem find_foldl_put_ne (t : Nat) (l : List (Nat × IndexPointer)) (acc : Index)
    (h : t ∉ l.map Prod.fst) :
    find t (l.foldl (fun acc tp => put tp.1 [tp.2] acc) acc) = find t acc := by
  induction l generalizing acc with
  | nil => rfl
  | cons x rest ih =>
    simp only [List.map_cons, List.mem_cons, not_or] at h
    rw [List.foldl_cons, ih _ h.2, find_put_ne h.1]

/-- When the time stamps of the assigned pointers are pairwise distinct,
every one of them is found under its time stamp. -/
theorem find_foldl_put (l : List (Nat × IndexPointer)) (acc : Index)
    (h : (l.map Prod.fst).Nodup) (tp : Nat × IndexPointer) (hm : tp ∈ l) :
    find tp.1 (l.foldl (fun acc tp => put tp.1 [tp.2] acc) acc) = some [tp.2] := by
  induction l generalizing acc with
  | nil => simp at hm
  | cons x rest ih =>
    simp only [List.map_cons, List.nodup_cons] at h
    rw [List.foldl_cons]
    rcases List.mem_cons.1 hm with e | e
    · subst e
      rw [find_foldl_put_ne _ _ _ h.1, find_put_same]
    · exact ih _ h.2 e

theorem Call.state_mode (s : HDF5R) (call : Call) : (call.state s).mode_ = s.mode_ := by
  cases call with
  | add_entry flt c t v => exact (add_entry_fields flt s c t v).2.2.1
  | add_channel flt name type_name source_name mem_type file_type =>
    exact (add_channel_fields flt s name type_name source_name mem_type file_type).2.1
  | get_entry flt c i => simp only [Call.state, get_entry_state]
  | get_entry_size c i => rfl
  | get_channel_info flt c => simp only [Call.state, get_channel_info_state]
  | set_text_tag flt tag value =>
    show (prepare_tags_group s).mode_ = s.mode_
    unfold prepare_tags_group
    repeat' split
    all_goals rfl
  | set_binary_tag fault tag bytes =>
    show (hdf5r.set_binary_tag fault s tag bytes).2.mode_ = s.mode_
    unfold hdf5r.set_binary_tag prepare_tags_group
    simp only []
    repeat' split
    all_goals rfl

theorem session_mode (s : HDF5R) (calls : List Call) : (session s calls).mode_ = s.mode_ := by
  induction calls generalizing s with
  | nil => rfl
  | cons call rest ih =>
    simp only [session, List.foldl_cons]
    exact (ih _).trans (Call.state_mode s call)

theorem open_mode (flt : PrepareFaults) (disk : Option File) (mode : Mode) (s : HDF5R)
    (h : HDF5R.open_ flt disk mode = .ok s) : s.mode_ = mode := by
  have main : ∀ s0 : HDF5R, prepare flt s0 = .ok s → s.mode_ = s0.mode_ := by
    intro s0 hp
    obtain ⟨s1, -, e2, -, hread⟩ := prepare_index flt s0 s hp
    have hs : s.mode_ = (prepare_tags_group s1).mode_ := by
      unfold read_index at hread
      split at hread
      all_goals
        simp only [Prod.mk.injEq] at hread
        rw [← hread.2]
    rw [hs, ← e2]
    exact Call.state_mode s1 (.set_text_tag {} "" "")
  unfold HDF5R.open_ at h
  simp only [] at h
  split at h
  all_goals first
    | exact absurd h (by simp)
    | exact main _ h

/-! ### An index with more than `2 ^ 32` entries -/

theorem ramp_succ (n : Nat) : ramp (n + 1) = ramp n ++ [(n, [(0, n)])] := by
  unfold ramp
  rw [List.range_succ, List.map_append]
  rfl

theorem ramp_length (n : Nat) : (ramp n).length = n := by
  unfold ramp
  rw [List.length_map, List.length_range]

theorem ramp_ascending (n : Nat) : ascending (ramp n) := by
  unfold ascending ramp
  rw [List.pairwise_map]
  exact List.pairwise_lt_range _

theorem ramp_head (n : Nat) : find 0 (ramp (n + 1)) = some [(0, 0)] := by
  unfold ramp
  rw [List.range_succ_eq_map, List.map_cons]
  simp only [find, if_true]

theorem ramp_last (n : Nat) : (ramp (n + 1))[n]? = some (n, [(0, n)]) := by
  rw [ramp_succ, List.getElem?_append_right (by rw [ramp_length]), ramp_length, Nat.sub_self]
  rfl

/-- The constructor on a file without channels that holds the entries `es`
as its index: the session holds them assigned in order. -/
theorem open_index_file (es : List (Nat × IndexPointerList)) (mode : Mode)
    (hm : mode = .RDONLY ∨ mode = .RDWR) :
    HDF5R.open_ {} (some ⟨some [], some [], some es⟩) mode
      = .ok ⟨mode, ⟨some [], some [], some es⟩, .channels_grp, .tags_grp, [], 0,
          es.foldl (fun acc e => put e.1 e.2 acc) []⟩ := by
  have hp : prepare_tags_group ⟨mode, ⟨some [], some [], some es⟩, .channels_grp, .neg, [], 0, []⟩
      = ⟨mode, ⟨some [], some [], some es⟩, .channels_grp, .tags_grp, [], 0, []⟩ := rfl
  have hr : read_index {}
      ⟨mode, ⟨some [], some [], some es⟩, .channels_grp, .tags_grp, [], 0, []⟩
      = (.ok (), ⟨mode, ⟨some [], some [], some es⟩, .channels_grp, .tags_grp, [], 0,
          es.foldl (fun acc e => put e.1 e.2 acc) []⟩) := by
    simp only [read_index, read_index_loop_foldl]
  rcases hm with e | e
  all_goals
    subst e
    simp only [HDF5R.open_, prepare, List.map_nil, prepare_loop]
    rw [hp, hr]

/-- The constructor builds `ramp_log n` from `ramp_file n`. -/
theorem ramp_log_opened (n : Nat) :
    HDF5R.open_ {} (some (ramp_file n)) .RDWR = .ok (ramp_log n) := by
  have h := open_index_file (ramp n) .RDWR (Or.inr rfl)
  have ha : ascending ([] ++ ramp n) := by
    rw [List.nil_append]
    exact ramp_ascending _
  rw [foldl_put_ascending (ramp n) [] ha, List.nil_append] at h
  exact h

theorem write_index_of_loop (flt : IndexFaults) (s : HDF5R) (hw : s.mode_ ≠ .RDONLY)
    (hne : s.index_.length ≠ 0) (r : Outcome Unit) (d : List (Nat × IndexPointerList))
    (h : write_index_loop flt 0 0 s.index_ (List.replicate s.index_.length (0, [])) = (r, d)) :
    write_index flt s = (r, { s.store with index := some d }) := by
  unfold write_index
  rw [if_neg hw]
  simp only []
  rw [if_neg hne, h]

/-- Closing a session whose index holds `2 ^ 32 + 1` entries succeeds, and
the persisted index has the last entry of the index at position 0 and the fill
value, time stamp 0 without pointers, at the last position: the position of
`write_index` is an `unsigned int` and is back at 0 after `2 ^ 32` entries. -/
theorem ramp_log_closed (n : Nat) (hn : n = 2 ^ 32) :
    ∃ d : List (Nat × IndexPointerList),
      HDF5R.close {} (ramp_log (n + 1)) = (.ok (), ⟨some [], some [], some d⟩) ∧
      d.length = n + 1 ∧ d[0]? = some (n, [(0, n)]) ∧ d[n]? = some (0, []) := by
  have e32 : (2 : Nat) ^ 32 = 4294967296 := by norm_num
  obtain ⟨d1, l1, g1, w1⟩ := write_index_loop_append (ramp n) [(n, [(0, n)])]
    0 0 (List.replicate (n + 1) (0, [])) (by norm_num)
    (by rw [ramp_length]; omega) (by rw [ramp_length, List.length_replicate]; omega)
  rw [List.length_replicate] at l1
  rw [← ramp_succ, ramp_length, Nat.zero_add, hn, Nat.mod_self, ← hn] at w1
  have hlen : ¬ d1.length ≤ 0 := by omega
  have w2 : write_index_loop {} 0 0 (ramp (n + 1)) (List.replicate (n + 1) (0, []))
      = (.ok (), d1.set 0 (n, [(0, n)])) := by
    rw [w1]
    simp [write_index_loop, hlen]
  refine ⟨d1.set 0 (n, [(0, n)]), ?_, ?_, ?_, ?_⟩
  · unfold HDF5R.close
    rw [write_index_of_loop {} _ (by simp [ramp_log]) (by simp [ramp_log, ramp_length]) (.ok ())
      (d1.set 0 (n, [(0, n)]))]
    · rfl
    · simp only [ramp_log, ramp_length]
      exact w2
  · rw [List.length_set, l1]
  · rw [List.getElem?_set, if_pos rfl, if_pos (by omega)]
  · rw [List.getElem?_set, if_neg (by omega), g1, if_neg (by rw [ramp_length]; omega),
      List.getElem?_replicate, if_pos (by omega)]

theorem foldl_put_last {β : Type} (d : List (Nat × β)) (n : Nat) (x : Nat × β)
    (hl : d.length = n + 1) (hx : d[n]? = some x) (acc : List (Nat × β)) :
    find x.1 (d.foldl (fun acc e => put e.1 e.2 acc) acc) = some x.2 := by
  have hg : x ∈ d.getLast? := by
    rw [List.getLast?_eq_getElem?, hl, Nat.add_sub_cancel, hx]
    rfl
  rw [← List.dropLast_append_getLast? x hg, List.foldl_append]
  simp only [List.foldl_cons, List.foldl_nil]
  exact find_put_same _ _ _

/-- A session with `2 ^ 32 + 1` entries holds a pointer under the time stamp
0 and none after close and reopen. -/
theorem ramp_log_reopened (n : Nat) (hn : n = 2 ^ 32) :
    HDF5R.open_ {} (some (ramp_file (n + 1))) .RDWR = .ok (ramp_log (n + 1)) ∧
      find 0 (index (ramp_log (n + 1))) = some [(0, 0)] ∧
      reopen_find (ramp_log (n + 1)) .RDONLY 0 = .ok (some []) := by
  refine ⟨ramp_log_opened _, ramp_head n, ?_⟩
  obtain ⟨d, hc, hl, -, hlast⟩ := ramp_log_closed n hn
  unfold reopen_find reopen
  rw [hc, open_index_file d .RDONLY (Or.inl rfl)]
  simp only [index]
  rw [foldl_put_last d n (0, []) hl hlast]

/-- After a session with `2 ^ 32 + 1` entries closes, the persisted index
differs from the index of the session. -/
theorem ramp_log_persisted (n : Nat) (hn : n = 2 ^ 32) :
    (HDF5R.close {} (ramp_log (n + 1))).1 = .ok () ∧
      (index (ramp_log (n + 1)))[n]? = some (n, [(0, n)]) ∧
      (closed_index (ramp_log (n + 1))).bind (fun d => d[0]?) = some (n, [(0, n)]) ∧
      (closed_index (ramp_log (n + 1))).bind (fun d => d[n]?) = some (0, []) ∧
      closed_index (ramp_log (n + 1)) ≠ some (index (ramp_log (n + 1))) := by
  obtain ⟨d, hc, hl, hfirst, hlast⟩ := ramp_log_closed n hn
  have hr : (index (ramp_log (n + 1)))[n]? = some (n, [(0, n)]) := ramp_last n
  unfold closed_index
  rw [hc]
  refine ⟨rfl, hr, hfirst, hlast, ?_⟩
  intro h
  simp only [Option.some.injEq] at h
  rw [h, hr] at hlast
  simp only [Option.some.injEq, Prod.mk.injEq] at hlast
  exact absurd hlast.2 (by simp)


/-! ### The index over close and reopen -/

/-- C17: the index does not survive close and reopen when it holds more than
`2 ^ 32` entries.  The session `ramp_log (2 ^ 32 + 1)`, which the constructor
builds from a file, holds the pointer `(0, 0)` under the time stamp 0; after
close and reopen the time stamp 0 has no pointer, because `write_index` counts
positions in an `unsigned int` and has written the last entry over the
first. -/
theorem index_round_trip_wraps :
    HDF5R.open_ {} (some (ramp_file (2 ^ 32 + 1))) .RDWR = .ok (ramp_log (2 ^ 32 + 1)) ∧
      find 0 (index (ramp_log (2 ^ 32 + 1))) = some [(0, 0)] ∧
      reopen_find (ramp_log (2 ^ 32 + 1)) .RDONLY 0 = .ok (some []) :=
  ramp_log_reopened (2 ^ 32) rfl

/-- The index survives close and reopen when it holds at most `2 ^ 32`
entries.  For every writable session (the constructor on any file, then any
public calls) with such an index, closing it succeeds; `read_index` on a session over the closed file that holds no entry
yet yields exactly the index the session held; and when opening the file
again read-only or read-write succeeds, `index()` equals the index the
session held, so that, when the appends of the session have pairwise distinct
time stamps, every pointer they recorded is found under its time stamp. -/
theorem index_round_trip (flt : PrepareFaults) (disk : Option File) (mode mode' : Mode)
    (s0 : HDF5R) (calls : List Call)
    (h0 : HDF5R.open_ flt disk mode = .ok s0) (hw : mode ≠ .RDONLY)
    (h32 : (index (session s0 calls)).length ≤ 2 ^ 32)
    (hm : mode' = .RDONLY ∨ mode' = .RDWR) :
    (HDF5R.close {} (session s0 calls)).1 = .ok () ∧
      (∀ t : HDF5R, t.index_ = [] → t.store.index = closed_index (session s0 calls) →
        read_index {} t = (.ok (), { t with index_ := index (session s0 calls) })) ∧
      (∀ s', reopen (session s0 calls) mode' = .ok s' →
        index s' = index (session s0 calls) ∧
        (((pointers s0 calls).map Prod.fst).Nodup →
          ∀ tp ∈ pointers s0 calls, find tp.1 (index s') = some [tp.2])) := by
  have hmode : (session s0 calls).mode_ ≠ .RDONLY := by
    rw [session_mode, open_mode flt disk mode s0 h0]
    exact hw
  have hasc : ascending ([] ++ (session s0 calls).index_) := by
    rw [List.nil_append]
    exact ascending_session s0 calls (open_ascending flt disk mode s0 h0)
  obtain ⟨c1, c2⟩ := close_index (session s0 calls) hmode h32
  have hfold := foldl_put_ascending (session s0 calls).index_ [] hasc
  rw [List.nil_append] at hfold
  refine ⟨c1, ?_, ?_⟩
  · intro t ht hs
    unfold closed_index at hs
    unfold read_index
    split
    · rename_i hnone
      rw [hs] at hnone
      rw [hnone] at c2
      have e : index (session s0 calls) = t.index_ := by
        rw [ht]
        exact c2.symm
      rw [e]
    · rename_i es hsome
      rw [hs] at hsome
      rw [hsome] at c2
      simp only [Option.getD_some] at c2
      rw [read_index_loop_foldl, ht, c2, hfold]
      rfl
  · intro s' hre
    have hi : index s' = index (session s0 calls) := by
      unfold reopen at hre
      rw [index, open_index _ mode' s' hm hre, c2, hfold]
      rfl
    refine ⟨hi, ?_⟩
    intro hnd tp htp
    rw [hi, index, session_index]
    exact find_foldl_put _ _ hnd tp htp

theorem index_round_trip_witness :
    HDF5R.open_ {} none .TRUNCATE = .ok new_log ∧
      (index (session new_log index_calls)).length ≤ 2 ^ 32 ∧
      pointers new_log index_calls = [(200, (0, 0)), (100, (0, 1))] ∧
      index (session new_log index_calls) = [(100, [(0, 1)]), (200, [(0, 0)])] ∧
      reopen_find (session new_log index_calls) .RDONLY 100 = .ok (some [(0, 1)]) ∧
      reopen_find (session new_log index_calls) .RDONLY 200 = .ok (some [(0, 0)]) ∧
      ((HDF5R.close {} (session new_log index_calls)).1 = .ok () ∧
        (∀ t : HDF5R, t.index_ = [] →
          t.store.index = closed_index (session new_log index_calls) →
          read_index {} t = (.ok (), { t with index_ := index (session new_log index_calls) })) ∧
        (∀ s', reopen (session new_log index_calls) .RDONLY = .ok s' →
          index s' = index (session new_log index_calls) ∧
          (((pointers new_log index_calls).map Prod.fst).Nodup →
            ∀ tp ∈ pointers new_log index_calls, find tp.1 (index s') = some [tp.2]))) :=
  ⟨by decide, by decide, by decide, by decide, by decide, by decide,
    index_round_trip {} none .TRUNCATE .RDONLY new_log index_calls (by decide) (by decide)
      (by decide) (Or.inl rfl)⟩

/-- C18: after a writable session with more than `2 ^ 32` entries closes, the
persisted index does not hold exactly the entries of the in-memory index.
Closing `ramp_log (2 ^ 32 + 1)` succeeds; the last entry of the index is
`(2 ^ 32, [(0, 2 ^ 32)])`, and the persisted index holds that entry at
position 0 and the fill value `(0, [])` at the last position. -/
theorem close_long_index_wraps :
    (HDF5R.close {} (ramp_log (2 ^ 32 + 1))).1 = .ok () ∧
      (index (ramp_log (2 ^ 32 + 1)))[2 ^ 32]? = some (2 ^ 32, [(0, 2 ^ 32)]) ∧
      (closed_index (ramp_log (2 ^ 32 + 1))).bind (fun d => d[0]?)
        = some (2 ^ 32, [(0, 2 ^ 32)]) ∧
      (closed_index (ramp_log (2 ^ 32 + 1))).bind (fun d => d[2 ^ 32]?) = some (0, []) ∧
      closed_index (ramp_log (2 ^ 32 + 1)) ≠ some (index (ramp_log (2 ^ 32 + 1))) :=
  ramp_log_persisted (2 ^ 32) rfl

/-- Closing rewrites the persisted index in full, up to `2 ^ 32` entries.
When a writable session with between one and `2 ^ 32` entries closes, the close
succeeds and the file holds exactly the entries of the in-memory index, in
order, whatever index it held before, and is otherwise unchanged; when the
in-memory index is empty the file holds no index afterwards, whatever it held
before; when the session is read-only the file is left exactly as it was. -/
theorem close_rewrites_index (flt : IndexFaults) (s : HDF5R) :
    (s.mode_ ≠ .RDONLY → s.index_ ≠ [] → s.index_.length ≤ 2 ^ 32 →
        HDF5R.close {} s = (.ok (), { s.store with index := some (index s) })) ∧
      (s.mode_ ≠ .RDONLY → s.index_ = [] →
        HDF5R.close flt s = (.ok (), { s.store with index := none })) ∧
      (s.mode_ = .RDONLY → HDF5R.close flt s = (.ok (), s.store)) :=
  ⟨fun hw hne h32 => write_index_entries s hw hne h32,
    fun hw he => write_index_empty flt s hw he,
    fun hr => write_index_read_only flt s hr⟩

theorem close_rewrites_index_witness :
    HDF5R.close {} (stale_log .RDWR [(9, [(1, 2)])])
        = (.ok (), ⟨some [], some [], some [(9, [(1, 2)])]⟩) ∧
      HDF5R.close {} (stale_log .RDWR []) = (.ok (), ⟨some [], some [], none⟩) ∧
      HDF5R.close {} (stale_log .RDONLY [(9, [(1, 2)])])
        = (.ok (), ⟨some [], some [], some [(5, [(0, 7)])]⟩) :=
  ⟨(close_rewrites_index {} (stale_log .RDWR [(9, [(1, 2)])])).1 (by decide) (by decide)
      (by decide),
    (close_rewrites_index {} (stale_log .RDWR [])).2.1 (by decide) (by decide),
    (close_rewrites_index {} (stale_log .RDONLY [(9, [(1, 2)])])).2.2 (by decide)⟩

/-! ### Text tags -/

theorem takeWhile_append_stop {α : Type} (p : α → Bool) (l : List α) (a : α) (h : p a = false) :
    (l ++ [a]).takeWhile p = l.takeWhile p := by
  induction l with
  | nil => simp [List.takeWhile, h]
  | cons b rest ih =>
    rw [List.cons_append, List.takeWhile_cons, List.takeWhile_cons, ih]

/-- The terminating NUL that `write_string` stores is not part of what
`read_string` returns. -/
theorem c_str_push (v : String) : c_str (v.push (Char.ofNat 0)) = c_str v := by
  unfold c_str
  have h : (v.push (Char.ofNat 0)).toList = v.toList ++ [Char.ofNat 0] := by
    cases v
    rfl
  rw [h, takeWhile_append_stop _ _ _ (by simp)]

/-- A string without a NUL character is what a C interface sees of it. -/
theorem c_str_self (v : String) (h : Char.ofNat 0 ∉ v.toList) : c_str v = v := by
  unfold c_str
  have e : v.toList.takeWhile (fun c => decide (c ≠ Char.ofNat 0)) = v.toList := by
    rw [List.takeWhile_eq_self_iff]
    intro c hc
    simp only [ne_eq, decide_not, Bool.not_eq_eq_eq_not, Bool.not_true, decide_eq_false_iff_not]
    intro e
    exact h (e ▸ hc)
  rw [e]
  cases v
  rfl

/-- A text tag under a link name that is not empty and not yet used, written
into the tags group of a writable file. -/
theorem write_string_tags (f : File) (g : Group) (set str : String) (hg : f.tags = some g)
    (hk : c_str set ≠ "") (hnew : find (c_str set) g = none) :
    write_string {} true f .tags_grp set str
      = (.ok (),
          { f with tags := some (assign (c_str set) (.str str) (g ++ [(c_str set, .str "")])) }) := by
  have hfa : find (c_str set) (g ++ [(c_str set, Obj.str "")]) = some (.str "") := by
    rw [find_append_single, hnew]
    simp
  simp [write_string, H5Dcreate, H5Dwrite_scalar, File.members, File.setMembers, hg, hk, hnew, hfa]

/-- What `read_string` returns for a text member of the tags group. -/
theorem read_string_tags (f : File) (g : Group) (set a : String) (hg : f.tags = some g)
    (h : find (c_str set) g = some (.str a)) :
    read_string {} f .tags_grp set = .ok (c_str a) := by
  simp [read_string, File.members, hg, h, Obj.bytes, c_str_push]

/-- The function `get_text_tag` looks at the tags identifier and the tags
group only. -/
theorem get_text_tag_congr (flt : ReadStringFaults) (s t : HDF5R) (tag : String)
    (h1 : s.tags_grp_ = t.tags_grp_) (h2 : s.store.tags = t.store.tags)
    (h3 : s.tags_grp_ = .neg ∨ s.tags_grp_ = .tags_grp) :
    get_text_tag flt s tag = get_text_tag flt t tag := by
  unfold get_text_tag read_string
  rw [← h1]
  rcases h3 with e | e
  · simp [e, hid_t.valid]
  · simp only [e, File.members, h2]

theorem close_tags (flt : IndexFaults) (s : HDF5R) :
    (HDF5R.close flt s).2.tags = s.store.tags := by
  unfold HDF5R.close write_index
  repeat' split
  all_goals rfl

theorem prepare_tags (flt : PrepareFaults) (s0 s : HDF5R) (h : prepare flt s0 = .ok s) :
    ∃ s1 : HDF5R, s1.store.tags = s0.store.tags ∧ s1.tags_grp_ = s0.tags_grp_ ∧
      s1.mode_ = s0.mode_ ∧
      s.store = (prepare_tags_group s1).store ∧ s.tags_grp_ = (prepare_tags_group s1).tags_grp_ := by
  unfold prepare at h
  simp only [] at h
  split at h
  · exact absurd h (by simp)
  · rename_i s1 hr
    split at h
    · exact absurd h (by simp)
    · rename_i u s2 hread
      simp only [Outcome.ok.injEq] at h
      subst h
      have hf := read_index_fields flt.index (prepare_tags_group s1)
      rw [hread] at hf
      refine ⟨s1, ?_, ?_, ?_, hf.2.2.1, hf.1⟩
      all_goals
        revert hr
        repeat' split
        all_goals
          intro hr
          cases hr <;> rfl

/-- The tags of a file opened read-only are the tags of the file, and the
tags identifier is open when the file has a tags group. -/
theorem open_read_only_tags (f : File) (g : Group) (s : HDF5R) (hg : f.tags = some g)
    (h : HDF5R.open_ {} (some f) .RDONLY = .ok s) :
    s.tags_grp_ = .tags_grp ∧ s.store.tags = some g := by
  have hp : prepare {} ⟨.RDONLY, f, .neg, .neg, [], 0, []⟩ = .ok s := h
  obtain ⟨s1, e1, e2, -, e4, e5⟩ := prepare_tags {} _ s hp
  have e1' : s1.store.tags = some g := by rw [e1]; exact hg
  have e2' : s1.tags_grp_ = .neg := e2
  rw [e4, e5]
  unfold prepare_tags_group
  simp [e1', e2', hid_t.valid]

/-- What `set_text_tag` does in a writable session for a key whose link name
is not empty and not yet used, when the container takes the link name as the
name of a direct member of the tags group: it returns normally, and the tags
group holds the value under the link name. -/
theorem set_text_tag_new (s : HDF5R) (k v : String) (hw : s.mode_ ≠ .RDONLY)
    (hs : tags_sound s) (hk : c_str k ≠ "")
    (hnew : ∀ g, s.store.tags = some g → find (c_str k) g = none) :
    (set_text_tag {} s k v).1 = .ok () ∧
      (set_text_tag {} s k v).2.tags_grp_ = .tags_grp ∧
      ∃ g, (set_text_tag {} s k v).2.store.tags = some g ∧ find (c_str k) g = some (.str v) := by
  have hwr : ∀ t : HDF5R, t.mode_ = s.mode_ → t.writable = true := by
    intro t ht
    simp [HDF5R.writable, ht, hw]
  have main : ∀ t : HDF5R, t.mode_ = s.mode_ → t.tags_grp_ = .tags_grp → ∀ g, t.store.tags = some g →
      find (c_str k) g = none →
      (match write_string {} t.writable t.store t.tags_grp_ k v with
        | (r, f) => (r, { t with store := f })).1 = .ok () ∧
      (match write_string {} t.writable t.store t.tags_grp_ k v with
        | (r, f) => (r, { t with store := f })).2.tags_grp_ = .tags_grp ∧
      ∃ g', (match write_string {} t.writable t.store t.tags_grp_ k v with
        | (r, f) => (r, { t with store := f })).2.store.tags = some g' ∧
        find (c_str k) g' = some (.str v) := by
    intro t hm ht g hg hn
    rw [hwr t hm, ht, write_string_tags t.store g k v hg hk hn]
    exact ⟨rfl, rfl, _, rfl, find_assign_same _ _ _⟩
  unfold set_text_tag
  simp only []
  rcases hs with e | ⟨e, hsome⟩
  · cases htags : s.store.tags with
    | some g =>
      have hp : prepare_tags_group s = { s with tags_grp_ := .tags_grp } := by
        simp [prepare_tags_group, e, hid_t.valid, htags]
      rw [hp]
      exact main _ rfl rfl g htags (hnew g htags)
    | none =>
      have hp : prepare_tags_group s
          = { s with tags_grp_ := .tags_grp, store := { s.store with tags := some [] } } := by
        simp [prepare_tags_group, e, hid_t.valid, htags, hwr s rfl]
      rw [hp]
      exact main _ rfl rfl [] rfl rfl
  · obtain ⟨g, hg⟩ := Option.isSome_iff_exists.1 hsome
    have hp : prepare_tags_group s = s := by
      simp [prepare_tags_group, e, hid_t.valid]
    rw [hp]
    exact main s rfl e g hg (hnew g hg)

/-- C19 as stated fails: a text value with a NUL character inside does not
come back, and not every key can be set.  On a new log
`set_text_tag("TITLE", v)` with `v` the five characters `d`, `e`, NUL, `m`, `o`
returns normally, and `get_text_tag("TITLE")` returns `"de"`, in the same
session and after close and reopen read-only: `read_string` builds the result
from a C string.  With the empty key, which no tag has, `set_text_tag` throws. -/
theorem text_tag_cut_at_nul :
    (set_text_tag {} new_log "TITLE" text_with_nul).1 = .ok () ∧
      get_text_tag {} (set_text_tag {} new_log "TITLE" text_with_nul).2 "TITLE" = .ok "de" ∧
      reopen_text_tag (set_text_tag {} new_log "TITLE" text_with_nul).2 .RDONLY "TITLE"
        = .ok "de" ∧
      (set_text_tag {} new_log "" "demo").1 = .error "Error writing string " := by
  decide

theorem plain_name_ne_empty {name : String} (h : plain_name name = true) : name ≠ "" := by
  unfold plain_name at h
  simp only [Bool.and_eq_true, decide_eq_true_eq] at h
  exact h.1.1

/-- C19, amended: in a writable session, for every key whose link name (the
characters before its first NUL) is a plain name (not empty, without a slash,
not `"."`) that names no tag yet, and every text value without a NUL
character, of any length including empty, `set_text_tag(k, v)` returns
normally and `get_text_tag(k)` then returns exactly `v`, in the same session
and, when opening the closed file read-only succeeds, in the reopened
session. -/
theorem text_tag_round_trip (s : HDF5R) (k v : String) (hw : s.mode_ ≠ .RDONLY)
    (hs : tags_sound s) (hk : plain_name (c_str k) = true)
    (hnew : ∀ g, s.store.tags = some g → find (c_str k) g = none)
    (hv : Char.ofNat 0 ∉ v.toList) :
    (set_text_tag {} s k v).1 = .ok () ∧
      get_text_tag {} (set_text_tag {} s k v).2 k = .ok v ∧
      ∀ s', reopen (set_text_tag {} s k v).2 .RDONLY = .ok s' →
        get_text_tag {} s' k = .ok v := by
  obtain ⟨h1, h2, g, hg, hf⟩ :=
    set_text_tag_new s k v hw hs (plain_name_ne_empty hk) hnew
  have hget : ∀ t : HDF5R, t.tags_grp_ = .tags_grp → t.store.tags = some g →
      get_text_tag {} t k = .ok v := by
    intro t ht htg
    unfold get_text_tag
    rw [ht]
    simp only [hid_t.valid, Bool.not_true, Bool.false_eq_true, if_false]
    rw [read_string_tags t.store g k v htg hf, c_str_self v hv]
  refine ⟨h1, hget _ h2 hg, ?_⟩
  intro s' hre
  unfold reopen at hre
  have hc : (HDF5R.close {} (set_text_tag {} s k v).2).2.tags = some g := by
    rw [close_tags, hg]
  obtain ⟨o1, o2⟩ := open_read_only_tags _ g s' hc hre
  exact hget s' o1 o2

theorem text_tag_round_trip_witness :
    plain_name (c_str "TITLE") = true ∧
      get_text_tag {} (set_text_tag {} new_log "TITLE" "demo").2 "TITLE" = .ok "demo" ∧
      reopen_text_tag (set_text_tag {} new_log "TITLE" "demo").2 .RDONLY "TITLE" = .ok "demo" ∧
      ((set_text_tag {} new_log "TITLE" "demo").1 = .ok () ∧
        get_text_tag {} (set_text_tag {} new_log "TITLE" "demo").2 "TITLE" = .ok "demo" ∧
        ∀ s', reopen (set_text_tag {} new_log "TITLE" "demo").2 .RDONLY = .ok s' →
          get_text_tag {} s' "TITLE" = .ok "demo") :=
  ⟨by decide, by decide, by decide,
    text_tag_round_trip new_log "TITLE" "demo" (by decide) (Or.inr ⟨rfl, rfl⟩) (by decide)
      (fun g hg => by
        have e : g = [] := by
          have h : some ([] : Group) = some g := hg
          exact (Option.some.inj h).symm
        rw [e]
        rfl)
      (by decide)⟩


/-- The call `H5Dcreate` fails, and leaves the file as it was, when the name
is already linked in the group. -/
theorem H5Dcreate_exists (fl w : Bool) (f : File) (grp : hid_t) (name : String) (init : Obj)
    (h : ((f.members grp).bind (find name)).isSome = true) :
    H5Dcreate fl w f grp name init = (false, f) := by
  unfold H5Dcreate
  cases hm : f.members grp with
  | none => rfl
  | some g =>
    rw [hm] at h
    simp only [Option.some_bind] at h
    simp [h]

/-- The function `write_string` throws, and leaves the file as it was, when
the name is already linked in the group. -/
theorem write_string_exists (flt : WriteStringFaults) (w : Bool) (f : File) (grp : hid_t)
    (set str : String) (h : ((f.members grp).bind (find (c_str set))).isSome = true) :
    write_string flt w f grp set str
      = (.error (if flt.set_size then "Error setting string size for string " ++ set
          else "Error writing string " ++ set), f) := by
  unfold write_string
  split
  · rfl
  · rw [H5Dcreate_exists false w f grp (c_str set) (.str "") h]

/-- When `get_text_tag` returns a value, the tags identifier is open and the
key is linked in the tags group. -/
theorem get_text_tag_ok (flt : ReadStringFaults) (s : HDF5R) (k v : String)
    (h : get_text_tag flt s k = .ok v) :
    s.tags_grp_.valid = true ∧
      ((s.store.members s.tags_grp_).bind (find (c_str k))).isSome = true := by
  unfold get_text_tag at h
  split at h
  · exact absurd h (by simp)
  rename_i hv
  refine ⟨by simpa using hv, ?_⟩
  unfold read_string at h
  split at h
  · exact absurd h (by simp)
  · rename_i e
    rw [e]
    rfl
  · rename_i _ e
    rw [e]
    rfl

/-- C20 as stated fails: `set_text_tag` does not overwrite.  On a new log
after `set_text_tag("TITLE", "demo")`, the call `set_text_tag("TITLE", "other")`
throws "Error writing string TITLE" and `get_text_tag("TITLE")` still returns
`"demo"`, in the same session and after close and reopen read-only. -/
theorem set_text_tag_twice :
    get_text_tag {} title_log "TITLE" = .ok "demo" ∧
      (set_text_tag {} title_log "TITLE" "other").1 = .error "Error writing string TITLE" ∧
      get_text_tag {} (set_text_tag {} title_log "TITLE" "other").2 "TITLE" = .ok "demo" ∧
      reopen_text_tag (set_text_tag {} title_log "TITLE" "other").2 .RDONLY "TITLE"
        = .ok "demo" := by
  decide

/-- C20, amended: `set_text_tag` only creates.  For every key for which
`get_text_tag` returns a value `v1`, and every value `v2`, in every
environment, `set_text_tag(k, v2)` throws ("Error writing string" followed by
the key, unless setting the size of the string type has failed before), leaves
the session and the file as they were, and a following `get_text_tag(k)`
returns `v1`. -/
theorem set_text_tag_existing_key (flt : WriteStringFaults) (s : HDF5R) (k v1 v2 : String)
    (h : get_text_tag {} s k = .ok v1) :
    (set_text_tag flt s k v2).1
        = .error (if flt.set_size then "Error setting string size for string " ++ k
            else "Error writing string " ++ k) ∧
      (set_text_tag flt s k v2).2 = s ∧
      get_text_tag {} (set_text_tag flt s k v2).2 k = .ok v1 := by
  obtain ⟨hv, hm⟩ := get_text_tag_ok {} s k v1 h
  have hp : prepare_tags_group s = s := by
    unfold prepare_tags_group
    rw [if_pos hv]
  have hset : set_text_tag flt s k v2
      = (.error (if flt.set_size then "Error setting string size for string " ++ k
          else "Error writing string " ++ k), s) := by
    unfold set_text_tag
    simp only []
    rw [hp, write_string_exists flt s.writable s.store s.tags_grp_ k v2 hm]
  rw [hset]
  exact ⟨rfl, rfl, h⟩

theorem set_text_tag_existing_key_witness :
    get_text_tag {} title_log "TITLE" = .ok "demo" ∧
      ((set_text_tag {} title_log "TITLE" "other").1
          = .error (if ({} : WriteStringFaults).set_size then
              "Error setting string size for string " ++ "TITLE"
            else "Error writing string " ++ "TITLE") ∧
        (set_text_tag {} title_log "TITLE" "other").2 = title_log ∧
        get_text_tag {} (set_text_tag {} title_log "TITLE" "other").2 "TITLE" = .ok "demo") :=
  ⟨by decide, set_text_tag_existing_key {} title_log "TITLE" "demo" "other" (by decide)⟩

/-! ### The tags identifier of a session stays sound -/

theorem setMembers_tags (f : File) (grp : hid_t) (g : Group) (h : grp ≠ .tags_grp) :
    (f.setMembers grp g).tags = f.tags := by
  cases grp <;> first | rfl | exact absurd rfl h

theorem H5Dcreate_tags (fl w : Bool) (f : File) (grp : hid_t) (k : String) (init : Obj)
    (h : grp ≠ .tags_grp) : (H5Dcreate fl w f grp k init).2.tags = f.tags := by
  unfold H5Dcreate
  split
  · rfl
  split
  · rfl
  · exact setMembers_tags _ _ _ h

theorem H5Dwrite_scalar_tags {fl : Bool} {f f' : File} {grp : hid_t} {k : String} {v : Obj}
    (h : grp ≠ .tags_grp) (hw : H5Dwrite_scalar fl f grp k v = some f') : f'.tags = f.tags := by
  unfold H5Dwrite_scalar at hw
  split at hw
  · simp at hw
  split at hw
  · simp at hw
  split at hw
  · simp only [Option.some.injEq] at hw
    rw [← hw]
    exact setMembers_tags _ _ _ h
  · simp at hw

theorem write_uint_tags (fl w : Bool) (f : File) (grp : hid_t) (set : String) (v : Nat)
    (h : grp ≠ .tags_grp) : (write_uint fl w f grp set v).2.tags = f.tags := by
  have h1 := H5Dcreate_tags false w f grp (c_str set) (.uint 0) h
  unfold write_uint
  split
  · rename_i f1 e
    rw [e] at h1
    exact h1
  rename_i f1 e
  rw [e] at h1
  split
  · exact h1
  · rename_i f2 e2
    exact (H5Dwrite_scalar_tags h e2).trans h1

theorem write_string_keeps_tags (flt : WriteStringFaults) (w : Bool) (f : File) (grp : hid_t)
    (set str : String) (h : grp ≠ .tags_grp) :
    (write_string flt w f grp set str).2.tags = f.tags := by
  have h1 := H5Dcreate_tags false w f grp (c_str set) (.str "") h
  unfold write_string
  split
  · rfl
  split
  · rename_i f1 e
    rw [e] at h1
    exact h1
  rename_i f1 e
  rw [e] at h1
  split
  · exact h1
  · rename_i f2 e2
    exact (H5Dwrite_scalar_tags h e2).trans h1

theorem write_type_tags (fl w : Bool) (f : File) (grp : hid_t) (set : String) (type : hid_t)
    (h : grp ≠ .tags_grp) : (write_type fl w f grp set type).2.tags = f.tags := by
  unfold write_type
  split
  · rename_i n
    have h1 := H5Dcreate_tags fl w f grp (c_str set) (.dtype n) h
    split
    · rename_i f1 e
      rw [e] at h1
      exact h1
    · rename_i f1 e
      rw [e] at h1
      exact h1
  · rfl

theorem H5Gcreate_tags (fl w : Bool) (f : File) (loc : hid_t) (name : String) :
    (H5Gcreate fl w f loc name).2.tags = f.tags ∧ (H5Gcreate fl w f loc name).1 ≠ .tags_grp := by
  unfold H5Gcreate
  split
  · split
    · exact ⟨rfl, by simp⟩
    · exact ⟨rfl, by simp⟩
  · exact ⟨rfl, by simp⟩

/-- The function `add_channel` leaves the tags group as it was. -/
theorem add_channel_tags (flt : AddChannelFaults) (s : HDF5R)
    (name type_name source_name : String) (mem_type file_type : hid_t) :
    (add_channel flt s name type_name source_name mem_type file_type).2.store.tags
      = s.store.tags := by
  unfold add_channel
  split
  · rfl
  simp only [HDF5R.writable]
  obtain ⟨g0, g1⟩ := H5Gcreate_tags flt.gcreate (decide (s.mode_ ≠ .RDONLY)) s.store
    s.channels_grp_ (c_str name)
  have hG : ∃ group f0, H5Gcreate flt.gcreate (decide (s.mode_ ≠ .RDONLY)) s.store
      s.channels_grp_ (c_str name) = (group, f0) := ⟨_, _, rfl⟩
  obtain ⟨group, f0, hG⟩ := hG
  rw [hG] at g0 g1
  simp only [hG]
  simp only at g0 g1
  have w1 := write_uint_tags flt.uid (decide (s.mode_ ≠ .RDONLY)) f0 group "uid" s.next_id_ g1
  split
  · rename_i e f1 h1
    rw [h1] at w1
    exact w1.trans g0
  rename_i u1 f1 h1
  rw [h1] at w1
  have w2 := write_string_keeps_tags flt.name (decide (s.mode_ ≠ .RDONLY)) f1 group "name" name g1
  split
  · rename_i e f2 h2
    rw [h2] at w2
    exact (w2.trans w1).trans g0
  rename_i u2 f2 h2
  rw [h2] at w2
  have w3 := write_string_keeps_tags flt.type_name (decide (s.mode_ ≠ .RDONLY)) f2 group
    "type_name" type_name g1
  split
  · rename_i e f3 h3
    rw [h3] at w3
    exact ((w3.trans w2).trans w1).trans g0
  rename_i u3 f3 h3
  rw [h3] at w3
  have w4 := write_string_keeps_tags flt.source_name (decide (s.mode_ ≠ .RDONLY)) f3 group
    "source_name" source_name g1
  split
  · rename_i e f4 h4
    rw [h4] at w4
    exact (((w4.trans w3).trans w2).trans w1).trans g0
  rename_i u4 f4 h4
  rw [h4] at w4
  have w5 := write_type_tags flt.mem_type (decide (s.mode_ ≠ .RDONLY)) f4 group "mem_type"
    mem_type g1
  split
  · rename_i e f5 h5
    rw [h5] at w5
    exact ((((w5.trans w4).trans w3).trans w2).trans w1).trans g0
  rename_i u5 f5 h5
  rw [h5] at w5
  have w6 := H5Dcreate_tags (flt.rec_create || !file_type.is_type) (decide (s.mode_ ≠ .RDONLY))
    f5 group RECORDS_SET (.array (H5Tget_size file_type) (List.replicate 10 0)) g1
  have w7 := H5Dcreate_tags flt.ts_create (decide (s.mode_ ≠ .RDONLY))
    (H5Dcreate (flt.rec_create || !file_type.is_type) (decide (s.mode_ ≠ .RDONLY))
      f5 group RECORDS_SET (.array (H5Tget_size file_type) (List.replicate 10 0))).2 group
    TIMESTAMPS_SET (.array 8 (List.replicate 10 0)) g1
  exact (((((w7.trans w6).trans w5).trans w4).trans w3).trans w2).trans w1 |>.trans g0

theorem tags_sound_prepare (s : HDF5R) (h : tags_sound s) : tags_sound (prepare_tags_group s) := by
  unfold prepare_tags_group
  rcases h with e | ⟨e, hs⟩
  · simp only [e, hid_t.valid, Bool.false_eq_true, if_false]
    split
    · rename_i g hg
      exact Or.inr ⟨rfl, by simp [hg]⟩
    · split
      · exact Or.inr ⟨rfl, rfl⟩
      · exact Or.inl rfl
  · simp only [e, hid_t.valid, if_true]
    exact Or.inr ⟨e, hs⟩

theorem H5Dcreate_tags_sound (fl w : Bool) (f : File) (grp : hid_t) (k : String) (init : Obj)
    (h : f.tags.isSome = true) : (H5Dcreate fl w f grp k init).2.tags.isSome = true := by
  by_cases e : grp = .tags_grp
  · subst e
    unfold H5Dcreate
    split
    · exact h
    split
    · exact h
    · rfl
  · rw [H5Dcreate_tags _ _ _ _ _ _ e]
    exact h

theorem H5Dwrite_scalar_tags_sound {fl : Bool} {f f' : File} {grp : hid_t} {k : String} {v : Obj}
    (h : f.tags.isSome = true) (hw : H5Dwrite_scalar fl f grp k v = some f') :
    f'.tags.isSome = true := by
  by_cases e : grp = .tags_grp
  · subst e
    unfold H5Dwrite_scalar at hw
    split at hw
    · simp at hw
    split at hw
    · simp at hw
    split at hw
    · simp only [Option.some.injEq] at hw
      rw [← hw]
      rfl
    · simp at hw
  · rw [H5Dwrite_scalar_tags e hw]
    exact h

/-- Every call of a public operation keeps the tags identifier sound. -/
theorem tags_sound_step (s : HDF5R) (call : Call) (h : tags_sound s) :
    tags_sound (call.state s) := by
  have keep : ∀ s' : HDF5R, s'.tags_grp_ = s.tags_grp_ → s'.store.tags = s.store.tags →
      tags_sound s' := by
    intro s' e1 e2
    unfold tags_sound
    rw [e1, e2]
    exact h
  cases call with
  | add_channel flt name type_name source_name mem_type file_type =>
    exact keep _ (add_channel_fields flt s name type_name source_name mem_type file_type).1
      (add_channel_tags flt s name type_name source_name mem_type file_type)
  | add_entry flt c t v =>
    exact keep _ (add_entry_fields flt s c t v).1 (add_entry_frame flt s c t v).2.2.1
  | get_entry flt c i =>
    simp only [Call.state, get_entry_state]
    exact keep _ rfl rfl
  | get_entry_size c i => exact keep _ rfl rfl
  | get_channel_info flt c =>
    simp only [Call.state, get_channel_info_state]
    exact h
  | set_text_tag flt tag value =>
    have hp := tags_sound_prepare s h
    show tags_sound (hdf5r.set_text_tag flt s tag value).2
    unfold hdf5r.set_text_tag write_string
    simp only []
    rcases hp with e | ⟨e, hs⟩
    · have hc : ∀ init, H5Dcreate false (prepare_tags_group s).writable (prepare_tags_group s).store
          (prepare_tags_group s).tags_grp_ (c_str tag) init = (false, (prepare_tags_group s).store) := by
        intro init
        simp [H5Dcreate, e, File.members]
      split
      · exact Or.inl e
      · rw [hc]
        exact Or.inl e
    · split
      · exact Or.inr ⟨e, hs⟩
      · have c1 := H5Dcreate_tags_sound false (prepare_tags_group s).writable
          (prepare_tags_group s).store (prepare_tags_group s).tags_grp_ (c_str tag) (.str "") hs
        split
        · rename_i f1 e1
          rw [e1] at c1
          exact Or.inr ⟨e, c1⟩
        · rename_i f1 e1
          rw [e1] at c1
          split
          · exact Or.inr ⟨e, c1⟩
          · rename_i f2 e2
            exact Or.inr ⟨e, H5Dwrite_scalar_tags_sound c1 e2⟩
  | set_binary_tag fault tag bytes =>
    have hp := tags_sound_prepare s h
    show tags_sound (hdf5r.set_binary_tag fault s tag bytes).2
    unfold hdf5r.set_binary_tag
    simp only []
    rcases hp with e | ⟨e, hs⟩
    · have hc : ∀ fl init, H5Dcreate fl (prepare_tags_group s).writable (prepare_tags_group s).store
          (prepare_tags_group s).tags_grp_ (c_str tag) init = (false, (prepare_tags_group s).store) := by
        intro fl init
        simp [H5Dcreate, e, File.members]
      rw [hc]
      exact Or.inl e
    · have c1 := H5Dcreate_tags_sound (decide (bytes.length = 0)) (prepare_tags_group s).writable
        (prepare_tags_group s).store (prepare_tags_group s).tags_grp_ (c_str tag)
        (.blob (List.replicate bytes.length 0)) hs
      split
      · rename_i f1 e1
        rw [e1] at c1
        exact Or.inr ⟨e, c1⟩
      · rename_i f1 e1
        rw [e1] at c1
        split
        · exact Or.inr ⟨e, c1⟩
        · rename_i f2 e2
          exact Or.inr ⟨e, H5Dwrite_scalar_tags_sound c1 e2⟩

/-- The tags identifier is sound in every state a session reaches. -/
theorem tags_sound_session (s : HDF5R) (calls : List Call) (h : tags_sound s) :
    tags_sound (session s calls) := by
  induction calls generalizing s with
  | nil => exact h
  | cons call rest ih =>
    simp only [session, List.foldl_cons]
    exact ih _ (tags_sound_step s call h)

/-- The constructor builds a session with a sound tags identifier. -/
theorem tags_sound_open (flt : PrepareFaults) (disk : Option File) (mode : Mode) (s : HDF5R)
    (h : HDF5R.open_ flt disk mode = .ok s) : tags_sound s := by
  have main : ∀ s0 : HDF5R, s0.tags_grp_ = .neg → prepare flt s0 = .ok s → tags_sound s := by
    intro s0 h0 hp
    obtain ⟨s1, -, e2, -, e4, e5⟩ := prepare_tags flt s0 s hp
    have hs1 : tags_sound s1 := Or.inl (e2.trans h0)
    have := tags_sound_prepare s1 hs1
    unfold tags_sound at this ⊢
    rw [e4, e5]
    exact this
  unfold HDF5R.open_ at h
  simp only [] at h
  split at h
  all_goals first
    | exact absurd h (by simp)
    | exact main _ rfl h

/-! ### The pointers of the index stay valid -/

/-- An `add_entry` that returns normally addresses a registered channel. -/
theorem add_entry_ok_registered {flt : AddEntryFaults} {s : HDF5R} {c t v : Nat}
    (h : (add_entry flt s c t v).1.isOk = true) : ∃ chan, find c s.channels_ = some chan := by
  cases hf : find c s.channels_ with
  | some chan => exact ⟨chan, rfl⟩
  | none =>
    exfalso
    revert h
    unfold add_entry
    simp [subscript, hf, H5Dset_extent, File.array, Outcome.isOk]

/-- The channel found under an identifier after `channels_[c]`: the one found
before, or a default-constructed one. -/
theorem find_subscript_cases {m : List (ChannelID × Channel)} {id c : ChannelID} {ch : Channel}
    (h : find id (subscript m c).2 = some ch) : find id m = some ch ∨ ch = {} := by
  unfold subscript at h
  cases hf : find c m with
  | some c1 =>
    rw [hf] at h
    exact Or.inl h
  | none =>
    rw [hf] at h
    simp only [] at h
    by_cases e : id = c
    · subst e
      rw [find_put_same] at h
      exact Or.inr (Option.some.inj h).symm
    · rw [find_put_ne e] at h
      exact Or.inl h

theorem PointersValid.weaken {s : HDF5R} {k : Nat} (h : PointersValid s k) :
    PointersValid s (k + 1) :=
  ⟨Nat.le_succ_of_le h.next, h.fresh, h.valid⟩

/-- A state that differs only by `channels_[c]` keeps the invariant. -/
theorem PointersValid.pointers_subscript {s : HDF5R} {k : Nat} (h : PointersValid s k)
    (c : ChannelID) : PointersValid { s with channels_ := (subscript s.channels_ c).2 } k := by
  refine ⟨h.next, ?_, ?_⟩
  · intro id chan hf hid
    rcases find_subscript_cases hf with e | e
    · exact h.fresh id chan e hid
    · exact e
  · intro t l C P ht hp
    obtain ⟨chan, hc, hP⟩ := h.valid t l C P ht hp
    exact ⟨chan, find_subscript hc, hP⟩

/-- A state with the same registry, counter and index keeps the invariant. -/
theorem PointersValid.pointers_congr {s s' : HDF5R} {k : Nat} (h : PointersValid s k)
    (h1 : s'.channels_ = s.channels_) (h2 : s'.next_id_ = s.next_id_)
    (h3 : s'.index_ = s.index_) : PointersValid s' k := by
  refine ⟨by rw [h2]; exact h.next, ?_, ?_⟩
  · intro id chan hf hid
    rw [h1] at hf
    rw [h2] at hid
    exact h.fresh id chan hf hid
  · intro t l C P ht hp
    rw [h3] at ht
    rw [h1]
    exact h.valid t l C P ht hp

theorem add_channel_next_id (flt : AddChannelFaults) (s : HDF5R)
    (name type_name source_name : String) (mem_type file_type : hid_t) :
    (add_channel flt s name type_name source_name mem_type file_type).2.next_id_ = s.next_id_ ∨
    (add_channel flt s name type_name source_name mem_type file_type).2.next_id_
      = (s.next_id_ + 1) % 2 ^ 64 := by
  unfold add_channel
  simp only []
  repeat' split
  all_goals first | exact Or.inl rfl | exact Or.inr rfl

/-- Every call of a public operation keeps the invariant, as long as the
identifier counter cannot wrap. -/
theorem PointersValid.pointers_step {s : HDF5R} {k : Nat} (h : PointersValid s k) (call : Call)
    (hk : k + 1 < 2 ^ 64) : PointersValid (call.state s) (k + 1) := by
  have e64 : (2 : Nat) ^ 64 = 18446744073709551616 := by norm_num
  cases call with
  | add_channel flt name type_name source_name mem_type file_type =>
    show PointersValid (hdf5r.add_channel flt s name type_name source_name mem_type file_type).2
      (k + 1)
    obtain ⟨r, s', hr⟩ : ∃ r s',
        hdf5r.add_channel flt s name type_name source_name mem_type file_type = (r, s') :=
      ⟨_, _, rfl⟩
    have hs' : (hdf5r.add_channel flt s name type_name source_name mem_type file_type).2 = s' := by
      rw [hr]
    have hidx : s'.index_ = s.index_ := by
      rw [← hs']
      exact (add_channel_fields flt s name type_name source_name mem_type file_type).2.2.2
    have hnext := add_channel_next_id flt s name type_name source_name mem_type file_type
    rw [hs'] at hnext ⊢
    have hn := h.next
    have hmod : (s.next_id_ + 1) % 2 ^ 64 = s.next_id_ + 1 := by
      unfold ChannelID at *
      rw [e64] at hk ⊢
      omega
    rw [hmod] at hnext
    cases r with
    | error e =>
      have hreg := add_channel_error_registry hr
      refine ⟨?_, ?_, ?_⟩
      · unfold ChannelID at *
        omega
      · intro id chan hf hid
        rw [hreg] at hf
        refine h.fresh id chan hf ?_
        unfold ChannelID at *
        omega
      · intro t l C P ht hp
        rw [hidx] at ht
        rw [hreg]
        exact h.valid t l C P ht hp
    | ok id =>
      obtain ⟨hid, -, hnx, -, -, n, rec_set, ts_set, -, hch, -⟩ := add_channel_ok hr
      rw [hmod] at hnx
      refine ⟨?_, ?_, ?_⟩
      · unfold ChannelID at *
        omega
      · intro id' chan hf hle
        have hne : id' ≠ id := by
          unfold ChannelID at *
          omega
        rw [hch, find_put_ne hne] at hf
        refine h.fresh id' chan hf ?_
        unfold ChannelID at *
        omega
      · intro t l C P ht hp
        rw [hidx] at ht
        obtain ⟨chan, hc, hP⟩ := h.valid t l C P ht hp
        have hC : C ≠ id := by
          intro e
          have hd := h.fresh C chan hc (by rw [e, hid])
          rw [hd] at hP
          exact Nat.not_lt_zero _ hP
        exact ⟨chan, by rw [hch, find_put_ne hC]; exact hc, hP⟩
  | add_entry flt c t v =>
    simp only [Call.state]
    cases hok : (add_entry flt s c t v).1.isOk with
    | false =>
      obtain ⟨e1, e2, e3⟩ := add_entry_error hok
      exact ((h.pointers_subscript c).pointers_congr e2 e3 e1).weaken
    | true =>
      obtain ⟨chan, hc⟩ := add_entry_ok_registered hok
      have hr : add_entry flt s c t v = (.ok (), (add_entry flt s c t v).2) := by
        cases hx : add_entry flt s c t v with
        | mk r s' =>
          rw [hx] at hok
          cases r with
          | ok u => rfl
          | error e => simp [Outcome.isOk] at hok
      obtain ⟨xs, ys, hxs, hsz, -, -, -, -, hch, hidx, hnx, -⟩ := add_entry_ok hc hr
      have hlt : c < s.next_id_ := by
        by_contra hge
        have hd := h.fresh c chan hc (Nat.le_of_not_lt hge)
        rw [hd] at hxs
        simp [File.array] at hxs
      refine ⟨by rw [hnx]; exact Nat.le_succ_of_le h.next, ?_, ?_⟩
      · intro id chan' hf hle
        rw [hnx] at hle
        have hne : id ≠ c := Nat.ne_of_gt (Nat.lt_of_lt_of_le hlt hle)
        rw [hch, find_put_ne hne] at hf
        exact h.fresh id chan' hf hle
      · intro t' l C P ht hp
        rw [hidx] at ht
        have old : ∀ C P, (∃ ch, find C s.channels_ = some ch ∧ P < ch.size_) →
            ∃ ch, find C (add_entry flt s c t v).2.channels_ = some ch ∧ P < ch.size_ := by
          intro C P ⟨ch, hf, hP⟩
          rw [hch]
          by_cases e : C = c
          · subst e
            rw [hc] at hf
            cases hf
            exact ⟨_, find_put_same _ _ _, Nat.lt_succ_of_lt hP⟩
          · exact ⟨ch, by rw [find_put_ne e]; exact hf, hP⟩
        rcases mem_put ht with e | e
        · simp only [Prod.mk.injEq] at e
          rw [e.2] at hp
          simp only [List.mem_singleton, Prod.mk.injEq] at hp
          rw [hp.1, hp.2, hch]
          exact ⟨_, find_put_same _ _ _, Nat.lt_succ_self _⟩
        · exact old C P (h.valid t' l C P e hp)
  | get_entry flt c i =>
    simp only [Call.state, get_entry_state]
    exact (h.pointers_subscript c).weaken
  | get_entry_size c i =>
    exact (h.pointers_subscript c).weaken
  | get_channel_info flt c =>
    simp only [Call.state, get_channel_info_state]
    exact h.weaken
  | set_text_tag flt tag value =>
    refine (h.pointers_congr ?_ ?_ ?_).weaken
    · show (hdf5r.set_text_tag flt s tag value).2.channels_ = s.channels_
      unfold hdf5r.set_text_tag prepare_tags_group
      simp only []
      repeat' split
      all_goals rfl
    · show (hdf5r.set_text_tag flt s tag value).2.next_id_ = s.next_id_
      unfold hdf5r.set_text_tag prepare_tags_group
      simp only []
      repeat' split
      all_goals rfl
    · exact (Call.state_pointer s (.set_text_tag flt tag value))
  | set_binary_tag fault tag bytes =>
    refine (h.pointers_congr ?_ ?_ ?_).weaken
    · show (hdf5r.set_binary_tag fault s tag bytes).2.channels_ = s.channels_
      unfold hdf5r.set_binary_tag prepare_tags_group
      simp only []
      repeat' split
      all_goals rfl
    · show (hdf5r.set_binary_tag fault s tag bytes).2.next_id_ = s.next_id_
      unfold hdf5r.set_binary_tag prepare_tags_group
      simp only []
      repeat' split
      all_goals rfl
    · exact (Call.state_pointer s (.set_binary_tag fault tag bytes))

theorem PointersValid.pointers_session {s : HDF5R} {k : Nat} (h : PointersValid s k)
    (calls : List Call) (hk : k + calls.length < 2 ^ 64) :
    PointersValid (session s calls) (k + calls.length) := by
  induction calls generalizing s k with
  | nil => exact h
  | cons call rest ih =>
    simp only [List.length_cons] at hk ⊢
    simp only [session, List.foldl_cons]
    have h1 := h.pointers_step call (by omega)
    have h2 := ih h1 (by omega)
    have e : k + (rest.length + 1) = k + 1 + rest.length := by omega
    rw [e]
    exact h2

/-- A log created by the constructor, in the mode `NEW` or `TRUNCATE`, has no
channel, no index entry, and its identifier counter at zero. -/
theorem open_created (flt : PrepareFaults) (disk : Option File) (mode : Mode) (s : HDF5R)
    (hm : mode = .NEW ∨ mode = .TRUNCATE) (h : HDF5R.open_ flt disk mode = .ok s) :
    s.channels_ = [] ∧ s.next_id_ = 0 ∧ s.index_ = [] := by
  have main : ∀ m : Mode, m ≠ .RDONLY →
      prepare flt ⟨m, {}, .neg, .neg, [], 0, []⟩ = .ok s →
      s.channels_ = [] ∧ s.next_id_ = 0 ∧ s.index_ = [] := by
    intro m hmode hp
    simp [prepare, HDF5R.writable, hmode, prepare_tags_group, hid_t.valid, read_index] at hp
    rw [← hp]
    exact ⟨rfl, rfl, rfl⟩
  rcases hm with e | e
  · subst e
    cases disk with
    | none => exact main .NEW (by simp) h
    | some f => simp [HDF5R.open_] at h
  · subst e
    cases disk with
    | none => exact main .TRUNCATE (by simp) h
    | some f => exact main .TRUNCATE (by simp) h

theorem PointersValid.pointers_init (s : HDF5R) (h1 : s.channels_ = []) (h2 : s.next_id_ = 0)
    (h3 : s.index_ = []) : PointersValid s 0 := by
  refine ⟨by rw [h2], ?_, ?_⟩
  · intro id chan hf
    rw [h1] at hf
    simp [find] at hf
  · intro t l C P ht
    rw [h3] at ht
    simp at ht

/-- Every entry of an index built by assigning pointers to an index is an
entry of that index or holds exactly one of the assigned pointers. -/
theorem mem_foldl_put (L : List (Nat × IndexPointer)) (acc : Index) (t : Nat)
    (l : IndexPointerList)
    (h : (t, l) ∈ L.foldl (fun acc tp => put tp.1 [tp.2] acc) acc) :
    (t, l) ∈ acc ∨ ∃ p, l = [p] ∧ (t, p) ∈ L := by
  induction L generalizing acc with
  | nil => exact Or.inl h
  | cons x rest ih =>
    rw [List.foldl_cons] at h
    rcases ih _ h with e | ⟨p, e1, e2⟩
    · rcases mem_put e with e' | e'
      · simp only [Prod.mk.injEq] at e'
        exact Or.inr ⟨x.2, e'.2, by rw [e'.1]; exact List.mem_cons_self _ _⟩
      · exact Or.inl e'
    · exact Or.inr ⟨p, e1, List.mem_cons_of_mem _ e2⟩

/-- Every pointer recorded in the course of a sequence of calls was recorded
by one of its calls of `add_entry`, which returned normally, with the size the
channel had in the state before that call as ordinal. -/
theorem mem_pointers (s : HDF5R) (calls : List Call) (t C P : Nat)
    (h : (t, (C, P)) ∈ pointers s calls) :
    ∃ pre flt buf post, calls = pre ++ Call.add_entry flt C t buf :: post ∧
      (add_entry flt (session s pre) C t buf).1.isOk = true ∧
      P = (subscript (session s pre).channels_ C).1.size_ := by
  induction calls generalizing s with
  | nil => simp [pointers] at h
  | cons call rest ih =>
    simp only [pointers, List.mem_append] at h
    rcases h with h | h
    · cases call with
      | add_entry flt c ts buf =>
        simp only [Call.pointer] at h
        split at h
        · rename_i hok
          simp only [List.mem_singleton, Prod.mk.injEq] at h
          obtain ⟨e1, e2, e3⟩ := h
          subst e1 e2
          exact ⟨[], flt, buf, rest, rfl, hok, e3⟩
        · simp at h
      | add_channel flt name type_name source_name mem_type file_type =>
        simp [Call.pointer] at h
      | get_entry flt c i => simp [Call.pointer] at h
      | get_entry_size c i => simp [Call.pointer] at h
      | get_channel_info flt c => simp [Call.pointer] at h
      | set_text_tag flt tag value => simp [Call.pointer] at h
      | set_binary_tag fault tag bytes => simp [Call.pointer] at h
    · obtain ⟨pre, flt, buf, post, e1, e2, e3⟩ := ih _ h
      refine ⟨call :: pre, flt, buf, post, by rw [e1]; rfl, ?_, ?_⟩
      · simpa [session] using e2
      · simpa [session] using e3

/-- C21: in every state reachable from a newly created log (the constructor in
the mode `NEW` or `TRUNCATE`) by fewer than `2 ^ 64` calls of public
operations, `add_channel` and `add_entry` among them, returning or throwing,
in any environment, every pointer `(C, P)` of the index names a registered
channel `C`, `P` is below the current size of `C`, and `P` is the size `C`
had in the state before the call of `add_entry` that recorded the pointer
under its time stamp. -/
theorem index_pointers_valid (flt : PrepareFaults) (disk : Option File) (mode : Mode)
    (s0 : HDF5R) (calls : List Call) (timestamp : Nat) (l : IndexPointerList) (C P : Nat)
    (h0 : HDF5R.open_ flt disk mode = .ok s0) (hm : mode = .NEW ∨ mode = .TRUNCATE)
    (hn : calls.length < 2 ^ 64)
    (he : (timestamp, l) ∈ index (session s0 calls)) (hp : (C, P) ∈ l) :
    C ∈ channels (session s0 calls) ∧
      (∃ chan, find C (session s0 calls).channels_ = some chan ∧ P < chan.size_) ∧
      ∃ pre fe buf post chan0, calls = pre ++ Call.add_entry fe C timestamp buf :: post ∧
        (add_entry fe (session s0 pre) C timestamp buf).1 = .ok () ∧
        find C (session s0 pre).channels_ = some chan0 ∧ chan0.size_ = P := by
  obtain ⟨c1, c2, c3⟩ := open_created flt disk mode s0 hm h0
  have inv := (PointersValid.pointers_init s0 c1 c2 c3).pointers_session calls
    (by rw [Nat.zero_add]; exact hn)
  obtain ⟨chan, hc, hP⟩ := inv.valid timestamp l C P he hp
  refine ⟨?_, ⟨chan, hc, hP⟩, ?_⟩
  · have hmem := find_mem hc
    exact List.mem_map.2 ⟨(C, chan), hmem, rfl⟩
  · have hidx : (timestamp, l) ∈
        (pointers s0 calls).foldl (fun acc tp => put tp.1 [tp.2] acc) s0.index_ := by
      rw [← session_index]
      exact he
    rw [c3] at hidx
    rcases mem_foldl_put _ _ _ _ hidx with e | ⟨p, e1, e2⟩
    · simp at e
    · rw [e1] at hp
      simp only [List.mem_singleton] at hp
      rw [← hp] at e2
      obtain ⟨pre, fe, buf, post, q1, q2, q3⟩ := mem_pointers s0 calls timestamp C P e2
      obtain ⟨chan0, hc0⟩ := add_entry_ok_registered q2
      refine ⟨pre, fe, buf, post, chan0, q1, ?_, hc0, ?_⟩
      · cases hx : (add_entry fe (session s0 pre) C timestamp buf).1 with
        | ok u => rfl
        | error e =>
          rw [hx] at q2
          simp [Outcome.isOk] at q2
      · rw [subscript_found hc0] at q3
        exact q3.symm

theorem index_pointers_valid_witness :
    HDF5R.open_ {} none .TRUNCATE = .ok new_log ∧
      index (session new_log pointer_calls) = [(100, [(1, 0)]), (200, [(0, 1)])] ∧
      (session new_log pointer_calls).channels_.map (fun p => (p.1, p.2.size_))
        = [(0, 2), (1, 1)] ∧
      (0 ∈ channels (session new_log pointer_calls) ∧
        (∃ chan, find 0 (session new_log pointer_calls).channels_ = some chan ∧
          1 < chan.size_) ∧
        ∃ pre fe buf post chan0,
          pointer_calls = pre ++ Call.add_entry fe 0 200 buf :: post ∧
          (add_entry fe (session new_log pre) 0 200 buf).1 = .ok () ∧
          find 0 (session new_log pre).channels_ = some chan0 ∧ chan0.size_ = 1) :=
  ⟨by decide, by decide, by decide,
    index_pointers_valid {} none .TRUNCATE new_log pointer_calls 200 [(0, 1)] 0 1 (by decide)
      (Or.inr rfl) (by decide) (by decide) (by decide)⟩

end hdf5r
